import Mathlib

/-!
# cslibs_ndt_3d::dynamic_maps::OccupancyGridmap

A shallow embedding of `cslibs_ndt_3d/dynamic_maps/occupancy_gridmap.hpp`.

* `int` indices are `Int`; the conversions `static_cast<int>(std::floor(..))` are
  taken inside the `int` range.
* `double` values are exact rationals (`ℚ`): the development speaks about which
  expression the code evaluates, not about rounding.
* Pointers into the corner lattices are handles `(lattice, storage index)`;
  a null pointer is `none`.
* Every member of the class is `mutable`, so `const` member functions are
  state transformers like the others.
* Locks are not modelled: execution is sequential.
-/

namespace cslibs_ndt_3d

/-! ## Indices -/

/-- The type `index_t = std::array<int, 3>`. -/
structure index_t where
  x : Int
  y : Int
  z : Int
deriving DecidableEq, Repr

/-- Modelled from the spec: the overload of `std::min` for two arrays that
`updateIndices` calls; it comes with `cslibs_math/common/array.hpp`, which is
not part of the sources. The specification defines the Bounding Index as the
running component-wise minimum of the allocated bundle indices, so the call is
the minimum on each axis. -/
def std_min (a b : index_t) : index_t := ⟨min a.x b.x, min a.y b.y, min a.z b.z⟩

/-- Modelled from the spec: the overload of `std::max` for two arrays that
`updateIndices` calls; it comes with `cslibs_math/common/array.hpp`, which is
not part of the sources. The specification defines the Bounding Index as the
running component-wise maximum of the allocated bundle indices, so the call is
the maximum on each axis. -/
def std_max (a b : index_t) : index_t := ⟨max a.x b.x, max a.y b.y, max a.z b.z⟩

/-- The constant `std::numeric_limits<int>::max()`. -/
def INT_MAX : Int := 2147483647

/-- The constant `std::numeric_limits<int>::min()`. -/
def INT_MIN : Int := -2147483648

/-- Modelled from the spec: `cslibs_math::common::div<int>` (its header is not
part of the sources); the quotient of `divmod(b, 2)`, rounded towards minus
infinity. -/
def div (a b : Int) : Int := Int.fdiv a b

/-- Modelled from the spec: `cslibs_math::common::mod<int>` (its header is not
part of the sources); the remainder of `divmod(b, 2)`, never negative for a
positive divisor. -/
def mod (a b : Int) : Int := Int.fmod a b

/-! ## Points and rigid transforms -/

/-- The type `point_t = cslibs_math_3d::Point3d`, with exact coordinates. -/
structure point_t where
  x : ℚ
  y : ℚ
  z : ℚ
deriving DecidableEq

/-- Modelled from the spec: the rigid transform `cslibs_math_3d::Transform3d`
(its header is not part of the sources), as the rows of a rotation matrix and
a translation. -/
structure transform_t where
  rx : point_t
  ry : point_t
  rz : point_t
  t : point_t
deriving DecidableEq

/-- The identity transform. -/
def transform_t.identity : transform_t :=
  ⟨⟨1, 0, 0⟩, ⟨0, 1, 0⟩, ⟨0, 0, 1⟩, ⟨0, 0, 0⟩⟩

/-- The product `T * p` of a transform and a point. -/
def transform_t.apply (T : transform_t) (p : point_t) : point_t :=
  ⟨T.rx.x * p.x + T.rx.y * p.y + T.rx.z * p.z + T.t.x,
   T.ry.x * p.x + T.ry.y * p.y + T.ry.z * p.z + T.t.y,
   T.rz.x * p.x + T.rz.y * p.y + T.rz.z * p.z + T.t.z⟩

/-- The inverse of a rigid transform: the transposed rotation and the
translation carried back through it. -/
def transform_t.inverse (T : transform_t) : transform_t :=
  ⟨⟨T.rx.x, T.ry.x, T.rz.x⟩, ⟨T.rx.y, T.ry.y, T.rz.y⟩, ⟨T.rx.z, T.ry.z, T.rz.z⟩,
   ⟨-(T.rx.x * T.t.x + T.ry.x * T.t.y + T.rz.x * T.t.z),
    -(T.rx.y * T.t.x + T.ry.y * T.t.y + T.rz.y * T.t.z),
    -(T.rx.z * T.t.x + T.ry.z * T.t.y + T.rz.z * T.t.z)⟩⟩

/-! ## The distribution accumulator -/

/-- Modelled from the spec: the fitted Gaussian held by an accumulator
(`cslibs_ndt::Distribution<3>`, not part of the sources), kept as the points
fused into it. -/
structure gaussian_t where
  points : List point_t
deriving DecidableEq

/-- One call of an update member of the accumulator. -/
inductive update_t where
  | free : update_t
  | free_n (n : Nat) : update_t
  | occupied (p : point_t) : update_t
  | occupied_d (d : gaussian_t) : update_t
deriving DecidableEq

/-- Modelled from the spec: the Distribution Accumulator
`cslibs_ndt::OccupancyDistribution<3>` (not part of the sources), kept as the
sequence of updates it has received; `distribution_t()` has received none. -/
structure distribution_t where
  log : List update_t
deriving DecidableEq

instance : Inhabited distribution_t := ⟨⟨[]⟩⟩

/-- The member `updateFree()`. -/
def distribution_t.updateFree (d : distribution_t) : distribution_t :=
  ⟨d.log ++ [update_t.free]⟩

/-- The member `updateFree(n)`. -/
def distribution_t.updateFree_n (n : Nat) (d : distribution_t) : distribution_t :=
  ⟨d.log ++ [update_t.free_n n]⟩

/-- The member `updateOccupied(p)` for a point. -/
def distribution_t.updateOccupied (p : point_t) (d : distribution_t) : distribution_t :=
  ⟨d.log ++ [update_t.occupied p]⟩

/-- The member `updateOccupied(d)` for a fused distribution. -/
def distribution_t.updateOccupied_d (g : gaussian_t) (d : distribution_t) : distribution_t :=
  ⟨d.log ++ [update_t.occupied_d g]⟩

/-- The type `inverse_sensor_model_t`: the three probability constants. -/
structure inverse_sensor_model_t where
  prob_prior : ℚ
  prob_free : ℚ
  prob_occupied : ℚ

/-- Modelled from the spec: the read interface of the accumulator and of its
Gaussian (not part of the sources): `getDistribution()`, the two densities and
`getOccupancy(model)`. -/
structure accumulator_api where
  getDistribution : distribution_t → Option gaussian_t
  sample : gaussian_t → point_t → ℚ
  sampleNonNormalized : gaussian_t → point_t → ℚ
  getOccupancy : distribution_t → inverse_sensor_model_t → ℚ

/-! ## Sparse indexed storage -/

/-- Modelled from the spec: `cis::Storage<T, index_t, KDTree>` (not part of
the sources), a mapping from an index to a value, kept as its entries. -/
structure Storage (α : Type) where
  entries : List (index_t × α)

/-- The empty storage. -/
def Storage.empty {α : Type} : Storage α := ⟨[]⟩

/-- The member `get(i)`: the value stored for `i`, or null. -/
def Storage.get {α : Type} (s : Storage α) (i : index_t) : Option α :=
  (s.entries.find? (fun e => decide (e.1 = i))).map Prod.snd

/-- The member `insert(i, v)`; the map only calls it after `get(i)` returned
null. -/
def Storage.insert {α : Type} (s : Storage α) (i : index_t) (v : α) : Storage α :=
  ⟨(i, v) :: s.entries⟩

/-- A write through the pointer that `get(i)` or `insert(i, _)` returned. -/
def Storage.modify {α : Type} (s : Storage α) (i : index_t) (f : α → α) : Storage α :=
  ⟨s.entries.map (fun e => if e.1 = i then (e.1, f e.2) else e)⟩

/-- The indices a `traverse` visits. -/
def Storage.keys {α : Type} (s : Storage α) : List index_t :=
  s.entries.map Prod.fst

/-! ## The map -/

/-- A non-null `distribution_t*`: the corner lattice it points into and the
storage index of the accumulator. -/
structure distribution_ref where
  lattice : Fin 8
  index : index_t
deriving DecidableEq

/-- The type `distribution_bundle_t = Bundle<distribution_t*, 8>`; `none` is a
null pointer. -/
abbrev distribution_bundle_t := Fin 8 → Option distribution_ref

/-- The data members of `OccupancyGridmap`. -/
structure OccupancyGridmap where
  resolution_ : ℚ
  resolution_inv_ : ℚ
  bundle_resolution_ : ℚ
  bundle_resolution_inv_ : ℚ
  w_T_m_ : transform_t
  m_T_w_ : transform_t
  min_index_ : index_t
  max_index_ : index_t
  storage_ : Fin 8 → Storage distribution_t
  bundle_storage_ : Storage distribution_bundle_t

/-- The constructor `OccupancyGridmap(origin, resolution)`. The initialisers
of `min_index_` and `max_index_` list two values, the third element of each
array is value-initialised to 0. -/
def OccupancyGridmap.new (origin : transform_t) (resolution : ℚ) : OccupancyGridmap :=
  { resolution_ := resolution
    resolution_inv_ := 1 / resolution
    bundle_resolution_ := 0.5 * resolution
    bundle_resolution_inv_ := 1 / (0.5 * resolution)
    w_T_m_ := origin
    m_T_w_ := origin.inverse
    min_index_ := ⟨INT_MAX, INT_MAX, 0⟩
    max_index_ := ⟨INT_MIN, INT_MIN, 0⟩
    storage_ := fun _ => Storage.empty
    bundle_storage_ := Storage.empty }

/-- The member `getMin()`. -/
def getMin (m : OccupancyGridmap) : point_t :=
  ⟨m.min_index_.x * m.bundle_resolution_,
   m.min_index_.y * m.bundle_resolution_,
   m.min_index_.z * m.bundle_resolution_⟩

/-- The member `getMax()`. -/
def getMax (m : OccupancyGridmap) : point_t :=
  ⟨(m.max_index_.x + 1) * m.bundle_resolution_,
   (m.max_index_.y + 1) * m.bundle_resolution_,
   (m.max_index_.z + 1) * m.bundle_resolution_⟩

/-- The member `updateIndices(bi)`. -/
def updateIndices (m : OccupancyGridmap) (bi : index_t) : OccupancyGridmap :=
  { m with
    min_index_ := std_min m.min_index_ bi
    max_index_ := std_max m.max_index_ bi }

/-- The member `toBundleIndex(p_w)`. -/
def toBundleIndex (m : OccupancyGridmap) (p_w : point_t) : index_t :=
  let p_m := m.m_T_w_.apply p_w
  ⟨Int.floor (p_m.x * m.bundle_resolution_inv_),
   Int.floor (p_m.y * m.bundle_resolution_inv_),
   Int.floor (p_m.z * m.bundle_resolution_inv_)⟩

/-- The member `getAllocate(s, i)` on one corner lattice, as the lattice after
the call; the pointer it returns is the accumulator at `i`. -/
def getAllocate_storage (s : Storage distribution_t) (i : index_t) : Storage distribution_t :=
  match s.get i with
  | some _ => s
  | none => s.insert i default

/-- The call `getAllocate(storage_[k], i)` inside the map: lattice `k` after
the call and the pointer returned. -/
def getAllocate_corner (m : OccupancyGridmap) (k : Fin 8) (i : index_t) :
    OccupancyGridmap × Option distribution_ref :=
  let s := getAllocate_storage (m.storage_ k) i
  ({ m with storage_ := Function.update m.storage_ k s }, some ⟨k, i⟩)

/-- The eight storage indices `storage_index_0 .. storage_index_7` computed in
`allocate_bundle`. -/
def storage_index (bi : index_t) (k : Fin 8) : index_t :=
  let divx := div bi.x 2
  let divy := div bi.y 2
  let divz := div bi.z 2
  let modx := mod bi.x 2
  let mody := mod bi.y 2
  let modz := mod bi.z 2
  match k with
  | 0 => ⟨divx,        divy,        divz⟩
  | 1 => ⟨divx + modx, divy,        divz⟩
  | 2 => ⟨divx,        divy + mody, divz⟩
  | 3 => ⟨divx + modx, divy + mody, divz⟩
  | 4 => ⟨divx,        divy,        divz + modz⟩
  | 5 => ⟨divx + modx, divy,        divz + modz⟩
  | 6 => ⟨divx,        divy + mody, divz + modz⟩
  | 7 => ⟨divx + modx, divy + mody, divz + modz⟩

/-- The lambda `allocate_bundle` of `getAllocate(bi)`. -/
def allocate_bundle (m : OccupancyGridmap) (bi : index_t) :
    OccupancyGridmap × distribution_bundle_t :=
  let r0 := getAllocate_corner m 0 (storage_index bi 0)
  let r1 := getAllocate_corner r0.1 1 (storage_index bi 1)
  let r2 := getAllocate_corner r1.1 2 (storage_index bi 2)
  let r3 := getAllocate_corner r2.1 3 (storage_index bi 3)
  let r4 := getAllocate_corner r3.1 4 (storage_index bi 4)
  let r5 := getAllocate_corner r4.1 5 (storage_index bi 5)
  let r6 := getAllocate_corner r5.1 6 (storage_index bi 6)
  let r7 := getAllocate_corner r6.1 7 (storage_index bi 7)
  let b : distribution_bundle_t := fun k =>
    match k with
    | 0 => r0.2
    | 1 => r1.2
    | 2 => r2.2
    | 3 => r3.2
    | 4 => r4.2
    | 5 => r5.2
    | 6 => r6.2
    | 7 => r7.2
  let m1 := updateIndices r7.1 bi
  ({ m1 with bundle_storage_ := m1.bundle_storage_.insert bi b }, b)

/-- The member `getAllocate(bi)`: the map after the call and the bundle the
returned pointer refers to. -/
def getAllocate (m : OccupancyGridmap) (bi : index_t) :
    OccupancyGridmap × distribution_bundle_t :=
  match m.bundle_storage_.get bi with
  | some bundle => (m, bundle)
  | none => allocate_bundle m bi

/-- The member `getDistributionBundle(bi)`. -/
def getDistributionBundle (m : OccupancyGridmap) (bi : index_t) :
    OccupancyGridmap × distribution_bundle_t :=
  getAllocate m bi

/-- The accumulator a pointer refers to. -/
def deref (m : OccupancyGridmap) (r : distribution_ref) : Option distribution_t :=
  (m.storage_ r.lattice).get r.index

/-- A call `ptr->f()` of an update member through a corner pointer: a write
to the accumulator the pointer refers to. The pointers of a stored bundle are
never null in a reachable state. -/
def call_through (m : OccupancyGridmap) (ptr : Option distribution_ref)
    (f : distribution_t → distribution_t) : OccupancyGridmap :=
  match ptr with
  | none => m
  | some r =>
    let s := (m.storage_ r.lattice).modify r.index f
    { m with storage_ := Function.update m.storage_ r.lattice s }

/-- The eight calls `bundle->at(0)->f() .. bundle->at(7)->f()` that end each
of the four update members. -/
def update_corners (m : OccupancyGridmap) (bundle : distribution_bundle_t)
    (f : distribution_t → distribution_t) : OccupancyGridmap :=
  let m0 := call_through m (bundle 0) f
  let m1 := call_through m0 (bundle 1) f
  let m2 := call_through m1 (bundle 2) f
  let m3 := call_through m2 (bundle 3) f
  let m4 := call_through m3 (bundle 4) f
  let m5 := call_through m4 (bundle 5) f
  let m6 := call_through m5 (bundle 6) f
  call_through m6 (bundle 7) f

/-- The member `updateFree(bi)`. -/
def updateFree (m : OccupancyGridmap) (bi : index_t) : OccupancyGridmap :=
  let r := getAllocate m bi
  update_corners r.1 r.2 distribution_t.updateFree

/-- The member `updateFree(bi, n)`. -/
def updateFree_n (m : OccupancyGridmap) (bi : index_t) (n : Nat) : OccupancyGridmap :=
  let r := getAllocate m bi
  update_corners r.1 r.2 (distribution_t.updateFree_n n)

/-- The member `updateOccupied(bi, p)` for a point. -/
def updateOccupied (m : OccupancyGridmap) (bi : index_t) (p : point_t) : OccupancyGridmap :=
  let r := getAllocate m bi
  update_corners r.1 r.2 (distribution_t.updateOccupied p)

/-- The member `updateOccupied(bi, d)` for a fused distribution. -/
def updateOccupied_d (m : OccupancyGridmap) (bi : index_t) (d : gaussian_t) :
    OccupancyGridmap :=
  let r := getAllocate m bi
  update_corners r.1 r.2 (distribution_t.updateOccupied_d d)

/-- States of a map constructed by `OccupancyGridmap(origin, resolution)` and
then changed by the private members through which every public operation
(`add`, `insert`, `insertVolumetric`, `getDistributionBundle`) acts on the
map: `getAllocate` and the four update members. -/
inductive Reachable : OccupancyGridmap → Prop where
  | new (origin : transform_t) (resolution : ℚ) :
      Reachable (OccupancyGridmap.new origin resolution)
  | getAllocate {m : OccupancyGridmap} (bi : index_t) :
      Reachable m → Reachable (getAllocate m bi).1
  | updateFree {m : OccupancyGridmap} (bi : index_t) :
      Reachable m → Reachable (updateFree m bi)
  | updateFree_n {m : OccupancyGridmap} (bi : index_t) (n : Nat) :
      Reachable m → Reachable (updateFree_n m bi n)
  | updateOccupied {m : OccupancyGridmap} (bi : index_t) (p : point_t) :
      Reachable m → Reachable (updateOccupied m bi p)
  | updateOccupied_d {m : OccupancyGridmap} (bi : index_t) (d : gaussian_t) :
      Reachable m → Reachable (updateOccupied_d m bi d)

/-! ## Sampling -/

/-- The lambda `sample` inside the member `sample`:
`(d && d->getDistribution()) ? d->getDistribution()->sample(p) * d->getOccupancy(ivm) : 0.0`.
A pointer whose accumulator is absent does not occur in a reachable state. -/
def sample_lambda (api : accumulator_api) (ivm : inverse_sensor_model_t)
    (m : OccupancyGridmap) (d : Option distribution_ref) (p : point_t) : ℚ :=
  match d with
  | none => 0
  | some r =>
    match deref m r with
    | none => 0
    | some a =>
      match api.getDistribution a with
      | none => 0
      | some g => api.sample g p * api.getOccupancy a ivm

/-- The lambda `evaluate` inside the member `sample`. -/
def sample_evaluate (api : accumulator_api) (ivm : inverse_sensor_model_t)
    (m : OccupancyGridmap) (b : distribution_bundle_t) (p : point_t) : ℚ :=
  0.125 * (sample_lambda api ivm m (b 0) p +
           sample_lambda api ivm m (b 1) p +
           sample_lambda api ivm m (b 2) p +
           sample_lambda api ivm m (b 3) p +
           sample_lambda api ivm m (b 4) p +
           sample_lambda api ivm m (b 5) p +
           sample_lambda api ivm m (b 6) p +
           sample_lambda api ivm m (b 7) p)

/-- The member `sample(p, ivm)`: the value returned and the map after the
call. -/
def sample (api : accumulator_api) (m : OccupancyGridmap) (p : point_t)
    (ivm : inverse_sensor_model_t) : ℚ × OccupancyGridmap :=
  let bi := toBundleIndex m p
  let bundle := m.bundle_storage_.get bi
  match bundle with
  | some b => (sample_evaluate api ivm m b p, m)
  | none => (0, m)

/-- The lambda `sample` inside the member `sampleNonNormalized`. -/
def sampleNonNormalized_lambda (api : accumulator_api) (ivm : inverse_sensor_model_t)
    (m : OccupancyGridmap) (d : Option distribution_ref) (p : point_t) : ℚ :=
  match d with
  | none => 0
  | some r =>
    match deref m r with
    | none => 0
    | some a =>
      match api.getDistribution a with
      | none => 0
      | some g => api.sampleNonNormalized g p * api.getOccupancy a ivm

/-- The lambda `evaluate` inside the member `sampleNonNormalized`. -/
def sampleNonNormalized_evaluate (api : accumulator_api) (ivm : inverse_sensor_model_t)
    (m : OccupancyGridmap) (b : distribution_bundle_t) (p : point_t) : ℚ :=
  0.125 * (sampleNonNormalized_lambda api ivm m (b 0) p +
           sampleNonNormalized_lambda api ivm m (b 1) p +
           sampleNonNormalized_lambda api ivm m (b 2) p +
           sampleNonNormalized_lambda api ivm m (b 3) p +
           sampleNonNormalized_lambda api ivm m (b 4) p +
           sampleNonNormalized_lambda api ivm m (b 5) p +
           sampleNonNormalized_lambda api ivm m (b 6) p +
           sampleNonNormalized_lambda api ivm m (b 7) p)

/-- The member `sampleNonNormalized(p, ivm)`: the value returned and the map
after the call. -/
def sampleNonNormalized (api : accumulator_api) (m : OccupancyGridmap) (p : point_t)
    (ivm : inverse_sensor_model_t) : ℚ × OccupancyGridmap :=
  let bi := toBundleIndex m p
  let bundle := m.bundle_storage_.get bi
  match bundle with
  | some b => (sampleNonNormalized_evaluate api ivm m b p, m)
  | none => (0, m)

/-! ## Ray insertion -/

/-- Modelled from the spec: the Ray Iterator interface `line_iterator_t` (the
iterators of `cslibs_math_3d` are not part of the sources): constructible from
`(start, end, step)`, with `done()`, `operator++` and the integer coordinate
accessors `x()`, `y()`, `z()`. -/
structure line_iterator_t where
  state : Type
  make : point_t → point_t → ℚ → state
  done : state → Bool
  next : state → state
  x : state → Int
  y : state → Int
  z : state → Int

/-- The loop `while (!it.done()) { updateFree({{it.x(), it.y(), it.z()}}); ++ it; }`
of `add`, run for at most `fuel` tests of `done()`. -/
def add_loop (I : line_iterator_t) : Nat → I.state → OccupancyGridmap → Option OccupancyGridmap
  | 0, _, _ => none
  | fuel + 1, it, m =>
    if I.done it then some m
    else add_loop I fuel (I.next it) (updateFree m ⟨I.x it, I.y it, I.z it⟩)

/-- The member `add(start_p, end_p)`. -/
def add (I : line_iterator_t) (fuel : Nat) (m : OccupancyGridmap) (start_p end_p : point_t) :
    Option OccupancyGridmap :=
  let end_index := toBundleIndex m end_p
  let m1 := updateOccupied m end_index end_p
  let it := I.make (m1.m_T_w_.apply start_p) (m1.m_T_w_.apply end_p) m1.bundle_resolution_
  add_loop I fuel it m1

/-- The member `add(start_p, end_p, end_index)`: the map after the call and
the value left in `end_index`. -/
def add_end_index (I : line_iterator_t) (fuel : Nat) (m : OccupancyGridmap)
    (start_p end_p : point_t) : Option (OccupancyGridmap × index_t) :=
  let end_index := toBundleIndex m end_p
  let m1 := updateOccupied m end_index end_p
  let it := I.make (m1.m_T_w_.apply start_p) (m1.m_T_w_.apply end_p) m1.bundle_resolution_
  (add_loop I fuel it m1).map (fun m2 => (m2, end_index))

/-- The indices for which the loop of `add` runs its body: those the iterator
shows while `done()` is false, within `fuel` tests of `done()`. -/
def traversed (I : line_iterator_t) : Nat → I.state → Option (List index_t)
  | 0, _ => none
  | fuel + 1, it =>
    if I.done it then some []
    else (traversed I fuel (I.next it)).map (fun l => ⟨I.x it, I.y it, I.z it⟩ :: l)

/-- Modelled from the spec: a Ray Iterator (`cslibs_math_3d::algorithms::SimpleIterator`
is not part of the sources). It starts in the voxel of the start point, is
`done()` in the voxel of the end point and moves one voxel towards it on every
axis on which it has not arrived; on a ray parallel to an axis these are the
voxels the ray crosses, in order. -/
def simple_iterator_t : line_iterator_t where
  state := index_t × index_t
  make := fun p0 p1 step =>
    (⟨Int.floor (p0.x / step), Int.floor (p0.y / step), Int.floor (p0.z / step)⟩,
     ⟨Int.floor (p1.x / step), Int.floor (p1.y / step), Int.floor (p1.z / step)⟩)
  done := fun s => decide (s.1 = s.2)
  next := fun s =>
    (⟨s.1.x + Int.sign (s.2.x - s.1.x), s.1.y + Int.sign (s.2.y - s.1.y),
      s.1.z + Int.sign (s.2.z - s.1.z)⟩, s.2)
  x := fun s => s.1.x
  y := fun s => s.1.y
  z := fun s => s.1.z

/-! ## Statements taken from the specification -/

/-- The box property of the Bounding Index in the specification's words: on
each of the three axes `b` lies between `lo` and `hi`. -/
def within_bounds (lo hi b : index_t) : Prop :=
  (lo.x ≤ b.x ∧ b.x ≤ hi.x) ∧ (lo.y ≤ b.y ∧ b.y ≤ hi.y) ∧ (lo.z ≤ b.z ∧ b.z ≤ hi.z)

instance within_bounds.dec (lo hi b : index_t) : Decidable (within_bounds lo hi b) := by
  unfold within_bounds
  exact inferInstance

/-- The specification's order on bounds: `a` is at most `b` on every axis. -/
def index_t.le_on_every_axis (a b : index_t) : Prop :=
  a.x ≤ b.x ∧ a.y ≤ b.y ∧ a.z ≤ b.z

instance index_t.le_on_every_axis.dec (a b : index_t) :
    Decidable (index_t.le_on_every_axis a b) := by
  unfold index_t.le_on_every_axis
  exact inferInstance

/-- The corner offset pattern of the specification: bit 0 of `k` for x, bit 1
for y, bit 2 for z, each 0 or 1. -/
def corner_offset (k : Fin 8) : index_t :=
  ⟨(k.val % 2 : Nat), (k.val / 2 % 2 : Nat), (k.val / 4 % 2 : Nat)⟩

/-- The storage index the specification predicts for corner `k` of bundle
`b`: per axis the floor quotient of `b` by 2 plus the corner offset bit. -/
def predicted_storage_index (b : index_t) (k : Fin 8) : index_t :=
  ⟨Int.fdiv b.x 2 + (corner_offset k).x, Int.fdiv b.y 2 + (corner_offset k).y,
   Int.fdiv b.z 2 + (corner_offset k).z⟩

/-- The product the specification names for one corner accumulator: the
normalized density at `p` times the occupancy, and 0 for a corner with no
fitted Gaussian. -/
def corner_product (api : accumulator_api) (ivm : inverse_sensor_model_t) (p : point_t)
    (a : distribution_t) : ℚ :=
  match api.getDistribution a with
  | none => 0
  | some g => api.sample g p * api.getOccupancy a ivm

/-- The product of the specification with the non-normalized density. -/
def corner_product_nn (api : accumulator_api) (ivm : inverse_sensor_model_t) (p : point_t)
    (a : distribution_t) : ℚ :=
  match api.getDistribution a with
  | none => 0
  | some g => api.sampleNonNormalized g p * api.getOccupancy a ivm

/-- The updates the accumulator of lattice `k` at storage index `i` has
received; an accumulator that does not exist has received none. -/
def observed (m : OccupancyGridmap) (k : Fin 8) (i : index_t) : List update_t :=
  match (m.storage_ k).get i with
  | none => []
  | some a => a.log

/-- The allocation invariant: every stored bundle holds, for each corner `k`,
a non-null pointer into lattice `k` at the storage index `allocate_bundle`
computes, the accumulator it points to exists, and no storage holds an index
twice. -/
structure WellFormed (m : OccupancyGridmap) : Prop where
  corners : ∀ bi b, m.bundle_storage_.get bi = some b →
    ∀ k : Fin 8, b k = some ⟨k, storage_index bi k⟩
  present : ∀ bi b, m.bundle_storage_.get bi = some b →
    ∀ k : Fin 8, ((m.storage_ k).get (storage_index bi k)).isSome = true
  bundle_nodup : m.bundle_storage_.keys.Nodup
  storage_nodup : ∀ k : Fin 8, (m.storage_ k).keys.Nodup

/-! ## Concrete maps for the worked examples -/

/-- A map constructed at the identity pose with resolution 1, so its bundle
resolution is 0.5. -/
def unit_map : OccupancyGridmap := OccupancyGridmap.new transform_t.identity 1

/-- The map `unit_map` after `getDistributionBundle({0, 5, 0})`. -/
def one_bundle_map : OccupancyGridmap := (getDistributionBundle unit_map ⟨0, 5, 0⟩).1

/-- The product of the specification for the corner a pointer refers to; a
null pointer contributes 0. -/
def corner_product_at (api : accumulator_api) (ivm : inverse_sensor_model_t)
    (m : OccupancyGridmap) (d : Option distribution_ref) (p : point_t) : ℚ :=
  match d.bind (deref m) with
  | none => 0
  | some a => corner_product api ivm p a

/-- An accumulator interface for the worked examples: a Gaussian is fitted
once an occupied update has arrived, both densities are 1 everywhere and the
occupancy is one half. -/
def example_api : accumulator_api where
  getDistribution := fun d =>
    match d.log.filterMap (fun u => match u with
      | update_t.occupied p => some p
      | _ => none) with
    | [] => none
    | ps => some ⟨ps⟩
  sample := fun _ _ => 1
  sampleNonNormalized := fun _ _ => 1
  getOccupancy := fun _ _ => 1 / 2

/-- An inverse sensor model for the worked examples. -/
def example_model : inverse_sensor_model_t := ⟨1 / 2, 9 / 20, 13 / 20⟩

/-- The map `unit_map` after `updateOccupied({10, 0, 0}, (5, 0, 0))`. -/
def endpoint_map : OccupancyGridmap := updateOccupied unit_map ⟨10, 0, 0⟩ ⟨5, 0, 0⟩

/-! ## Point-cloud insertion -/

/-- Modelled from the spec: what the point-cloud members use of the point type
and of a scratch accumulator (not part of the sources): the check `isNormal()`
of a point, the mean `getMean()` of a fused distribution and the number
`numOccupied()` of points an accumulator has fused. -/
structure cloud_api where
  isNormal : point_t → Bool
  getMean : gaussian_t → point_t
  numOccupied : distribution_t → Nat

/-- The body of the first loop of `insert` and of `insertVolumetric` for one
point `p` of the cloud, on the scratch storage. -/
def fuse_point (capi : cloud_api) (m : OccupancyGridmap) (origin : transform_t)
    (storage : Storage distribution_t) (p : point_t) : Storage distribution_t :=
  let pm := origin.apply p
  if capi.isNormal pm then
    let bi := toBundleIndex m pm
    match storage.get bi with
    | some _ => storage.modify bi (distribution_t.updateOccupied pm)
    | none => (storage.insert bi default).modify bi (distribution_t.updateOccupied pm)
  else storage

/-- The first loop of `insert` and of `insertVolumetric`: the scratch storage
after all points of the cloud. -/
def fuse_cloud (capi : cloud_api) (m : OccupancyGridmap) (origin : transform_t)
    (points : List point_t) : Storage distribution_t :=
  points.foldl (fuse_point capi m origin) Storage.empty

/-- Modelled from the spec: the member `traverse(visitor)` of the storage (not
part of the sources), for a visitor that changes the map: the entries are
visited one after the other, in the order in which the storage keeps them. -/
def traverse_entries {α σ : Type} (f : σ → index_t → α → Option σ) :
    List (index_t × α) → σ → Option σ
  | [], s => some s
  | e :: es, s =>
    match f s e.1 e.2 with
    | none => none
    | some s2 => traverse_entries f es s2

/-- The loop `while (!it.done()) { updateFree({{it.x(), it.y(), it.z()}}, n); ++ it; }`
of `insert`, run for at most `fuel` tests of `done()`. -/
def insert_loop (I : line_iterator_t) (n : Nat) :
    Nat → I.state → OccupancyGridmap → Option OccupancyGridmap
  | 0, _, _ => none
  | fuel + 1, it, m =>
    if I.done it then some m
    else insert_loop I n fuel (I.next it) (updateFree_n m ⟨I.x it, I.y it, I.z it⟩ n)

/-- The lambda that `insert` passes to `storage.traverse`, for the scratch
entry `(bi, d)`. -/
def insert_lambda (api : accumulator_api) (capi : cloud_api) (I : line_iterator_t)
    (fuel : Nat) (start_p : point_t) (m : OccupancyGridmap) (bi : index_t)
    (d : distribution_t) : Option OccupancyGridmap :=
  match api.getDistribution d with
  | none => some m
  | some g =>
    let m1 := updateOccupied_d m bi g
    let it := I.make start_p (m1.m_T_w_.apply (capi.getMean g)) m1.bundle_resolution_
    let n := capi.numOccupied d
    insert_loop I n fuel it m1

/-- The member `insert(origin, points)`. -/
def insert (api : accumulator_api) (capi : cloud_api) (I : line_iterator_t) (fuel : Nat)
    (m : OccupancyGridmap) (origin : transform_t) (points : List point_t) :
    Option OccupancyGridmap :=
  let storage := fuse_cloud capi m origin points
  let start_p := m.m_T_w_.apply origin.t
  traverse_entries (insert_lambda api capi I fuel start_p) storage.entries m

/-- One call `bundle->at(k)->getOccupancy(ivm)` in the lambda `occupancy`. The
pointers of a stored bundle are never null in a reachable state and the
accumulators they point to exist. -/
def occupancy_term (api : accumulator_api) (ivm : inverse_sensor_model_t)
    (m : OccupancyGridmap) (ptr : Option distribution_ref) : ℚ :=
  match ptr with
  | none => 0
  | some r =>
    match deref m r with
    | none => 0
    | some a => api.getOccupancy a ivm

/-- The lambda `occupancy` of `insertVolumetric`: the value returned and the
map after the call of `getDistributionBundle`. -/
def occupancy (api : accumulator_api) (ivm : inverse_sensor_model_t)
    (m : OccupancyGridmap) (bi : index_t) : ℚ × OccupancyGridmap :=
  let r := getDistributionBundle m bi
  (0.125 * (occupancy_term api ivm r.1 (r.2 0) +
            occupancy_term api ivm r.1 (r.2 1) +
            occupancy_term api ivm r.1 (r.2 2) +
            occupancy_term api ivm r.1 (r.2 3) +
            occupancy_term api ivm r.1 (r.2 4) +
            occupancy_term api ivm r.1 (r.2 5) +
            occupancy_term api ivm r.1 (r.2 6) +
            occupancy_term api ivm r.1 (r.2 7)), r.1)

/-- The lambda `current_visibility` of `insertVolumetric`: the value returned
and the map after the three calls of `occupancy`. C++ leaves the order of the
three calls open; they are taken in the order x, y, z. -/
def current_visibility (api : accumulator_api) (ivm ivm_visibility : inverse_sensor_model_t)
    (start_bi : index_t) (m : OccupancyGridmap) (bi : index_t) : ℚ × OccupancyGridmap :=
  let ox := occupancy api ivm m ⟨bi.x + (if bi.x > start_bi.x then 1 else -1), bi.y, bi.z⟩
  let oy := occupancy api ivm ox.2 ⟨bi.x, bi.y + (if bi.y > start_bi.y then 1 else -1), bi.z⟩
  let oz := occupancy api ivm oy.2 ⟨bi.x, bi.y, bi.z + (if bi.z > start_bi.z then 1 else -1)⟩
  let occlusion_prob := min ox.1 (min oy.1 oz.1)
  (ivm_visibility.prob_free * occlusion_prob +
     ivm_visibility.prob_occupied * (1 - occlusion_prob), oz.2)

/-- The `while` loop of the lambda of `insertVolumetric`, run for at most
`fuel` tests of `done()`: the map when the loop is left and, when it is left
because `done()` holds, the value of `visibility`; `none` in the second
component stands for the `return` inside the loop. -/
def insertVolumetric_loop (api : accumulator_api) (ivm ivm_visibility : inverse_sensor_model_t)
    (I : line_iterator_t) (start_bi : index_t) (n : Nat) :
    Nat → I.state → ℚ → OccupancyGridmap → Option (OccupancyGridmap × Option ℚ)
  | 0, _, _, _ => none
  | fuel + 1, it, visibility, m =>
    if I.done it then some (m, some visibility)
    else
      let bit : index_t := ⟨I.x it, I.y it, I.z it⟩
      let cv := current_visibility api ivm ivm_visibility start_bi m bit
      let visibility2 := visibility * cv.1
      if visibility2 < ivm_visibility.prob_prior then some (cv.2, none)
      else
        insertVolumetric_loop api ivm ivm_visibility I start_bi n fuel (I.next it) visibility2
          (updateFree_n cv.2 bit n)

/-- The lambda that `insertVolumetric` passes to `storage.traverse`, for the
scratch entry `(bi, d)`. -/
def insertVolumetric_lambda (api : accumulator_api) (capi : cloud_api)
    (ivm ivm_visibility : inverse_sensor_model_t) (I : line_iterator_t) (fuel : Nat)
    (start_bi : index_t) (start_p : point_t) (m : OccupancyGridmap) (bi : index_t)
    (d : distribution_t) : Option OccupancyGridmap :=
  match api.getDistribution d with
  | none => some m
  | some g =>
    let end_p := m.m_T_w_.apply (capi.getMean g)
    let it := I.make start_p end_p m.bundle_resolution_
    let n := capi.numOccupied d
    match insertVolumetric_loop api ivm ivm_visibility I start_bi n fuel it 1 m with
    | none => none
    | some (m1, none) => some m1
    | some (m1, some visibility) =>
      let cv := current_visibility api ivm ivm_visibility start_bi m1 bi
      if visibility * cv.1 ≥ ivm_visibility.prob_prior then some (updateOccupied_d cv.2 bi g)
      else some cv.2

/-- The member `insertVolumetric(origin, points, ivm, ivm_visibility)`. -/
def insertVolumetric (api : accumulator_api) (capi : cloud_api) (I : line_iterator_t)
    (fuel : Nat) (m : OccupancyGridmap) (origin : transform_t) (points : List point_t)
    (ivm ivm_visibility : inverse_sensor_model_t) : Option OccupancyGridmap :=
  let start_bi := toBundleIndex m origin.t
  let storage := fuse_cloud capi m origin points
  let start_p := m.m_T_w_.apply origin.t
  traverse_entries
    (insertVolumetric_lambda api capi ivm ivm_visibility I fuel start_bi start_p)
    storage.entries m

/-- The member `getBundleIndices(indices)`: the vector after the call and the
map after the call. -/
def getBundleIndices (m : OccupancyGridmap) (indices : List index_t) :
    List index_t × OccupancyGridmap :=
  (indices ++ m.bundle_storage_.keys, m)

/-- The member `getStorages()`: the array returned and the map after the
call. -/
def getStorages (m : OccupancyGridmap) : (Fin 8 → Storage distribution_t) × OccupancyGridmap :=
  (m.storage_, m)

/-! ## The calls by which the public members change the map -/

/-- One call of a private member: `getAllocate(bi)` alone, or one of the four
update members, which calls `getAllocate(bi)` and then the update `u` of the
accumulator on the 8 corners of the bundle. -/
inductive step_t where
  | allocate (bi : index_t) : step_t
  | update (bi : index_t) (u : update_t) : step_t

/-- The map after one call. -/
def run_step (m : OccupancyGridmap) : step_t → OccupancyGridmap
  | step_t.allocate bi => (getAllocate m bi).1
  | step_t.update bi u =>
    update_corners (getAllocate m bi).1 (getAllocate m bi).2 (fun d => ⟨d.log ++ [u]⟩)

/-- The map after a sequence of calls. -/
def run_steps (m : OccupancyGridmap) (steps : List step_t) : OccupancyGridmap :=
  steps.foldl run_step m

/-- The updates that a sequence of calls sends to the accumulator of lattice
`k` at storage index `i`: those of the update calls on a bundle that has this
accumulator as its corner `k`. -/
def updates_sent (steps : List step_t) (k : Fin 8) (i : index_t) : List update_t :=
  steps.filterMap (fun s =>
    match s with
    | step_t.allocate _ => none
    | step_t.update bi u => if i = storage_index bi k then some u else none)

/-- The bundle index a call names. -/
def step_t.index : step_t → index_t
  | step_t.allocate bi => bi
  | step_t.update bi _ => bi

/-! ## The rays of `insert` in the specification's words -/

/-- One free-space ray of a scan: the scratch bundle it belongs to, the fused
distribution of that bundle, the number of points fused and the bundle indices
the ray iterator shows before it is done. -/
structure ray_t where
  bi : index_t
  d : gaussian_t
  n : Nat
  voxels : List index_t

/-- The rays of the specification for a list of scratch entries: one ray for
each entry that holds a fused distribution, from `start_p` to the mean of that
distribution, at bundle resolution. -/
def cast_rays (api : accumulator_api) (capi : cloud_api) (I : line_iterator_t) (fuel : Nat)
    (m : OccupancyGridmap) (start_p : point_t) : List (index_t × distribution_t) → List ray_t
  | [] => []
  | e :: es =>
    match api.getDistribution e.2 with
    | none => cast_rays api capi I fuel m start_p es
    | some g =>
      ⟨e.1, g, capi.numOccupied e.2,
        (traversed I fuel
          (I.make start_p (m.m_T_w_.apply (capi.getMean g)) m.bundle_resolution_)).getD []⟩
        :: cast_rays api capi I fuel m start_p es

/-- The calls one ray of `insert` stands for: the fused occupied update of its
bundle, then a free update of weight `n` for every bundle the ray crosses. -/
def ray_t.steps (r : ray_t) : List step_t :=
  step_t.update r.bi (update_t.occupied_d r.d)
    :: r.voxels.map (fun v => step_t.update v (update_t.free_n r.n))

/-- A point and accumulator interface for the worked examples: a point passes
`isNormal()` when none of its coordinates is zero, the mean of a fused
distribution is the mean of its points and `numOccupied()` counts the occupied
updates. -/
def example_cloud_api : cloud_api where
  isNormal := fun p => decide (p.x ≠ 0 ∧ p.y ≠ 0 ∧ p.z ≠ 0)
  getMean := fun g =>
    ⟨(g.points.map point_t.x).sum / g.points.length,
     (g.points.map point_t.y).sum / g.points.length,
     (g.points.map point_t.z).sum / g.points.length⟩
  numOccupied := fun d =>
    (d.log.filter (fun u => match u with
      | update_t.occupied _ => true
      | update_t.occupied_d _ => true
      | _ => false)).length

/-- A scan for the worked examples: two points in the bundle `{2, 0, 0}` of
`unit_map` and one point that fails `isNormal()`. -/
def example_scan : List point_t :=
  [⟨11 / 10, 1 / 10, 1 / 10⟩, ⟨6 / 5, 1 / 10, 1 / 10⟩, ⟨0, 1, 1⟩]

/-- The map `m2` holds everything the map `m` holds: every bundle stored in
`m` is stored in `m2` for the same index with the same 8 pointers, and every
storage index that has an accumulator in a Corner Lattice of `m` has one in
that lattice of `m2`. -/
def grows (m m2 : OccupancyGridmap) : Prop :=
  (∀ bi b, m.bundle_storage_.get bi = some b → m2.bundle_storage_.get bi = some b) ∧
  (∀ (k : Fin 8) (i : index_t), ((m.storage_ k).get i).isSome = true →
    ((m2.storage_ k).get i).isSome = true)

/-! ## The visibility of `insertVolumetric` in the specification's words -/

/-- The three neighbouring bundles whose occupancy `current_visibility(bi)`
reads, one per axis, in the order x, y, z. -/
def neighbours (start_bi bi : index_t) : List index_t :=
  [⟨bi.x + (if bi.x > start_bi.x then 1 else -1), bi.y, bi.z⟩,
   ⟨bi.x, bi.y + (if bi.y > start_bi.y then 1 else -1), bi.z⟩,
   ⟨bi.x, bi.y, bi.z + (if bi.z > start_bi.z then 1 else -1)⟩]

/-- The visibility along a ray in the specification's words, without the early
exit: starting from `v`, the visibility is multiplied by the factor of each
traversed bundle before that bundle is marked free with weight `n`. The result
is the list of the accumulated visibilities, one for each bundle of the ray,
and the map after the last bundle is marked. -/
def visibility_walk (api : accumulator_api) (ivm ivm_visibility : inverse_sensor_model_t)
    (start_bi : index_t) (n : Nat) :
    ℚ → OccupancyGridmap → List index_t → List ℚ × OccupancyGridmap
  | _, m, [] => ([], m)
  | v, m, r :: rs =>
    let cv := current_visibility api ivm ivm_visibility start_bi m r
    let w := visibility_walk api ivm ivm_visibility start_bi n (v * cv.1)
      (updateFree_n cv.2 r n) rs
    ((v * cv.1) :: w.1, w.2)

/-- The number of bundles at the start of a ray whose accumulated visibility is
not below the prior probability of the visibility model. -/
def visible_count (ivm_visibility : inverse_sensor_model_t) (vs : List ℚ) : Nat :=
  (vs.takeWhile (fun v => decide (ivm_visibility.prob_prior ≤ v))).length

/-- The number of bundles the ray of one scratch entry marks free: the bundles
at the start of the ray whose accumulated visibility, starting from 1, is not
below the prior probability. -/
def marked_count (api : accumulator_api) (ivm ivm_visibility : inverse_sensor_model_t)
    (start_bi : index_t) (n : Nat) (m : OccupancyGridmap) (ray : List index_t) : Nat :=
  visible_count ivm_visibility
    (visibility_walk api ivm ivm_visibility start_bi n 1 m ray).1

/-- The visibility at the endpoint of a ray that completes: the visibility
accumulated over the whole ray times the factor of the endpoint bundle `bi`,
read after the last bundle of the ray is marked. -/
def endpoint_visibility (api : accumulator_api) (ivm ivm_visibility : inverse_sensor_model_t)
    (start_bi : index_t) (n : Nat) (m : OccupancyGridmap) (ray : List index_t)
    (bi : index_t) : ℚ :=
  ((visibility_walk api ivm ivm_visibility start_bi n 1 m ray).1.getLast?).getD 1
    * (current_visibility api ivm ivm_visibility start_bi
        (visibility_walk api ivm ivm_visibility start_bi n 1 m ray).2 bi).1

/-- A second accumulator interface for the worked examples, in which the
occupancy follows the observations: a Gaussian is fitted once an occupied
update has arrived, both densities are 1 everywhere, and the occupancy is 1
for an accumulator that has received an occupied update and 0 otherwise. -/
def hit_api : accumulator_api where
  getDistribution := example_api.getDistribution
  sample := fun _ _ => 1
  sampleNonNormalized := fun _ _ => 1
  getOccupancy := fun d _ =>
    if d.log.any (fun u => match u with
      | update_t.occupied _ => true
      | update_t.occupied_d _ => true
      | _ => false) then 1 else 0

/-- The map `unit_map` after `updateOccupied({1, 0, 0}, (3/5, 1/10, 1/10))`:
the bundle `{1, 0, 0}` holds an occupied observation on each of its 8
corners. -/
def blocked_map : OccupancyGridmap := updateOccupied unit_map ⟨1, 0, 0⟩ ⟨3 / 5, 1 / 10, 1 / 10⟩

/-! ## The round trip between metric coordinates and bundle indices -/

/-- A rigid transform: the columns of the rotation matrix are orthonormal, so
that the transposed rotation that `inverse` takes is the inverse rotation. -/
def transform_t.rigid (T : transform_t) : Prop :=
  T.rx.x * T.rx.x + T.ry.x * T.ry.x + T.rz.x * T.rz.x = 1 ∧
  T.rx.y * T.rx.y + T.ry.y * T.ry.y + T.rz.y * T.rz.y = 1 ∧
  T.rx.z * T.rx.z + T.ry.z * T.ry.z + T.rz.z * T.rz.z = 1 ∧
  T.rx.x * T.rx.y + T.ry.x * T.ry.y + T.rz.x * T.rz.y = 0 ∧
  T.rx.x * T.rx.z + T.ry.x * T.ry.z + T.rz.x * T.rz.z = 0 ∧
  T.rx.y * T.rx.z + T.ry.y * T.ry.z + T.rz.y * T.rz.z = 0

instance transform_t.rigid.dec (T : transform_t) : Decidable T.rigid := by
  unfold transform_t.rigid
  exact inferInstance

/-- Modelled from the spec: the 3D map of the sources has no member
`fromIndex`; the round trip of the specification names one. It is taken as the
3D counterpart of `flat::Gridmap::fromIndex`, with the bundle resolution as the
cell resolution: the map-to-world transform applied to the index times the
bundle resolution. -/
def fromIndex (m : OccupancyGridmap) (i : index_t) : point_t :=
  m.w_T_m_.apply ⟨i.x * m.bundle_resolution_, i.y * m.bundle_resolution_,
    i.z * m.bundle_resolution_⟩

end cslibs_ndt_3d

/-! # The 2D grid map `cslibs_ndt_2d::static_maps::flat::Gridmap` -/

namespace cslibs_ndt_2d

/-- The type `point_t = cslibs_math_2d::Point2d`, with exact coordinates. -/
structure point_t where
  x : ℚ
  y : ℚ
deriving DecidableEq

/-- The type `index_t = std::array<int, 2>`. -/
structure index_t where
  x : Int
  y : Int
deriving DecidableEq

/-- The type `size_t = std::array<std::size_t, 2>`. -/
structure size_t where
  x : Nat
  y : Nat
deriving DecidableEq

/-- The type `size_m_t = std::array<double, 2>`. -/
structure size_m_t where
  x : ℚ
  y : ℚ
deriving DecidableEq

/-- Modelled from the spec: the rigid transform `cslibs_math_2d::Transform2d`
(its header is not part of the sources), as the cosine `c` and the sine `s` of
the yaw angle and a translation. -/
structure transform_t where
  c : ℚ
  s : ℚ
  t : point_t
deriving DecidableEq

/-- The product `T * p` of a transform and a point. -/
def transform_t.apply (T : transform_t) (p : point_t) : point_t :=
  ⟨T.c * p.x - T.s * p.y + T.t.x, T.s * p.x + T.c * p.y + T.t.y⟩

/-- The inverse of a rigid transform: the opposite yaw and the translation
carried back through it. -/
def transform_t.inverse (T : transform_t) : transform_t :=
  ⟨T.c, -T.s, ⟨-(T.c * T.t.x + T.s * T.t.y), -(-T.s * T.t.x + T.c * T.t.y)⟩⟩

/-- A rigid transform: `c` and `s` are the cosine and the sine of one angle. -/
def transform_t.rigid (T : transform_t) : Prop :=
  T.c * T.c + T.s * T.s = 1

instance transform_t.rigid.dec (T : transform_t) : Decidable T.rigid := by
  unfold transform_t.rigid
  exact inferInstance

/-- Modelled from the spec: the accumulator `cslibs_ndt::Distribution<2>` (its
header is not part of the sources), as the points added to it. -/
structure distribution_t where
  points : List point_t
deriving DecidableEq

/-- The data members of `Gridmap`; the storage is the list of its entries. -/
structure Gridmap where
  resolution_ : ℚ
  resolution_inv_ : ℚ
  w_T_m_ : transform_t
  m_T_w_ : transform_t
  size_ : size_t
  size_m_ : size_m_t
  storage_ : List (index_t × distribution_t)

/-- The constructor `Gridmap(origin, resolution, size)`. -/
def Gridmap.new (origin : transform_t) (resolution : ℚ) (size : size_t) : Gridmap :=
  { resolution_ := resolution
    resolution_inv_ := 1 / resolution
    w_T_m_ := origin
    m_T_w_ := origin.inverse
    size_ := size
    size_m_ := ⟨(size.x + 1) * resolution, (size.y + 1) * resolution⟩
    storage_ := [] }

/-- The member `toIndex(p_w)`. -/
def toIndex (g : Gridmap) (p_w : point_t) : index_t :=
  let p_m := g.m_T_w_.apply p_w
  ⟨Int.floor (p_m.x * g.resolution_inv_), Int.floor (p_m.y * g.resolution_inv_)⟩

/-- The member `fromIndex(i, p_w)`: the value left in `p_w`. -/
def fromIndex (g : Gridmap) (i : index_t) : point_t :=
  g.w_T_m_.apply ⟨i.x * g.resolution_, i.y * g.resolution_⟩

/-- The member `validate(p_w)`; the pose `p_w` is read through its translation
only. -/
def validate (g : Gridmap) (p_w : transform_t) : Bool :=
  let p_m := g.m_T_w_.apply p_w.t
  decide (p_m.x ≥ 0 ∧ p_m.x < g.size_m_.x ∧ p_m.y ≥ 0 ∧ p_m.y < g.size_m_.y)

end cslibs_ndt_2d

/-! # The grid `ndt::NDTGrid` -/

namespace ndt

/-- The number of values of `std::size_t`. -/
def SIZE_T_RANGE : Nat := 2 ^ 64

/-- The conversion of a `std::size_t` value to `int`, as in `int p = pos(_index)`:
the value modulo 2^32, read as a signed number. -/
def to_int (n : Nat) : Int :=
  if n % 2 ^ 32 < 2 ^ 31 then ((n % 2 ^ 32 : Nat) : Int) else ((n % 2 ^ 32 : Nat) : Int) - 2 ^ 32

/-- The data members of `NDTGrid<Dim>`, with `Dim` the length of `size`; the
type `Distribution` of the cells (`math::Distribution<Dim, true>`, whose header
is not part of the sources) is a parameter, and `data` is the array of the
cells. -/
structure NDTGrid (Distribution : Type) where
  size : List Nat
  steps : List Nat
  resolution : List ℚ
  origin : List ℚ
  data_size : Nat
  data : List Distribution

/-- The loop `for (i = 0; i < Dim; ++i) data_size *= _size[i]` of the
constructor, starting from `data_size(1)`. -/
def NDTGrid.make_data_size (size : List Nat) : Nat :=
  size.foldl (fun acc s => acc * s % SIZE_T_RANGE) 1

/-- The assignments `steps[0] = 1` and `steps[i] = steps[i-1] * size[i]` for
`i = 1 .. Dim - 1` of the constructor, for `Dim >= 1`. -/
def NDTGrid.make_steps : List Nat → List Nat
  | [] => []
  | _ :: rest => List.scanl (fun acc s => acc * s % SIZE_T_RANGE) 1 rest

/-- The constructor `NDTGrid(_size, _resolution, _origin)`. -/
def NDTGrid.new {Distribution : Type} [Inhabited Distribution] (size : List Nat)
    (resolution origin : List ℚ) : NDTGrid Distribution :=
  { size := size
    steps := NDTGrid.make_steps size
    resolution := resolution
    origin := origin
    data_size := NDTGrid.make_data_size size
    data := List.replicate (NDTGrid.make_data_size size) default }

/-- The member `pos(const Index &)`. The source leaves the local `pos`
uninitialised; the sum is taken to start at 0. -/
def NDTGrid.pos {Distribution : Type} (g : NDTGrid Distribution) (index : List Nat) : Nat :=
  (List.zipWith (fun i s => i * s % SIZE_T_RANGE) index g.steps).foldl
    (fun acc t => (acc + t) % SIZE_T_RANGE) 0

/-- The member `checkIndex(_index)`. -/
def NDTGrid.checkIndex {Distribution : Type} (g : NDTGrid Distribution) (index : List Nat) :
    Bool :=
  decide (g.pos index < g.data_size)

/-- The member `at(_index)`: the position in `data` of the cell whose
reference is returned, or the message of the exception thrown. -/
def NDTGrid.at_ {Distribution : Type} (g : NDTGrid Distribution) (index : List Nat) :
    Except String Nat :=
  let p := to_int (g.pos index)
  if p ≥ (g.data_size : Int) ∨ p < 0 then Except.error "Out of bounds!"
  else Except.ok p.toNat

/-- An index is in range: it has one component per axis and each is below the
size of its axis. -/
def NDTGrid.in_range {Distribution : Type} (g : NDTGrid Distribution) (index : List Nat) :
    Prop :=
  index.length = g.size.length ∧ ∀ p ∈ List.zip index g.size, p.1 < p.2

instance NDTGrid.in_range.dec {Distribution : Type} (g : NDTGrid Distribution)
    (index : List Nat) : Decidable (g.in_range index) := by
  unfold NDTGrid.in_range
  exact inferInstance

end ndt

namespace cslibs_ndt_3d

/-! ## Accessors of the pose and of the extent -/

/-- The member `getOrigin()`: a copy of `w_T_m_` whose translation is
overwritten with `getMin()`. -/
def getOrigin (m : OccupancyGridmap) : transform_t :=
  { m.w_T_m_ with t := getMin m }

/-- The member `getInitialOrigin()`. -/
def getInitialOrigin (m : OccupancyGridmap) : transform_t := m.w_T_m_

/-- The map `m2` is the map `m` after a sequence of the calls by which the
public members change the map. -/
def reaches (m m2 : OccupancyGridmap) : Prop :=
  ∃ steps : List step_t, m2 = run_steps m steps

/-- Neighbouring bundle indices in the specification's words: the two indices
differ by exactly 1 on one axis and agree on the other two. -/
def adjacent (b b2 : index_t) : Prop :=
  ((b2.x = b.x + 1 ∨ b2.x = b.x - 1) ∧ b2.y = b.y ∧ b2.z = b.z) ∨
  (b2.x = b.x ∧ (b2.y = b.y + 1 ∨ b2.y = b.y - 1) ∧ b2.z = b.z) ∨
  (b2.x = b.x ∧ b2.y = b.y ∧ (b2.z = b.z + 1 ∨ b2.z = b.z - 1))

instance adjacent.dec (b b2 : index_t) : Decidable (adjacent b b2) := by
  unfold adjacent
  exact inferInstance

/-- The corners of the bundle `b` whose accumulator is also the accumulator of
the same corner of the bundle `b2`: same Corner Lattice `k`, same storage
index. -/
def shared_corners (b b2 : index_t) : List (Fin 8) :=
  (List.finRange 8).filter (fun k => decide (storage_index b k = storage_index b2 k))

/-- The corners of the bundle `b` whose accumulator is not the accumulator of
the same corner of the bundle `b2`. -/
def separate_corners (b b2 : index_t) : List (Fin 8) :=
  (List.finRange 8).filter (fun k => decide (storage_index b k ≠ storage_index b2 k))

/-- The unit map after `getDistributionBundle({0, 5, 0})` and
`getDistributionBundle({1, 0, 0})`. -/
def two_bundle_map : OccupancyGridmap := (getDistributionBundle one_bundle_map ⟨1, 0, 0⟩).1

/-- One call of a member that inserts into the map, with its arguments. -/
inductive call_t where
  | add (start_p end_p : point_t)
  | insert (origin : transform_t) (points : List point_t)
  | insertVolumetric (origin : transform_t) (points : List point_t)
      (ivm ivm_visibility : inverse_sensor_model_t)
  | getDistributionBundle (bi : index_t)

/-- The map after one call; `none` when a ray iterator of the call is not done
within `fuel` steps. -/
def run_call (api : accumulator_api) (capi : cloud_api) (I : line_iterator_t) (fuel : Nat)
    (m : OccupancyGridmap) : call_t → Option OccupancyGridmap
  | call_t.add start_p end_p => add I fuel m start_p end_p
  | call_t.insert origin points => insert api capi I fuel m origin points
  | call_t.insertVolumetric origin points ivm ivm_visibility =>
    insertVolumetric api capi I fuel m origin points ivm ivm_visibility
  | call_t.getDistributionBundle bi => some (getDistributionBundle m bi).1

/-- The map after a sequence of calls, the first call of the list first. -/
def run_calls (api : accumulator_api) (capi : cloud_api) (I : line_iterator_t) (fuel : Nat) :
    OccupancyGridmap → List call_t → Option OccupancyGridmap
  | m, [] => some m
  | m, c :: cs =>
    match run_call api capi I fuel m c with
    | none => none
    | some m1 => run_calls api capi I fuel m1 cs

/-- A second visibility model for the worked examples: prior 1/2, free 2/5,
occupied 9/10. -/
def clear_model : inverse_sensor_model_t := ⟨1 / 2, 2 / 5, 9 / 10⟩

/-! # Theorems -/

/-! ## Facts about the storage model -/

section StorageFacts
variable {α : Type}

theorem Storage.get_empty (i : index_t) : (Storage.empty : Storage α).get i = none := rfl

theorem Storage.get_insert_self (s : Storage α) (i : index_t) (v : α) :
    (s.insert i v).get i = some v := by
  simp [Storage.get, Storage.insert]

theorem Storage.get_insert_ne (s : Storage α) {i j : index_t} (h : j ≠ i) (v : α) :
    (s.insert i v).get j = s.get j := by
  have h2 : ¬ i = j := fun e => h e.symm
  simp [Storage.get, Storage.insert, List.find?_cons, h2]

theorem Storage.get_modify (s : Storage α) (i j : index_t) (f : α → α) :
    (s.modify i f).get j = if j = i then (s.get j).map f else s.get j := by
  obtain ⟨l⟩ := s
  simp only [Storage.get, Storage.modify]
  induction l with
  | nil => simp
  | cons e l ih =>
    by_cases hji : j = i
    · subst hji
      simp only [if_true] at ih ⊢
      by_cases he : e.1 = j
      · simp [List.find?_cons, he]
      · simp only [List.map_cons, he, if_false, List.find?_cons, decide_False]
        exact ih
    · simp only [hji, if_false] at ih ⊢
      by_cases he : e.1 = i
      · have hej : ¬ e.1 = j := fun h => hji (h.symm.trans he)
        simp only [List.map_cons, he, if_true, List.find?_cons, hej, decide_False]
        have : ¬ i = j := fun h => hji h.symm
        simp only [this, decide_False]
        simpa [he] using ih
      · simp only [List.map_cons, he, if_false, List.find?_cons]
        by_cases hej : e.1 = j
        · simp [hej]
        · simp only [hej, decide_False]
          exact ih

theorem Storage.keys_insert (s : Storage α) (i : index_t) (v : α) :
    (s.insert i v).keys = i :: s.keys := rfl

theorem Storage.keys_modify (s : Storage α) (i : index_t) (f : α → α) :
    (s.modify i f).keys = s.keys := by
  obtain ⟨l⟩ := s
  simp only [Storage.keys, Storage.modify, List.map_map]
  apply List.map_congr_left
  intro e _
  by_cases he : e.1 = i <;> simp [he]

theorem Storage.get_eq_none_iff (s : Storage α) (i : index_t) :
    s.get i = none ↔ i ∉ s.keys := by
  obtain ⟨l⟩ := s
  simp only [Storage.get, Storage.keys, Option.map_eq_none', List.find?_eq_none, List.mem_map,
    decide_eq_true_eq, not_exists, not_and]

theorem Storage.get_isSome_iff (s : Storage α) (i : index_t) :
    (s.get i).isSome = true ↔ i ∈ s.keys := by
  rw [← not_iff_not, ← Storage.get_eq_none_iff]
  cases s.get i <;> simp

end StorageFacts

/-! ## Facts about lazy allocation -/

theorem getAllocate_storage_get (s : Storage distribution_t) (i j : index_t) :
    (getAllocate_storage s i).get j
      = if j = i then some ((s.get i).getD default) else s.get j := by
  unfold getAllocate_storage
  cases h : s.get i with
  | some a =>
    by_cases hj : j = i
    · subst hj; simp [h]
    · simp [hj]
  | none =>
    by_cases hj : j = i
    · subst hj; simp [Storage.get_insert_self]
    · simp [hj, Storage.get_insert_ne]

theorem getAllocate_storage_keys (s : Storage distribution_t) (i : index_t) :
    (getAllocate_storage s i).keys = if (s.get i).isSome then s.keys else i :: s.keys := by
  unfold getAllocate_storage
  cases h : s.get i <;> simp [Storage.keys_insert]

theorem getAllocate_storage_nodup (s : Storage distribution_t) (i : index_t)
    (h : s.keys.Nodup) : (getAllocate_storage s i).keys.Nodup := by
  rw [getAllocate_storage_keys]
  cases hg : s.get i with
  | some a => simpa using h
  | none =>
    have : i ∉ s.keys := (Storage.get_eq_none_iff s i).1 hg
    simpa using ⟨this, h⟩

section CornerFields
variable (m : OccupancyGridmap) (k : Fin 8) (i : index_t)

theorem getAllocate_corner_storage :
    (getAllocate_corner m k i).1.storage_
      = Function.update m.storage_ k (getAllocate_storage (m.storage_ k) i) := rfl

theorem getAllocate_corner_snd : (getAllocate_corner m k i).2 = some ⟨k, i⟩ := rfl

theorem getAllocate_corner_bundle_storage :
    (getAllocate_corner m k i).1.bundle_storage_ = m.bundle_storage_ := rfl

theorem getAllocate_corner_min_index :
    (getAllocate_corner m k i).1.min_index_ = m.min_index_ := rfl

theorem getAllocate_corner_max_index :
    (getAllocate_corner m k i).1.max_index_ = m.max_index_ := rfl

theorem getAllocate_corner_m_T_w :
    (getAllocate_corner m k i).1.m_T_w_ = m.m_T_w_ := rfl

theorem getAllocate_corner_bundle_resolution :
    (getAllocate_corner m k i).1.bundle_resolution_ = m.bundle_resolution_ := rfl

theorem getAllocate_corner_bundle_resolution_inv :
    (getAllocate_corner m k i).1.bundle_resolution_inv_ = m.bundle_resolution_inv_ := rfl

end CornerFields

theorem allocate_bundle_storage (m : OccupancyGridmap) (bi : index_t) (k : Fin 8) :
    (allocate_bundle m bi).1.storage_ k
      = getAllocate_storage (m.storage_ k) (storage_index bi k) := by
  simp only [allocate_bundle, updateIndices, getAllocate_corner_storage]
  fin_cases k <;> simp [Function.update]

theorem allocate_bundle_snd (m : OccupancyGridmap) (bi : index_t) (k : Fin 8) :
    (allocate_bundle m bi).2 k = some ⟨k, storage_index bi k⟩ := by
  simp only [allocate_bundle, getAllocate_corner_snd]
  fin_cases k <;> rfl

theorem allocate_bundle_bundle_storage (m : OccupancyGridmap) (bi : index_t) :
    (allocate_bundle m bi).1.bundle_storage_
      = m.bundle_storage_.insert bi (allocate_bundle m bi).2 := by
  simp only [allocate_bundle, updateIndices, getAllocate_corner_bundle_storage]

theorem allocate_bundle_min_index (m : OccupancyGridmap) (bi : index_t) :
    (allocate_bundle m bi).1.min_index_ = std_min m.min_index_ bi := by
  simp only [allocate_bundle, updateIndices, getAllocate_corner_min_index]

theorem allocate_bundle_max_index (m : OccupancyGridmap) (bi : index_t) :
    (allocate_bundle m bi).1.max_index_ = std_max m.max_index_ bi := by
  simp only [allocate_bundle, updateIndices, getAllocate_corner_max_index]

theorem allocate_bundle_m_T_w (m : OccupancyGridmap) (bi : index_t) :
    (allocate_bundle m bi).1.m_T_w_ = m.m_T_w_ := by
  simp only [allocate_bundle, updateIndices, getAllocate_corner_m_T_w]

theorem allocate_bundle_bundle_resolution (m : OccupancyGridmap) (bi : index_t) :
    (allocate_bundle m bi).1.bundle_resolution_ = m.bundle_resolution_ := by
  simp only [allocate_bundle, updateIndices, getAllocate_corner_bundle_resolution]

theorem allocate_bundle_bundle_resolution_inv (m : OccupancyGridmap) (bi : index_t) :
    (allocate_bundle m bi).1.bundle_resolution_inv_ = m.bundle_resolution_inv_ := by
  simp only [allocate_bundle, updateIndices, getAllocate_corner_bundle_resolution_inv]

/-! ## Facts about the update members -/

section CallThrough
variable (m : OccupancyGridmap) (ptr : Option distribution_ref)
  (f : distribution_t → distribution_t)

theorem call_through_storage_some (r : distribution_ref) :
    (call_through m (some r) f).storage_
      = Function.update m.storage_ r.lattice ((m.storage_ r.lattice).modify r.index f) := rfl

theorem call_through_bundle_storage :
    (call_through m ptr f).bundle_storage_ = m.bundle_storage_ := by
  cases ptr <;> rfl

theorem call_through_min_index : (call_through m ptr f).min_index_ = m.min_index_ := by
  cases ptr <;> rfl

theorem call_through_max_index : (call_through m ptr f).max_index_ = m.max_index_ := by
  cases ptr <;> rfl

theorem call_through_m_T_w : (call_through m ptr f).m_T_w_ = m.m_T_w_ := by
  cases ptr <;> rfl

theorem call_through_bundle_resolution :
    (call_through m ptr f).bundle_resolution_ = m.bundle_resolution_ := by
  cases ptr <;> rfl

theorem call_through_bundle_resolution_inv :
    (call_through m ptr f).bundle_resolution_inv_ = m.bundle_resolution_inv_ := by
  cases ptr <;> rfl

end CallThrough

section UpdateCorners
variable (m : OccupancyGridmap) (b : distribution_bundle_t)
  (f : distribution_t → distribution_t)

theorem update_corners_bundle_storage :
    (update_corners m b f).bundle_storage_ = m.bundle_storage_ := by
  simp only [update_corners, call_through_bundle_storage]

theorem update_corners_min_index : (update_corners m b f).min_index_ = m.min_index_ := by
  simp only [update_corners, call_through_min_index]

theorem update_corners_max_index : (update_corners m b f).max_index_ = m.max_index_ := by
  simp only [update_corners, call_through_max_index]

theorem update_corners_m_T_w : (update_corners m b f).m_T_w_ = m.m_T_w_ := by
  simp only [update_corners, call_through_m_T_w]

theorem update_corners_bundle_resolution :
    (update_corners m b f).bundle_resolution_ = m.bundle_resolution_ := by
  simp only [update_corners, call_through_bundle_resolution]

theorem update_corners_bundle_resolution_inv :
    (update_corners m b f).bundle_resolution_inv_ = m.bundle_resolution_inv_ := by
  simp only [update_corners, call_through_bundle_resolution_inv]

theorem update_corners_storage (idx : Fin 8 → index_t)
    (hb : ∀ k : Fin 8, b k = some ⟨k, idx k⟩) (k : Fin 8) :
    (update_corners m b f).storage_ k = (m.storage_ k).modify (idx k) f := by
  simp only [update_corners, hb, call_through_storage_some]
  fin_cases k <;> simp [Function.update]

end UpdateCorners

/-! ## The allocation invariant -/

theorem WellFormed.new (origin : transform_t) (resolution : ℚ) :
    WellFormed (OccupancyGridmap.new origin resolution) where
  corners := by intro bi b h; simp [OccupancyGridmap.new, Storage.get_empty] at h
  present := by intro bi b h; simp [OccupancyGridmap.new, Storage.get_empty] at h
  bundle_nodup := by simp [OccupancyGridmap.new, Storage.keys, Storage.empty]
  storage_nodup := by intro k; simp [OccupancyGridmap.new, Storage.keys, Storage.empty]

theorem getAllocate_of_some {m : OccupancyGridmap} {bi : index_t} {b : distribution_bundle_t}
    (h : m.bundle_storage_.get bi = some b) : getAllocate m bi = (m, b) := by
  simp [getAllocate, h]

theorem getAllocate_of_none {m : OccupancyGridmap} {bi : index_t}
    (h : m.bundle_storage_.get bi = none) : getAllocate m bi = allocate_bundle m bi := by
  simp [getAllocate, h]

theorem getAllocate_get (m : OccupancyGridmap) (bi : index_t) :
    (getAllocate m bi).1.bundle_storage_.get bi = some (getAllocate m bi).2 := by
  cases h : m.bundle_storage_.get bi with
  | some b => rw [getAllocate_of_some h]; exact h
  | none =>
    rw [getAllocate_of_none h, allocate_bundle_bundle_storage, Storage.get_insert_self]

theorem getAllocate_get_ne (m : OccupancyGridmap) {bi bj : index_t} (h : bj ≠ bi) :
    (getAllocate m bi).1.bundle_storage_.get bj = m.bundle_storage_.get bj := by
  cases hg : m.bundle_storage_.get bi with
  | some b => rw [getAllocate_of_some hg]
  | none =>
    rw [getAllocate_of_none hg, allocate_bundle_bundle_storage, Storage.get_insert_ne _ h]

theorem getAllocate_storage_get_of_isSome (m : OccupancyGridmap) (bi : index_t) (k : Fin 8)
    (j : index_t) (h : ((m.storage_ k).get j).isSome = true) :
    ((getAllocate m bi).1.storage_ k).get j = (m.storage_ k).get j := by
  cases hg : m.bundle_storage_.get bi with
  | some b => rw [getAllocate_of_some hg]
  | none =>
    rw [getAllocate_of_none hg, allocate_bundle_storage, getAllocate_storage_get]
    by_cases hj : j = storage_index bi k
    · subst hj
      cases hv : (m.storage_ k).get (storage_index bi k) with
      | none => rw [hv] at h; simp at h
      | some a => simp
    · simp [hj]

theorem WellFormed.getAllocate_snd {m : OccupancyGridmap} (h : WellFormed m) (bi : index_t)
    (k : Fin 8) : (getAllocate m bi).2 k = some ⟨k, storage_index bi k⟩ := by
  cases hg : m.bundle_storage_.get bi with
  | some b => rw [getAllocate_of_some hg]; exact h.corners bi b hg k
  | none => rw [getAllocate_of_none hg]; exact allocate_bundle_snd m bi k

theorem WellFormed.getAllocate_present {m : OccupancyGridmap} (h : WellFormed m)
    (bi : index_t) (k : Fin 8) :
    (((getAllocate m bi).1.storage_ k).get (storage_index bi k)).isSome = true := by
  cases hg : m.bundle_storage_.get bi with
  | some b => rw [getAllocate_of_some hg]; exact h.present bi b hg k
  | none =>
    rw [getAllocate_of_none hg, allocate_bundle_storage, getAllocate_storage_get]
    simp

theorem WellFormed.of_getAllocate {m : OccupancyGridmap} (h : WellFormed m) (bi : index_t) :
    WellFormed (getAllocate m bi).1 := by
  cases hg : m.bundle_storage_.get bi with
  | some b => rw [getAllocate_of_some hg]; exact h
  | none =>
    have hfst : (cslibs_ndt_3d.getAllocate m bi).1 = (allocate_bundle m bi).1 := by
      rw [getAllocate_of_none hg]
    have hsnd : (cslibs_ndt_3d.getAllocate m bi).2 = (allocate_bundle m bi).2 := by
      rw [getAllocate_of_none hg]
    refine ⟨?_, ?_, ?_, ?_⟩
    · intro bj b hb k
      by_cases hj : bj = bi
      · subst hj
        rw [getAllocate_get] at hb
        have : b = (cslibs_ndt_3d.getAllocate m bj).2 := (Option.some.inj hb).symm
        rw [this]
        exact h.getAllocate_snd bj k
      · rw [getAllocate_get_ne m hj] at hb
        exact h.corners bj b hb k
    · intro bj b hb k
      by_cases hj : bj = bi
      · subst hj
        exact h.getAllocate_present bj k
      · rw [getAllocate_get_ne m hj] at hb
        rw [getAllocate_storage_get_of_isSome m bi k _ (h.present bj b hb k)]
        exact h.present bj b hb k
    · rw [hfst, allocate_bundle_bundle_storage, Storage.keys_insert]
      have : bi ∉ m.bundle_storage_.keys := (Storage.get_eq_none_iff _ bi).1 hg
      exact List.nodup_cons.2 ⟨this, h.bundle_nodup⟩
    · intro k
      rw [hfst, allocate_bundle_storage]
      exact getAllocate_storage_nodup _ _ (h.storage_nodup k)

theorem WellFormed.of_update_corners {m : OccupancyGridmap} (h : WellFormed m)
    (b : distribution_bundle_t) (idx : Fin 8 → index_t)
    (hb : ∀ k : Fin 8, b k = some ⟨k, idx k⟩) (f : distribution_t → distribution_t) :
    WellFormed (update_corners m b f) := by
  refine ⟨?_, ?_, ?_, ?_⟩
  · intro bj c hc k
    rw [update_corners_bundle_storage] at hc
    exact h.corners bj c hc k
  · intro bj c hc k
    rw [update_corners_bundle_storage] at hc
    rw [update_corners_storage m b f idx hb, Storage.get_modify]
    have := h.present bj c hc k
    split
    · cases hv : (m.storage_ k).get (storage_index bj k) with
      | none => rw [hv] at this; simp at this
      | some a => simp
    · exact this
  · rw [update_corners_bundle_storage]; exact h.bundle_nodup
  · intro k
    rw [update_corners_storage m b f idx hb, Storage.keys_modify]
    exact h.storage_nodup k

theorem WellFormed.of_update {m : OccupancyGridmap} (h : WellFormed m) (bi : index_t)
    (f : distribution_t → distribution_t) :
    WellFormed (cslibs_ndt_3d.update_corners (cslibs_ndt_3d.getAllocate m bi).1
      (cslibs_ndt_3d.getAllocate m bi).2 f) :=
  (h.of_getAllocate bi).of_update_corners _ (storage_index bi) (h.getAllocate_snd bi) f

theorem Reachable.wellFormed {m : OccupancyGridmap} (h : Reachable m) : WellFormed m := by
  induction h with
  | new origin resolution => exact WellFormed.new origin resolution
  | getAllocate bi _ ih => exact ih.of_getAllocate bi
  | updateFree bi _ ih => exact ih.of_update bi _
  | updateFree_n bi n _ ih => exact ih.of_update bi _
  | updateOccupied bi p _ ih => exact ih.of_update bi _
  | updateOccupied_d bi d _ ih => exact ih.of_update bi _

/-! ## Members that allocation leaves alone -/

theorem getAllocate_bundle_resolution (m : OccupancyGridmap) (bi : index_t) :
    (getAllocate m bi).1.bundle_resolution_ = m.bundle_resolution_ := by
  cases hg : m.bundle_storage_.get bi with
  | some b => rw [getAllocate_of_some hg]
  | none => rw [getAllocate_of_none hg, allocate_bundle_bundle_resolution]

theorem getAllocate_bundle_resolution_inv (m : OccupancyGridmap) (bi : index_t) :
    (getAllocate m bi).1.bundle_resolution_inv_ = m.bundle_resolution_inv_ := by
  cases hg : m.bundle_storage_.get bi with
  | some b => rw [getAllocate_of_some hg]
  | none => rw [getAllocate_of_none hg, allocate_bundle_bundle_resolution_inv]

theorem getAllocate_m_T_w (m : OccupancyGridmap) (bi : index_t) :
    (getAllocate m bi).1.m_T_w_ = m.m_T_w_ := by
  cases hg : m.bundle_storage_.get bi with
  | some b => rw [getAllocate_of_some hg]
  | none => rw [getAllocate_of_none hg, allocate_bundle_m_T_w]

/-! ## Reachable maps for the worked examples -/

theorem Reachable.getDistributionBundle {m : OccupancyGridmap} (h : Reachable m)
    (bi : index_t) : Reachable (cslibs_ndt_3d.getDistributionBundle m bi).1 :=
  Reachable.getAllocate bi h

theorem unit_map_reachable : Reachable unit_map := Reachable.new _ _

theorem one_bundle_map_reachable : Reachable one_bundle_map :=
  unit_map_reachable.getDistributionBundle _

/-! ## C3, C4: the corners of a stored bundle -/

theorem storage_index_eq (bi : index_t) (k : Fin 8) :
    storage_index bi k
      = ⟨Int.fdiv bi.x 2 + (corner_offset k).x * Int.fmod bi.x 2,
         Int.fdiv bi.y 2 + (corner_offset k).y * Int.fmod bi.y 2,
         Int.fdiv bi.z 2 + (corner_offset k).z * Int.fmod bi.z 2⟩ := by
  fin_cases k <;> simp [storage_index, corner_offset, div, mod]

/-- C3 (as stated, refuted): after `getDistributionBundle({0, 0, 0})` on a
freshly constructed map, corner 1 of the bundle stored for `{0, 0, 0}` points
into lattice 1 at storage index `{0, 0, 0}`, while the floor quotient plus the
offset bit of corner 1 predicts `{1, 0, 0}`. -/
theorem C3_even_index_counterexample :
    Reachable (getDistributionBundle unit_map ⟨0, 0, 0⟩).1 ∧
    (getDistributionBundle unit_map ⟨0, 0, 0⟩).1.bundle_storage_.get ⟨0, 0, 0⟩
      = some (getDistributionBundle unit_map ⟨0, 0, 0⟩).2 ∧
    (getDistributionBundle unit_map ⟨0, 0, 0⟩).2 1 = some ⟨1, ⟨0, 0, 0⟩⟩ ∧
    predicted_storage_index ⟨0, 0, 0⟩ 1 = ⟨1, 0, 0⟩ ∧
    (getDistributionBundle unit_map ⟨0, 0, 0⟩).2 1
      ≠ some ⟨1, predicted_storage_index ⟨0, 0, 0⟩ 1⟩ :=
  ⟨unit_map_reachable.getDistributionBundle _, getAllocate_get _ _, by decide, by decide,
    by decide⟩

/-- C3 (amended): in every reachable state, corner `k` of the bundle stored for
bundle index `bi` is a non-null pointer into Corner Lattice `k` at the storage
index that has, per axis, the floor quotient of `bi` by 2 plus the offset bit of
`k` for that axis times the remainder of `bi` modulo 2: the offset is added
only on the axes where `bi` is odd. -/
theorem C3_corner_consistency (m : OccupancyGridmap) (hm : Reachable m) (bi : index_t)
    (b : distribution_bundle_t) (hb : m.bundle_storage_.get bi = some b) (k : Fin 8) :
    b k = some ⟨k, ⟨Int.fdiv bi.x 2 + (corner_offset k).x * Int.fmod bi.x 2,
                    Int.fdiv bi.y 2 + (corner_offset k).y * Int.fmod bi.y 2,
                    Int.fdiv bi.z 2 + (corner_offset k).z * Int.fmod bi.z 2⟩⟩ := by
  rw [← storage_index_eq]
  exact hm.wellFormed.corners bi b hb k

/-- C3 (amended), at the bundle `{3, -1, 4}` of a one-bundle map and its
corner 3. -/
theorem C3_corner_consistency_witness :
    Reachable (getAllocate unit_map ⟨3, -1, 4⟩).1 ∧
    (getAllocate unit_map ⟨3, -1, 4⟩).1.bundle_storage_.get ⟨3, -1, 4⟩
      = some (getAllocate unit_map ⟨3, -1, 4⟩).2 ∧
    (getAllocate unit_map ⟨3, -1, 4⟩).2 3
      = some ⟨3, ⟨Int.fdiv 3 2 + (corner_offset 3).x * Int.fmod 3 2,
                  Int.fdiv (-1) 2 + (corner_offset 3).y * Int.fmod (-1) 2,
                  Int.fdiv 4 2 + (corner_offset 3).z * Int.fmod 4 2⟩⟩ :=
  ⟨Reachable.getAllocate _ unit_map_reachable, getAllocate_get _ _,
    C3_corner_consistency _ (Reachable.getAllocate _ unit_map_reachable) ⟨3, -1, 4⟩ _
      (getAllocate_get _ _) 3⟩

/-- C4: in every reachable state, each of the 8 corners of a stored bundle is a
non-null pointer, it points into the Corner Lattice of its own number at the
storage index computed when the bundle was allocated, and the accumulator it
points to exists in that lattice; so no stored bundle has only some of its
corners allocated. -/
theorem C4_bundle_corners_allocated (m : OccupancyGridmap) (hm : Reachable m) (bi : index_t)
    (b : distribution_bundle_t) (hb : m.bundle_storage_.get bi = some b) (k : Fin 8) :
    ∃ r : distribution_ref, b k = some r ∧ r.lattice = k ∧ r.index = storage_index bi k ∧
      (deref m r).isSome = true ∧ ((m.storage_ k).get (storage_index bi k)).isSome = true :=
  ⟨⟨k, storage_index bi k⟩, hm.wellFormed.corners bi b hb k, rfl, rfl,
    hm.wellFormed.present bi b hb k, hm.wellFormed.present bi b hb k⟩

/-- C4, at the endpoint bundle `{10, 0, 0}` after one occupied update and its
corner 5. -/
theorem C4_bundle_corners_allocated_witness :
    Reachable (updateOccupied unit_map ⟨10, 0, 0⟩ ⟨5, 0, 0⟩) ∧
    (updateOccupied unit_map ⟨10, 0, 0⟩ ⟨5, 0, 0⟩).bundle_storage_.get ⟨10, 0, 0⟩
      = some (getAllocate unit_map ⟨10, 0, 0⟩).2 ∧
    ∃ r : distribution_ref, (getAllocate unit_map ⟨10, 0, 0⟩).2 5 = some r ∧ r.lattice = 5 ∧
      r.index = storage_index ⟨10, 0, 0⟩ 5 ∧
      (deref (updateOccupied unit_map ⟨10, 0, 0⟩ ⟨5, 0, 0⟩) r).isSome = true ∧
      (((updateOccupied unit_map ⟨10, 0, 0⟩ ⟨5, 0, 0⟩).storage_ 5).get
        (storage_index ⟨10, 0, 0⟩ 5)).isSome = true :=
  have hget : (updateOccupied unit_map ⟨10, 0, 0⟩ ⟨5, 0, 0⟩).bundle_storage_.get ⟨10, 0, 0⟩
      = some (getAllocate unit_map ⟨10, 0, 0⟩).2 := by
    rw [updateOccupied, update_corners_bundle_storage, getAllocate_get]
  ⟨Reachable.updateOccupied _ _ unit_map_reachable, hget,
    C4_bundle_corners_allocated _ (Reachable.updateOccupied _ _ unit_map_reachable)
      ⟨10, 0, 0⟩ _ hget 5⟩

/-! ## C5, C6: lazy allocation -/

theorem Storage.count_le_one_of_nodup {α : Type} (s : Storage α) (h : s.keys.Nodup)
    (i : index_t) : (s.entries.filter (fun e => decide (e.1 = i))).length ≤ 1 := by
  obtain ⟨l⟩ := s
  simp only [Storage.keys] at h
  simp only
  induction l with
  | nil => simp
  | cons e l ih =>
    rw [List.map_cons, List.nodup_cons] at h
    by_cases he : e.1 = i
    · have hnot : ∀ e2 ∈ l, ¬ e2.1 = i := by
        intro e2 h2 hi
        exact h.1 (List.mem_map.2 ⟨e2, h2, hi.trans he.symm⟩)
      have : l.filter (fun e => decide (e.1 = i)) = [] := by
        rw [List.filter_eq_nil_iff]
        intro e2 h2
        simpa using hnot e2 h2
      simp [List.filter_cons, he, this]
    · simpa [List.filter_cons, he] using ih h.2

/-- C5: sequential `getAllocate(bi)` is idempotent. If a bundle is stored for
`bi`, the call returns it and leaves the whole map (Bundle Storage, the eight
Corner Lattices, the Bounding Index) as it was; a second call returns the same
bundle and the same map as the first; a reachable map never stores two bundles
for one index; and the Bounding Index changes only in a call that creates a
bundle, where it becomes `std::min` / `std::max` of the old bound and `bi`. -/
theorem C5_getAllocate_idempotent (m : OccupancyGridmap) (hm : Reachable m) (bi : index_t) :
    (∀ b, m.bundle_storage_.get bi = some b → getAllocate m bi = (m, b)) ∧
    getAllocate (getAllocate m bi).1 bi = getAllocate m bi ∧
    (∀ bj, (m.bundle_storage_.entries.filter (fun e => decide (e.1 = bj))).length ≤ 1) ∧
    (∀ bj, ((getAllocate m bi).1.bundle_storage_.entries.filter
        (fun e => decide (e.1 = bj))).length ≤ 1) ∧
    ((m.bundle_storage_.get bi).isSome = true →
      (getAllocate m bi).1.min_index_ = m.min_index_ ∧
      (getAllocate m bi).1.max_index_ = m.max_index_) ∧
    (m.bundle_storage_.get bi = none →
      (getAllocate m bi).1.min_index_ = std_min m.min_index_ bi ∧
      (getAllocate m bi).1.max_index_ = std_max m.max_index_ bi) := by
  refine ⟨fun b hb => getAllocate_of_some hb, ?_, ?_, ?_, ?_, ?_⟩
  · rw [getAllocate_of_some (getAllocate_get m bi)]
  · exact fun bj => Storage.count_le_one_of_nodup _ hm.wellFormed.bundle_nodup bj
  · exact fun bj =>
      Storage.count_le_one_of_nodup _ (hm.wellFormed.of_getAllocate bi).bundle_nodup bj
  · intro h
    cases hg : m.bundle_storage_.get bi with
    | none => rw [hg] at h; simp at h
    | some b => rw [getAllocate_of_some hg]; exact ⟨rfl, rfl⟩
  · intro h
    rw [getAllocate_of_none h]
    exact ⟨allocate_bundle_min_index m bi, allocate_bundle_max_index m bi⟩

/-- C5, at the map holding the bundle `{0, 5, 0}` and that index. -/
theorem C5_getAllocate_idempotent_witness :
    Reachable one_bundle_map ∧
    (one_bundle_map.bundle_storage_.get ⟨0, 5, 0⟩).isSome = true ∧
    ((∀ b, one_bundle_map.bundle_storage_.get ⟨0, 5, 0⟩ = some b →
        getAllocate one_bundle_map ⟨0, 5, 0⟩ = (one_bundle_map, b)) ∧
    getAllocate (getAllocate one_bundle_map ⟨0, 5, 0⟩).1 ⟨0, 5, 0⟩
      = getAllocate one_bundle_map ⟨0, 5, 0⟩ ∧
    (∀ bj, (one_bundle_map.bundle_storage_.entries.filter
        (fun e => decide (e.1 = bj))).length ≤ 1) ∧
    (∀ bj, ((getAllocate one_bundle_map ⟨0, 5, 0⟩).1.bundle_storage_.entries.filter
        (fun e => decide (e.1 = bj))).length ≤ 1) ∧
    ((one_bundle_map.bundle_storage_.get ⟨0, 5, 0⟩).isSome = true →
      (getAllocate one_bundle_map ⟨0, 5, 0⟩).1.min_index_ = one_bundle_map.min_index_ ∧
      (getAllocate one_bundle_map ⟨0, 5, 0⟩).1.max_index_ = one_bundle_map.max_index_) ∧
    (one_bundle_map.bundle_storage_.get ⟨0, 5, 0⟩ = none →
      (getAllocate one_bundle_map ⟨0, 5, 0⟩).1.min_index_
        = std_min one_bundle_map.min_index_ ⟨0, 5, 0⟩ ∧
      (getAllocate one_bundle_map ⟨0, 5, 0⟩).1.max_index_
        = std_max one_bundle_map.max_index_ ⟨0, 5, 0⟩)) :=
  ⟨one_bundle_map_reachable, by decide,
    C5_getAllocate_idempotent one_bundle_map one_bundle_map_reachable ⟨0, 5, 0⟩⟩

theorem getAllocate_storage_entries (s : Storage distribution_t) (i : index_t) :
    ((s.get i).isSome = true → (getAllocate_storage s i).entries = s.entries) ∧
    (s.get i = none → (getAllocate_storage s i).entries = (i, default) :: s.entries) := by
  unfold getAllocate_storage
  cases h : s.get i <;> simp [Storage.insert]

/-- C6: allocating a new bundle `bi` touches Corner Lattice `k` only at the
storage index of corner `k`. If an accumulator exists there, the lattice keeps
exactly its entries; if none exists, one default accumulator is inserted at
that index and nothing else changes. So at most one accumulator is added per
lattice, every accumulator that existed before is found afterwards with the
same content, and no storage index occurs twice in the lattice. -/
theorem C6_corner_created_at_most_once (m : OccupancyGridmap) (hm : Reachable m)
    (bi : index_t) (hnew : m.bundle_storage_.get bi = none) (k : Fin 8) :
    (((m.storage_ k).get (storage_index bi k)).isSome = true →
      ((getAllocate m bi).1.storage_ k).entries = (m.storage_ k).entries) ∧
    ((m.storage_ k).get (storage_index bi k) = none →
      ((getAllocate m bi).1.storage_ k).entries
        = (storage_index bi k, default) :: (m.storage_ k).entries) ∧
    ((getAllocate m bi).1.storage_ k).entries.length ≤ (m.storage_ k).entries.length + 1 ∧
    (∀ i a, (m.storage_ k).get i = some a →
      ((getAllocate m bi).1.storage_ k).get i = some a) ∧
    (∀ i, (((getAllocate m bi).1.storage_ k).entries.filter
      (fun e => decide (e.1 = i))).length ≤ 1) := by
  have hs : (getAllocate m bi).1.storage_ k
      = getAllocate_storage (m.storage_ k) (storage_index bi k) := by
    rw [getAllocate_of_none hnew, allocate_bundle_storage]
  have he := getAllocate_storage_entries (m.storage_ k) (storage_index bi k)
  refine ⟨?_, ?_, ?_, ?_, ?_⟩
  · rw [hs]; exact he.1
  · rw [hs]; exact he.2
  · rw [hs]
    cases hg : (m.storage_ k).get (storage_index bi k) with
    | none => rw [he.2 hg]; simp
    | some a => rw [he.1 (by simp [hg])]; simp
  · intro i a hi
    rw [getAllocate_storage_get_of_isSome m bi k i (by simp [hi])]
    exact hi
  · exact fun i =>
      Storage.count_le_one_of_nodup _ ((hm.wellFormed.of_getAllocate bi).storage_nodup k) i

/-- C6, at a map whose bundle `{1, 0, 0}` has one occupied observation: the new
bundle `{2, 0, 0}` shares its corner 1 with it, at storage index `{1, 0, 0}` of
lattice 1. -/
theorem C6_corner_created_at_most_once_witness :
    Reachable (updateOccupied unit_map ⟨1, 0, 0⟩ ⟨1 / 2, 0, 0⟩) ∧
    (updateOccupied unit_map ⟨1, 0, 0⟩ ⟨1 / 2, 0, 0⟩).bundle_storage_.get ⟨2, 0, 0⟩ = none ∧
    ((((updateOccupied unit_map ⟨1, 0, 0⟩ ⟨1 / 2, 0, 0⟩).storage_ 1).get
        (storage_index ⟨2, 0, 0⟩ 1)).isSome = true →
      ((getAllocate (updateOccupied unit_map ⟨1, 0, 0⟩ ⟨1 / 2, 0, 0⟩) ⟨2, 0, 0⟩).1.storage_
          1).entries
        = ((updateOccupied unit_map ⟨1, 0, 0⟩ ⟨1 / 2, 0, 0⟩).storage_ 1).entries) ∧
    (((updateOccupied unit_map ⟨1, 0, 0⟩ ⟨1 / 2, 0, 0⟩).storage_ 1).get
        (storage_index ⟨2, 0, 0⟩ 1) = none →
      ((getAllocate (updateOccupied unit_map ⟨1, 0, 0⟩ ⟨1 / 2, 0, 0⟩) ⟨2, 0, 0⟩).1.storage_
          1).entries
        = (storage_index ⟨2, 0, 0⟩ 1, default)
            :: ((updateOccupied unit_map ⟨1, 0, 0⟩ ⟨1 / 2, 0, 0⟩).storage_ 1).entries) ∧
    ((getAllocate (updateOccupied unit_map ⟨1, 0, 0⟩ ⟨1 / 2, 0, 0⟩) ⟨2, 0, 0⟩).1.storage_
        1).entries.length
      ≤ ((updateOccupied unit_map ⟨1, 0, 0⟩ ⟨1 / 2, 0, 0⟩).storage_ 1).entries.length + 1 ∧
    (∀ i a, ((updateOccupied unit_map ⟨1, 0, 0⟩ ⟨1 / 2, 0, 0⟩).storage_ 1).get i = some a →
      ((getAllocate (updateOccupied unit_map ⟨1, 0, 0⟩ ⟨1 / 2, 0, 0⟩) ⟨2, 0, 0⟩).1.storage_
        1).get i = some a) ∧
    (∀ i, (((getAllocate (updateOccupied unit_map ⟨1, 0, 0⟩ ⟨1 / 2, 0, 0⟩)
        ⟨2, 0, 0⟩).1.storage_ 1).entries.filter (fun e => decide (e.1 = i))).length ≤ 1) :=
  have hnew : (updateOccupied unit_map ⟨1, 0, 0⟩ ⟨1 / 2, 0, 0⟩).bundle_storage_.get ⟨2, 0, 0⟩
      = none := by
    rw [updateOccupied, update_corners_bundle_storage]
    decide
  ⟨Reachable.updateOccupied _ _ unit_map_reachable, hnew,
    C6_corner_created_at_most_once _ (Reachable.updateOccupied _ _ unit_map_reachable)
      ⟨2, 0, 0⟩ hnew 1⟩

/-! ## Members that the update members leave alone -/

theorem toBundleIndex_congr {m m2 : OccupancyGridmap} (h1 : m2.m_T_w_ = m.m_T_w_)
    (h2 : m2.bundle_resolution_inv_ = m.bundle_resolution_inv_) (p : point_t) :
    toBundleIndex m2 p = toBundleIndex m p := by
  simp only [toBundleIndex, h1, h2]

theorem toBundleIndex_getAllocate (m : OccupancyGridmap) (bi : index_t) (p : point_t) :
    toBundleIndex (getAllocate m bi).1 p = toBundleIndex m p :=
  toBundleIndex_congr (getAllocate_m_T_w m bi) (getAllocate_bundle_resolution_inv m bi) p

theorem toBundleIndex_update (m : OccupancyGridmap) (bi : index_t)
    (f : distribution_t → distribution_t) (p : point_t) :
    toBundleIndex (update_corners (getAllocate m bi).1 (getAllocate m bi).2 f) p
      = toBundleIndex m p :=
  toBundleIndex_congr
    (by rw [update_corners_m_T_w, getAllocate_m_T_w])
    (by rw [update_corners_bundle_resolution_inv, getAllocate_bundle_resolution_inv]) p

theorem toBundleIndex_unit_map (p : point_t) :
    toBundleIndex unit_map p = ⟨Int.floor (p.x * 2), Int.floor (p.y * 2), Int.floor (p.z * 2)⟩ := by
  simp only [toBundleIndex, unit_map, OccupancyGridmap.new, transform_t.apply,
    transform_t.inverse, transform_t.identity]
  norm_num

theorem endpoint_map_reachable : Reachable endpoint_map :=
  Reachable.updateOccupied _ _ unit_map_reachable

theorem toBundleIndex_endpoint_map (p : point_t) :
    toBundleIndex endpoint_map p
      = ⟨Int.floor (p.x * 2), Int.floor (p.y * 2), Int.floor (p.z * 2)⟩ := by
  rw [endpoint_map, updateOccupied, toBundleIndex_update, toBundleIndex_unit_map]

/-! ## C7, C8, C9: sampling -/

/-- C7: for every map state, sensor model and point `p` whose bundle index has
no bundle in Bundle Storage, `sample` and `sampleNonNormalized` return exactly
0 and the map after the call is the map before it: nothing is allocated. -/
theorem C7_empty_query_safety (api : accumulator_api) (m : OccupancyGridmap) (p : point_t)
    (ivm : inverse_sensor_model_t) (h : m.bundle_storage_.get (toBundleIndex m p) = none) :
    sample api m p ivm = (0, m) ∧ sampleNonNormalized api m p ivm = (0, m) := by
  simp [sample, sampleNonNormalized, h]

/-- C7, at the map holding the endpoint bundle `{10, 0, 0}` and the point
`(1, 0, 0)`, whose bundle `{2, 0, 0}` is not allocated. -/
theorem C7_empty_query_safety_witness :
    endpoint_map.bundle_storage_.get (toBundleIndex endpoint_map ⟨1, 0, 0⟩) = none ∧
    (sample example_api endpoint_map ⟨1, 0, 0⟩ example_model = (0, endpoint_map) ∧
     sampleNonNormalized example_api endpoint_map ⟨1, 0, 0⟩ example_model
       = (0, endpoint_map)) :=
  have h : endpoint_map.bundle_storage_.get (toBundleIndex endpoint_map ⟨1, 0, 0⟩) = none := by
    rw [toBundleIndex_endpoint_map, endpoint_map, updateOccupied, update_corners_bundle_storage]
    norm_num
    decide
  ⟨h, C7_empty_query_safety example_api endpoint_map ⟨1, 0, 0⟩ example_model h⟩

theorem sample_lambda_eq (api : accumulator_api) (ivm : inverse_sensor_model_t)
    (m : OccupancyGridmap) (d : Option distribution_ref) (p : point_t) :
    sample_lambda api ivm m d p = corner_product_at api ivm m d p := by
  unfold sample_lambda corner_product_at corner_product
  cases d with
  | none => rfl
  | some r =>
    simp only [Option.bind]

theorem sampleNonNormalized_lambda_eq (api : accumulator_api) (ivm : inverse_sensor_model_t)
    (m : OccupancyGridmap) (r : distribution_ref) (a : distribution_t) (p : point_t)
    (h : deref m r = some a) :
    sampleNonNormalized_lambda api ivm m (some r) p = corner_product_nn api ivm p a := by
  simp only [sampleNonNormalized_lambda, corner_product_nn, h]

theorem corner_product_at_some (api : accumulator_api) (ivm : inverse_sensor_model_t)
    (m : OccupancyGridmap) (r : distribution_ref) (a : distribution_t) (p : point_t)
    (h : deref m r = some a) :
    corner_product_at api ivm m (some r) p = corner_product api ivm p a := by
  simp only [corner_product_at, Option.bind, h]

/-- C8: for every point `p` whose bundle is allocated in a reachable map, the
8 corner pointers of the bundle refer to 8 existing accumulators, `sample`
returns 0.125 times the sum over them of the normalized density at `p` times
the occupancy under the model, a corner with no fitted Gaussian contributing
0, and `sampleNonNormalized` returns the same with the non-normalized
density. -/
theorem C8_sample_is_corner_average (api : accumulator_api) (m : OccupancyGridmap)
    (hm : Reachable m) (p : point_t) (ivm : inverse_sensor_model_t)
    (b : distribution_bundle_t)
    (hb : m.bundle_storage_.get (toBundleIndex m p) = some b) :
    ∃ acc : Fin 8 → distribution_t,
      (∀ k : Fin 8, ∃ r : distribution_ref, b k = some r ∧ deref m r = some (acc k)) ∧
      (sample api m p ivm).1 = 0.125 * ∑ k : Fin 8, corner_product api ivm p (acc k) ∧
      (sampleNonNormalized api m p ivm).1
        = 0.125 * ∑ k : Fin 8, corner_product_nn api ivm p (acc k) := by
  have hwf := hm.wellFormed
  have hpres : ∀ k : Fin 8, ∃ a, (m.storage_ k).get (storage_index (toBundleIndex m p) k)
      = some a := by
    intro k
    have := hwf.present _ b hb k
    cases hv : (m.storage_ k).get (storage_index (toBundleIndex m p) k) with
    | none => rw [hv] at this; simp at this
    | some a => exact ⟨a, rfl⟩
  choose acc hacc using hpres
  have hder : ∀ k : Fin 8, deref m ⟨k, storage_index (toBundleIndex m p) k⟩ = some (acc k) :=
    fun k => hacc k
  refine ⟨acc, fun k => ⟨_, hwf.corners _ b hb k, hder k⟩, ?_, ?_⟩
  · simp only [sample, hb, sample_evaluate, sample_lambda_eq, hwf.corners _ b hb,
      corner_product_at_some _ _ _ _ _ _ (hder _), Fin.sum_univ_eight]
  · simp only [sampleNonNormalized, hb, sampleNonNormalized_evaluate, hwf.corners _ b hb,
      sampleNonNormalized_lambda_eq _ _ _ _ _ _ (hder _), Fin.sum_univ_eight]

/-- C8, at the map holding the endpoint bundle `{10, 0, 0}` and its point
`(5, 0, 0)`. -/
theorem C8_sample_is_corner_average_witness :
    Reachable endpoint_map ∧
    endpoint_map.bundle_storage_.get (toBundleIndex endpoint_map ⟨5, 0, 0⟩)
      = some (getAllocate unit_map ⟨10, 0, 0⟩).2 ∧
    ∃ acc : Fin 8 → distribution_t,
      (∀ k : Fin 8, ∃ r : distribution_ref,
        (getAllocate unit_map ⟨10, 0, 0⟩).2 k = some r ∧
        deref endpoint_map r = some (acc k)) ∧
      (sample example_api endpoint_map ⟨5, 0, 0⟩ example_model).1
        = 0.125 * ∑ k : Fin 8, corner_product example_api example_model ⟨5, 0, 0⟩ (acc k) ∧
      (sampleNonNormalized example_api endpoint_map ⟨5, 0, 0⟩ example_model).1
        = 0.125 * ∑ k : Fin 8,
            corner_product_nn example_api example_model ⟨5, 0, 0⟩ (acc k) :=
  have hb : endpoint_map.bundle_storage_.get (toBundleIndex endpoint_map ⟨5, 0, 0⟩)
      = some (getAllocate unit_map ⟨10, 0, 0⟩).2 := by
    rw [toBundleIndex_endpoint_map, endpoint_map, updateOccupied, update_corners_bundle_storage]
    have h10 : (⟨Int.floor ((5 : ℚ) * 2), Int.floor ((0 : ℚ) * 2), Int.floor ((0 : ℚ) * 2)⟩
        : index_t) = ⟨10, 0, 0⟩ := by norm_num
    rw [h10]
    exact getAllocate_get unit_map ⟨10, 0, 0⟩
  ⟨endpoint_map_reachable, hb,
    C8_sample_is_corner_average example_api endpoint_map endpoint_map_reachable ⟨5, 0, 0⟩
      example_model _ hb⟩

theorem WellFormed.storage_get_after_getAllocate {m : OccupancyGridmap} (h : WellFormed m)
    (bi : index_t) (k : Fin 8) (i : index_t) :
    ((getAllocate m bi).1.storage_ k).get i
      = if i = storage_index bi k then some (((m.storage_ k).get i).getD default)
        else (m.storage_ k).get i := by
  cases hg : m.bundle_storage_.get bi with
  | some b =>
    rw [getAllocate_of_some hg]
    by_cases hi : i = storage_index bi k
    · subst hi
      have := h.present bi b hg k
      cases hv : (m.storage_ k).get (storage_index bi k) with
      | none => rw [hv] at this; simp at this
      | some a => simp
    · simp [hi]
  | none =>
    rw [getAllocate_of_none hg, allocate_bundle_storage, getAllocate_storage_get]
    by_cases hi : i = storage_index bi k
    · subst hi; simp
    · simp [hi]

theorem WellFormed.observed_getAllocate {m : OccupancyGridmap} (h : WellFormed m)
    (bi : index_t) (k : Fin 8) (i : index_t) :
    observed (getAllocate m bi).1 k i = observed m k i := by
  unfold observed
  rw [h.storage_get_after_getAllocate bi k i]
  by_cases hi : i = storage_index bi k
  · simp only [hi, if_true]
    cases (m.storage_ k).get (storage_index bi k) <;> rfl
  · simp only [hi, if_false]

theorem WellFormed.observed_update {m : OccupancyGridmap} (h : WellFormed m)
    (bi : index_t) (f : distribution_t → distribution_t) (k : Fin 8) (i : index_t) :
    observed (update_corners (getAllocate m bi).1 (getAllocate m bi).2 f) k i
      = if i = storage_index bi k then (f ⟨observed m k i⟩).log else observed m k i := by
  unfold observed
  rw [update_corners_storage _ _ f (storage_index bi) (h.getAllocate_snd bi),
    Storage.get_modify, h.storage_get_after_getAllocate bi k i]
  by_cases hi : i = storage_index bi k
  · simp only [hi, if_true]
    cases (m.storage_ k).get (storage_index bi k) <;> rfl
  · simp only [hi, if_false]

theorem WellFormed.observed_updateFree {m : OccupancyGridmap} (h : WellFormed m)
    (bi : index_t) (k : Fin 8) (i : index_t) :
    observed (updateFree m bi) k i
      = observed m k i ++ (if i = storage_index bi k then [update_t.free] else []) := by
  rw [updateFree, h.observed_update]
  by_cases hi : i = storage_index bi k <;> simp [hi, distribution_t.updateFree]

theorem WellFormed.observed_updateOccupied {m : OccupancyGridmap} (h : WellFormed m)
    (bi : index_t) (p : point_t) (k : Fin 8) (i : index_t) :
    observed (updateOccupied m bi p) k i
      = observed m k i ++ (if i = storage_index bi k then [update_t.occupied p] else []) := by
  rw [updateOccupied, h.observed_update]
  by_cases hi : i = storage_index bi k <;> simp [hi, distribution_t.updateOccupied]

/-! ## Bundles stay allocated -/

theorem getAllocate_keeps_bundle (m : OccupancyGridmap) (bi bj : index_t)
    (h : (m.bundle_storage_.get bj).isSome = true) :
    ((getAllocate m bi).1.bundle_storage_.get bj).isSome = true := by
  by_cases hj : bj = bi
  · subst hj; rw [getAllocate_get]; rfl
  · rw [getAllocate_get_ne m hj]; exact h

theorem updateFree_allocates (m : OccupancyGridmap) (bi : index_t) :
    ((updateFree m bi).bundle_storage_.get bi).isSome = true := by
  rw [updateFree, update_corners_bundle_storage, getAllocate_get]; rfl

theorem updateFree_keeps_bundle (m : OccupancyGridmap) (bi bj : index_t)
    (h : (m.bundle_storage_.get bj).isSome = true) :
    ((updateFree m bi).bundle_storage_.get bj).isSome = true := by
  rw [updateFree, update_corners_bundle_storage]
  exact getAllocate_keeps_bundle m bi bj h

theorem updateOccupied_allocates (m : OccupancyGridmap) (bi : index_t) (p : point_t) :
    ((updateOccupied m bi p).bundle_storage_.get bi).isSome = true := by
  rw [updateOccupied, update_corners_bundle_storage, getAllocate_get]; rfl

/-! ## The free-space loop of `add` -/

theorem add_loop_eq (I : line_iterator_t) (fuel : Nat) :
    ∀ (it : I.state) (m : OccupancyGridmap),
      add_loop I fuel it m = (traversed I fuel it).map (fun ray => ray.foldl updateFree m) := by
  induction fuel with
  | zero => intro it m; rfl
  | succ fuel ih =>
    intro it m
    by_cases hd : I.done it = true
    · simp [add_loop, traversed, hd]
    · simp only [add_loop, traversed, hd, if_false, Bool.false_eq_true]
      rw [ih]
      cases traversed I fuel (I.next it) <;> simp

theorem traversed_of_done (I : line_iterator_t) (n : Nat) :
    ∀ (it : I.state), I.done (I.next^[n] it) = true → ∀ fuel, n < fuel →
      ∃ ray, traversed I fuel it = some ray := by
  induction n with
  | zero =>
    intro it hd fuel hf
    obtain ⟨f, rfl⟩ : ∃ f, fuel = f + 1 := ⟨fuel - 1, by omega⟩
    exact ⟨[], by simpa [traversed] using hd⟩
  | succ n ih =>
    intro it hd fuel hf
    obtain ⟨f, rfl⟩ : ∃ f, fuel = f + 1 := ⟨fuel - 1, by omega⟩
    by_cases h0 : I.done it = true
    · exact ⟨[], by simp [traversed, h0]⟩
    · rw [Function.iterate_succ_apply] at hd
      obtain ⟨ray, hray⟩ := ih (I.next it) hd f (by omega)
      exact ⟨⟨I.x it, I.y it, I.z it⟩ :: ray, by simp [traversed, h0, hray]⟩

theorem traversed_mem (I : line_iterator_t) (fuel : Nat) :
    ∀ (it : I.state) (ray : List index_t), traversed I fuel it = some ray →
      ∀ r ∈ ray, ∃ j : Nat, I.done (I.next^[j] it) = false ∧
        (⟨I.x (I.next^[j] it), I.y (I.next^[j] it), I.z (I.next^[j] it)⟩ : index_t) = r := by
  induction fuel with
  | zero => intro it ray h; simp [traversed] at h
  | succ fuel ih =>
    intro it ray h r hr
    by_cases h0 : I.done it = true
    · simp [traversed, h0] at h
      subst h
      simp at hr
    · simp only [traversed, h0, if_false, Bool.false_eq_true, Option.map_eq_some'] at h
      obtain ⟨tl, htl, rfl⟩ := h
      rcases List.mem_cons.1 hr with rfl | hr
      · exact ⟨0, by simpa using h0, rfl⟩
      · obtain ⟨j, hj1, hj2⟩ := ih (I.next it) tl htl r hr
        exact ⟨j + 1, by rwa [Function.iterate_succ_apply], by
          rwa [Function.iterate_succ_apply]⟩

theorem foldl_updateFree_reachable (ray : List index_t) :
    ∀ m : OccupancyGridmap, Reachable m → Reachable (ray.foldl updateFree m) := by
  induction ray with
  | nil => intro m h; exact h
  | cons r ray ih => intro m h; exact ih _ (Reachable.updateFree r h)

theorem observed_foldl_updateFree (ray : List index_t) (k : Fin 8) (i : index_t) :
    ∀ m : OccupancyGridmap, Reachable m →
      observed (ray.foldl updateFree m) k i
        = observed m k i
          ++ List.replicate (ray.countP (fun r => decide (i = storage_index r k)))
              update_t.free := by
  induction ray with
  | nil => intro m _; simp
  | cons r ray ih =>
    intro m hm
    rw [List.foldl_cons, ih _ (Reachable.updateFree r hm),
      hm.wellFormed.observed_updateFree, List.countP_cons]
    by_cases hi : i = storage_index r k
    · simp only [hi, if_true, decide_True, if_pos, List.append_assoc, List.singleton_append]
      rfl
    · simp [hi]

theorem foldl_updateFree_keeps_bundle (ray : List index_t) (bj : index_t) :
    ∀ m : OccupancyGridmap, (m.bundle_storage_.get bj).isSome = true →
      ((ray.foldl updateFree m).bundle_storage_.get bj).isSome = true := by
  induction ray with
  | nil => intro m h; exact h
  | cons r ray ih => intro m h; exact ih _ (updateFree_keeps_bundle m r bj h)

theorem foldl_updateFree_allocates (ray : List index_t) :
    ∀ m : OccupancyGridmap, ∀ r ∈ ray,
      ((ray.foldl updateFree m).bundle_storage_.get r).isSome = true := by
  induction ray with
  | nil => intro m r hr; simp at hr
  | cons r0 ray ih =>
    intro m r hr
    rcases List.mem_cons.1 hr with rfl | hr
    · exact foldl_updateFree_keeps_bundle ray r _ (updateFree_allocates m r)
    · exact ih _ r hr

theorem add_eq (I : line_iterator_t) (fuel : Nat) (m : OccupancyGridmap)
    (start_p end_p : point_t) :
    add I fuel m start_p end_p
      = (traversed I fuel
          (I.make (m.m_T_w_.apply start_p) (m.m_T_w_.apply end_p) m.bundle_resolution_)).map
        (fun ray => ray.foldl updateFree
          (updateOccupied m (toBundleIndex m end_p) end_p)) := by
  have h1 : (updateOccupied m (toBundleIndex m end_p) end_p).m_T_w_ = m.m_T_w_ := by
    rw [updateOccupied, update_corners_m_T_w, getAllocate_m_T_w]
  have h2 : (updateOccupied m (toBundleIndex m end_p) end_p).bundle_resolution_
      = m.bundle_resolution_ := by
    rw [updateOccupied, update_corners_bundle_resolution, getAllocate_bundle_resolution]
  simp only [add, add_loop_eq, h1, h2]

theorem add_end_index_eq (I : line_iterator_t) (fuel : Nat) (m : OccupancyGridmap)
    (start_p end_p : point_t) :
    add_end_index I fuel m start_p end_p
      = (add I fuel m start_p end_p).map (fun m2 => (m2, toBundleIndex m end_p)) := rfl

theorem add_reachable (I : line_iterator_t) (fuel : Nat) (m m2 : OccupancyGridmap)
    (start_p end_p : point_t) (hm : Reachable m) (h : add I fuel m start_p end_p = some m2) :
    Reachable m2 := by
  rw [add_eq, Option.map_eq_some'] at h
  obtain ⟨ray, _, rfl⟩ := h
  exact foldl_updateFree_reachable ray _ (Reachable.updateOccupied _ _ hm)

/-! ## C10: ray free-space carving by `add` -/

/-- C10: `add(start_p, end_p)` on a reachable map, for an iterator that is
`done()` after `n` increments and `fuel > n`. The call returns a map. With
`ray` the indices the iterator shows while `done()` is false: the overload
with the `end_index` parameter returns the same map and the bundle index of
`end_p`; the bundle of `end_p` is allocated and each of its 8 corner accumulators has received `end_p`
as an occupied observation; every index of `ray` is allocated and each of its 8
corner accumulators has received a free observation; every accumulator of
every lattice holds exactly its earlier observations, then `end_p` once if it
is a corner of the endpoint bundle, then one free observation for each visit
of a traversed bundle it is a corner of; the loop body runs only for iterator
states that are not done, so when the iterator is done whenever it shows the
endpoint index, the endpoint bundle is not among the bundles marked free. -/
theorem C10_add_carves_free_space (I : line_iterator_t) (m : OccupancyGridmap)
    (hm : Reachable m) (start_p end_p : point_t) (n fuel : Nat)
    (hdone : I.done (I.next^[n]
      (I.make (m.m_T_w_.apply start_p) (m.m_T_w_.apply end_p) m.bundle_resolution_)) = true)
    (hfuel : n < fuel) :
    ∃ (ray : List index_t) (m2 : OccupancyGridmap),
      traversed I fuel
        (I.make (m.m_T_w_.apply start_p) (m.m_T_w_.apply end_p) m.bundle_resolution_)
        = some ray ∧
      add I fuel m start_p end_p = some m2 ∧
      add_end_index I fuel m start_p end_p = some (m2, toBundleIndex m end_p) ∧
      (m2.bundle_storage_.get (toBundleIndex m end_p)).isSome = true ∧
      (∀ k : Fin 8,
        update_t.occupied end_p ∈ observed m2 k (storage_index (toBundleIndex m end_p) k)) ∧
      (∀ r ∈ ray, (m2.bundle_storage_.get r).isSome = true ∧
        ∀ k : Fin 8, update_t.free ∈ observed m2 k (storage_index r k)) ∧
      (∀ (k : Fin 8) (i : index_t),
        observed m2 k i
          = observed m k i
            ++ (if i = storage_index (toBundleIndex m end_p) k
                then [update_t.occupied end_p] else [])
            ++ List.replicate (ray.countP (fun r => decide (i = storage_index r k)))
                update_t.free) ∧
      (∀ r ∈ ray, ∃ j : Nat,
        I.done (I.next^[j] (I.make (m.m_T_w_.apply start_p) (m.m_T_w_.apply end_p)
          m.bundle_resolution_)) = false ∧
        (⟨I.x (I.next^[j] (I.make (m.m_T_w_.apply start_p) (m.m_T_w_.apply end_p)
            m.bundle_resolution_)),
          I.y (I.next^[j] (I.make (m.m_T_w_.apply start_p) (m.m_T_w_.apply end_p)
            m.bundle_resolution_)),
          I.z (I.next^[j] (I.make (m.m_T_w_.apply start_p) (m.m_T_w_.apply end_p)
            m.bundle_resolution_))⟩ : index_t) = r) ∧
      ((∀ j : Nat,
          (⟨I.x (I.next^[j] (I.make (m.m_T_w_.apply start_p) (m.m_T_w_.apply end_p)
              m.bundle_resolution_)),
            I.y (I.next^[j] (I.make (m.m_T_w_.apply start_p) (m.m_T_w_.apply end_p)
              m.bundle_resolution_)),
            I.z (I.next^[j] (I.make (m.m_T_w_.apply start_p) (m.m_T_w_.apply end_p)
              m.bundle_resolution_))⟩ : index_t) = toBundleIndex m end_p →
          I.done (I.next^[j] (I.make (m.m_T_w_.apply start_p) (m.m_T_w_.apply end_p)
            m.bundle_resolution_)) = true) →
        toBundleIndex m end_p ∉ ray) := by
  obtain ⟨ray, hray⟩ := traversed_of_done I n _ hdone fuel hfuel
  have hocc : Reachable (updateOccupied m (toBundleIndex m end_p) end_p) :=
    Reachable.updateOccupied _ _ hm
  have hobs : ∀ (k : Fin 8) (i : index_t),
      observed (ray.foldl updateFree (updateOccupied m (toBundleIndex m end_p) end_p)) k i
        = observed m k i
          ++ (if i = storage_index (toBundleIndex m end_p) k
              then [update_t.occupied end_p] else [])
          ++ List.replicate (ray.countP (fun r => decide (i = storage_index r k)))
              update_t.free := by
    intro k i
    rw [observed_foldl_updateFree ray k i _ hocc, hm.wellFormed.observed_updateOccupied]
  have hmem := traversed_mem I fuel _ ray hray
  have hadd : add I fuel m start_p end_p
      = some (ray.foldl updateFree (updateOccupied m (toBundleIndex m end_p) end_p)) := by
    rw [add_eq, hray]; rfl
  refine ⟨ray, ray.foldl updateFree (updateOccupied m (toBundleIndex m end_p) end_p),
    hray, hadd, ?_, ?_, ?_, ?_, hobs, hmem, ?_⟩
  · rw [add_end_index_eq, hadd]; rfl
  · exact foldl_updateFree_keeps_bundle ray _ _ (updateOccupied_allocates m _ end_p)
  · intro k
    rw [hobs]
    simp
  · intro r hr
    refine ⟨foldl_updateFree_allocates ray _ r hr, fun k => ?_⟩
    rw [hobs]
    have hpos : 0 < ray.countP (fun r2 => decide (storage_index r k = storage_index r2 k)) :=
      List.countP_pos_iff.2 ⟨r, hr, by simp⟩
    apply List.mem_append_right
    exact List.mem_replicate.2 ⟨by omega, rfl⟩
  · intro hend hin
    obtain ⟨j, hj1, hj2⟩ := hmem _ hin
    rw [hend j hj2] at hj1
    exact Bool.noConfusion hj1


theorem observed_unit_map (k : Fin 8) (i : index_t) : observed unit_map k i = [] := rfl

theorem simple_iterator_unit_map :
    simple_iterator_t.make (unit_map.m_T_w_.apply ⟨0, 0, 0⟩) (unit_map.m_T_w_.apply ⟨5, 0, 0⟩)
        unit_map.bundle_resolution_
      = ((⟨0, 0, 0⟩, ⟨10, 0, 0⟩) : index_t × index_t) := by
  simp only [simple_iterator_t, unit_map, OccupancyGridmap.new, transform_t.apply,
    transform_t.inverse, transform_t.identity]
  norm_num

theorem traversed_unit_ray :
    traversed simple_iterator_t 11 ((⟨0, 0, 0⟩, ⟨10, 0, 0⟩) : index_t × index_t)
      = some [⟨0, 0, 0⟩, ⟨1, 0, 0⟩, ⟨2, 0, 0⟩, ⟨3, 0, 0⟩, ⟨4, 0, 0⟩, ⟨5, 0, 0⟩, ⟨6, 0, 0⟩,
          ⟨7, 0, 0⟩, ⟨8, 0, 0⟩, ⟨9, 0, 0⟩] := by
  decide

theorem toBundleIndex_unit_endpoint : toBundleIndex unit_map ⟨5, 0, 0⟩ = ⟨10, 0, 0⟩ := by
  rw [toBundleIndex_unit_map]
  norm_num


/-- C10, the worked example: `add((0, 0, 0), (5, 0, 0))` on a map at the
identity pose with resolution 1. The iterator shows the bundles `{0, 0, 0}` to
`{9, 0, 0}`; each bundle strictly between bundle 0 and bundle 10 on the x axis
is allocated and has a free observation on every corner; bundle `{10, 0, 0}` is
allocated, is not traversed, and has `(5, 0, 0)` as occupied observation on
every corner. Its corners in the lattices 1, 3, 5, 7 are also corners of the
traversed bundle `{9, 0, 0}` and carry that bundle's free observation. -/
theorem C10_add_carves_free_space_witness :
    Reachable unit_map ∧
    simple_iterator_t.done (simple_iterator_t.next^[10]
      (simple_iterator_t.make (unit_map.m_T_w_.apply ⟨0, 0, 0⟩)
        (unit_map.m_T_w_.apply ⟨5, 0, 0⟩) unit_map.bundle_resolution_)) = true ∧
    10 < 11 ∧
    ∃ (ray : List index_t) (m2 : OccupancyGridmap),
      ray = [⟨0, 0, 0⟩, ⟨1, 0, 0⟩, ⟨2, 0, 0⟩, ⟨3, 0, 0⟩, ⟨4, 0, 0⟩, ⟨5, 0, 0⟩, ⟨6, 0, 0⟩,
        ⟨7, 0, 0⟩, ⟨8, 0, 0⟩, ⟨9, 0, 0⟩] ∧
      toBundleIndex unit_map ⟨5, 0, 0⟩ = ⟨10, 0, 0⟩ ∧
      add simple_iterator_t 11 unit_map ⟨0, 0, 0⟩ ⟨5, 0, 0⟩ = some m2 ∧
      (m2.bundle_storage_.get ⟨10, 0, 0⟩).isSome = true ∧
      (∀ k : Fin 8, update_t.occupied ⟨5, 0, 0⟩ ∈ observed m2 k (storage_index ⟨10, 0, 0⟩ k)) ∧
      (∀ x : Int, 0 < x → x < 10 →
        (m2.bundle_storage_.get ⟨x, 0, 0⟩).isSome = true ∧
        ∀ k : Fin 8, update_t.free ∈ observed m2 k (storage_index ⟨x, 0, 0⟩ k)) ∧
      (⟨10, 0, 0⟩ : index_t) ∉ ray ∧
      (∀ k : Fin 8, observed m2 k (storage_index ⟨10, 0, 0⟩ k)
        = if k.val % 2 = 1 then [update_t.occupied ⟨5, 0, 0⟩, update_t.free]
          else [update_t.occupied ⟨5, 0, 0⟩]) := by
  have hdone : simple_iterator_t.done (simple_iterator_t.next^[10]
      (simple_iterator_t.make (unit_map.m_T_w_.apply ⟨0, 0, 0⟩)
        (unit_map.m_T_w_.apply ⟨5, 0, 0⟩) unit_map.bundle_resolution_)) = true := by
    rw [simple_iterator_unit_map]
    decide
  obtain ⟨ray, m2, htr, hadd, _, halloc, hocc, hfree, hobs, _, _⟩ :=
    C10_add_carves_free_space simple_iterator_t unit_map unit_map_reachable ⟨0, 0, 0⟩
      ⟨5, 0, 0⟩ 10 11 hdone (by decide)
  rw [simple_iterator_unit_map, traversed_unit_ray] at htr
  have hray := (Option.some.inj htr).symm
  rw [toBundleIndex_unit_endpoint] at halloc hocc hobs
  refine ⟨unit_map_reachable, hdone, by decide, ray, m2, hray, toBundleIndex_unit_endpoint,
    hadd, halloc, hocc, ?_, ?_, ?_⟩
  · intro x h0 h10
    apply hfree
    rw [hray]
    interval_cases x <;> simp
  · rw [hray]
    decide
  · intro k
    rw [hobs, observed_unit_map, hray]
    fin_cases k <;> simp <;> decide

/-! ## Sequences of calls -/

theorem updateFree_eq_run_step (m : OccupancyGridmap) (bi : index_t) :
    updateFree m bi = run_step m (step_t.update bi update_t.free) := rfl

theorem updateFree_n_eq_run_step (m : OccupancyGridmap) (bi : index_t) (n : Nat) :
    updateFree_n m bi n = run_step m (step_t.update bi (update_t.free_n n)) := rfl

theorem updateOccupied_eq_run_step (m : OccupancyGridmap) (bi : index_t) (p : point_t) :
    updateOccupied m bi p = run_step m (step_t.update bi (update_t.occupied p)) := rfl

theorem updateOccupied_d_eq_run_step (m : OccupancyGridmap) (bi : index_t) (g : gaussian_t) :
    updateOccupied_d m bi g = run_step m (step_t.update bi (update_t.occupied_d g)) := rfl

theorem getAllocate_eq_run_step (m : OccupancyGridmap) (bi : index_t) :
    (getAllocate m bi).1 = run_step m (step_t.allocate bi) := rfl

theorem run_steps_nil (m : OccupancyGridmap) : run_steps m [] = m := rfl

theorem run_steps_cons (m : OccupancyGridmap) (s : step_t) (steps : List step_t) :
    run_steps m (s :: steps) = run_steps (run_step m s) steps := rfl

theorem run_steps_append (m : OccupancyGridmap) (s1 s2 : List step_t) :
    run_steps m (s1 ++ s2) = run_steps (run_steps m s1) s2 := by
  simp [run_steps, List.foldl_append]

theorem run_step_reachable {m : OccupancyGridmap} (hm : Reachable m) (s : step_t) :
    Reachable (run_step m s) := by
  cases s with
  | allocate bi => exact Reachable.getAllocate bi hm
  | update bi u =>
    cases u with
    | free => exact Reachable.updateFree bi hm
    | free_n n => exact Reachable.updateFree_n bi n hm
    | occupied p => exact Reachable.updateOccupied bi p hm
    | occupied_d g => exact Reachable.updateOccupied_d bi g hm

theorem run_steps_reachable (steps : List step_t) :
    ∀ {m : OccupancyGridmap}, Reachable m → Reachable (run_steps m steps) := by
  induction steps with
  | nil => intro m hm; exact hm
  | cons s steps ih => intro m hm; exact ih (run_step_reachable hm s)

theorem updates_sent_nil (k : Fin 8) (i : index_t) : updates_sent [] k i = [] := rfl

theorem updates_sent_append (s1 s2 : List step_t) (k : Fin 8) (i : index_t) :
    updates_sent (s1 ++ s2) k i = updates_sent s1 k i ++ updates_sent s2 k i := by
  simp [updates_sent, List.filterMap_append]

theorem updates_sent_cons_allocate (bi : index_t) (steps : List step_t) (k : Fin 8)
    (i : index_t) :
    updates_sent (step_t.allocate bi :: steps) k i = updates_sent steps k i := by
  simp [updates_sent, List.filterMap_cons]

theorem updates_sent_cons_update (bi : index_t) (u : update_t) (steps : List step_t)
    (k : Fin 8) (i : index_t) :
    updates_sent (step_t.update bi u :: steps) k i
      = (if i = storage_index bi k then [u] else []) ++ updates_sent steps k i := by
  by_cases h : i = storage_index bi k <;> simp [updates_sent, List.filterMap_cons, h]

theorem observed_run_step {m : OccupancyGridmap} (hm : Reachable m) (s : step_t) (k : Fin 8)
    (i : index_t) : observed (run_step m s) k i = observed m k i ++ updates_sent [s] k i := by
  cases s with
  | allocate bi =>
    rw [updates_sent_cons_allocate, updates_sent_nil, List.append_nil]
    exact hm.wellFormed.observed_getAllocate bi k i
  | update bi u =>
    rw [updates_sent_cons_update, updates_sent_nil, List.append_nil]
    simp only [run_step]
    rw [hm.wellFormed.observed_update]
    by_cases h : i = storage_index bi k <;> simp [h]

theorem observed_run_steps (steps : List step_t) (k : Fin 8) (i : index_t) :
    ∀ {m : OccupancyGridmap}, Reachable m →
      observed (run_steps m steps) k i = observed m k i ++ updates_sent steps k i := by
  induction steps with
  | nil => intro m _; simp [run_steps_nil, updates_sent_nil]
  | cons s steps ih =>
    intro m hm
    rw [run_steps_cons, ih (run_step_reachable hm s), observed_run_step hm,
      List.append_assoc, ← updates_sent_append]
    rfl

/-! ## What a sequence of calls allocates -/

theorem run_step_get_of_ne (m : OccupancyGridmap) (s : step_t) (bj : index_t)
    (h : bj ≠ s.index) :
    (run_step m s).bundle_storage_.get bj = m.bundle_storage_.get bj := by
  cases s with
  | allocate bi => exact getAllocate_get_ne m h
  | update bi u =>
    simp only [run_step]
    rw [update_corners_bundle_storage]
    exact getAllocate_get_ne m h

theorem run_step_get_of_some (m : OccupancyGridmap) (s : step_t) (bj : index_t)
    (b : distribution_bundle_t) (h : m.bundle_storage_.get bj = some b) :
    (run_step m s).bundle_storage_.get bj = some b := by
  have key : (getAllocate m s.index).1.bundle_storage_.get bj = some b := by
    by_cases hj : bj = s.index
    · rw [hj] at h
      rw [hj, getAllocate_of_some h]
      exact h
    · rw [getAllocate_get_ne m hj]; exact h
  cases s with
  | allocate bi => exact key
  | update bi u =>
    simp only [run_step]
    rw [update_corners_bundle_storage]
    exact key

theorem run_step_allocates (m : OccupancyGridmap) (s : step_t) :
    ((run_step m s).bundle_storage_.get s.index).isSome = true := by
  cases s with
  | allocate bi => simp only [run_step, step_t.index]; rw [getAllocate_get]; rfl
  | update bi u =>
    simp only [run_step, step_t.index]
    rw [update_corners_bundle_storage, getAllocate_get]; rfl

theorem run_steps_get_of_some (steps : List step_t) (bj : index_t)
    (b : distribution_bundle_t) :
    ∀ m : OccupancyGridmap, m.bundle_storage_.get bj = some b →
      (run_steps m steps).bundle_storage_.get bj = some b := by
  induction steps with
  | nil => intro m h; exact h
  | cons s steps ih => intro m h; exact ih _ (run_step_get_of_some m s bj b h)

theorem run_steps_get_of_not_mem (steps : List step_t) (bj : index_t) :
    ∀ m : OccupancyGridmap, bj ∉ steps.map step_t.index →
      (run_steps m steps).bundle_storage_.get bj = m.bundle_storage_.get bj := by
  induction steps with
  | nil => intro m _; rfl
  | cons s steps ih =>
    intro m h
    rw [List.map_cons, List.mem_cons, not_or] at h
    rw [run_steps_cons, ih _ h.2, run_step_get_of_ne m s bj h.1]

theorem run_steps_allocates (steps : List step_t) :
    ∀ m : OccupancyGridmap, ∀ s ∈ steps,
      ((run_steps m steps).bundle_storage_.get s.index).isSome = true := by
  induction steps with
  | nil => intro m s hs; simp at hs
  | cons s0 steps ih =>
    intro m s hs
    rcases List.mem_cons.1 hs with rfl | hs
    · have h := run_step_allocates m s
      cases hb : (run_step m s).bundle_storage_.get s.index with
      | none => rw [hb] at h; simp at h
      | some b => rw [run_steps_cons, run_steps_get_of_some steps _ b _ hb]; rfl
    · exact ih _ s hs

/-! ## The scratch storage of a scan -/

theorem fuse_point_invalid (capi : cloud_api) (m : OccupancyGridmap) (origin : transform_t)
    (s : Storage distribution_t) (p : point_t) (h : capi.isNormal (origin.apply p) = false) :
    fuse_point capi m origin s p = s := by
  simp [fuse_point, h]

theorem run_step_m_T_w (m : OccupancyGridmap) (s : step_t) :
    (run_step m s).m_T_w_ = m.m_T_w_ := by
  cases s with
  | allocate bi => exact getAllocate_m_T_w m bi
  | update bi u => simp only [run_step]; rw [update_corners_m_T_w, getAllocate_m_T_w]

theorem run_step_bundle_resolution (m : OccupancyGridmap) (s : step_t) :
    (run_step m s).bundle_resolution_ = m.bundle_resolution_ := by
  cases s with
  | allocate bi => exact getAllocate_bundle_resolution m bi
  | update bi u =>
    simp only [run_step]
    rw [update_corners_bundle_resolution, getAllocate_bundle_resolution]

theorem run_step_bundle_resolution_inv (m : OccupancyGridmap) (s : step_t) :
    (run_step m s).bundle_resolution_inv_ = m.bundle_resolution_inv_ := by
  cases s with
  | allocate bi => exact getAllocate_bundle_resolution_inv m bi
  | update bi u =>
    simp only [run_step]
    rw [update_corners_bundle_resolution_inv, getAllocate_bundle_resolution_inv]

theorem run_steps_m_T_w (steps : List step_t) :
    ∀ m : OccupancyGridmap, (run_steps m steps).m_T_w_ = m.m_T_w_ := by
  induction steps with
  | nil => intro m; rfl
  | cons s steps ih => intro m; rw [run_steps_cons, ih, run_step_m_T_w]

theorem run_steps_bundle_resolution (steps : List step_t) :
    ∀ m : OccupancyGridmap, (run_steps m steps).bundle_resolution_ = m.bundle_resolution_ := by
  induction steps with
  | nil => intro m; rfl
  | cons s steps ih => intro m; rw [run_steps_cons, ih, run_step_bundle_resolution]

theorem run_steps_bundle_resolution_inv (steps : List step_t) :
    ∀ m : OccupancyGridmap,
      (run_steps m steps).bundle_resolution_inv_ = m.bundle_resolution_inv_ := by
  induction steps with
  | nil => intro m; rfl
  | cons s steps ih => intro m; rw [run_steps_cons, ih, run_step_bundle_resolution_inv]

/-! ## The traversal of `insert` -/

theorem insert_loop_eq (I : line_iterator_t) (n : Nat) (fuel : Nat) :
    ∀ (it : I.state) (m : OccupancyGridmap),
      insert_loop I n fuel it m
        = (traversed I fuel it).map (fun ray =>
            run_steps m (ray.map (fun v => step_t.update v (update_t.free_n n)))) := by
  induction fuel with
  | zero => intro it m; rfl
  | succ fuel ih =>
    intro it m
    by_cases hd : I.done it = true
    · simp [insert_loop, traversed, hd, run_steps_nil]
    · simp only [insert_loop, traversed, hd, if_false, Bool.false_eq_true]
      rw [ih]
      cases traversed I fuel (I.next it) with
      | none => rfl
      | some ray =>
        simp only [Option.map_some', List.map_cons, run_steps_cons]
        rfl

theorem insert_lambda_of_none (api : accumulator_api) (capi : cloud_api) (I : line_iterator_t)
    (fuel : Nat) (start_p : point_t) (m : OccupancyGridmap) (bi : index_t) (d : distribution_t)
    (h : api.getDistribution d = none) :
    insert_lambda api capi I fuel start_p m bi d = some m := by
  simp [insert_lambda, h]

theorem insert_lambda_of_some (api : accumulator_api) (capi : cloud_api) (I : line_iterator_t)
    (fuel : Nat) (start_p : point_t) (m : OccupancyGridmap) (bi : index_t) (d : distribution_t)
    (g : gaussian_t) (h : api.getDistribution d = some g) (voxels : List index_t)
    (hv : traversed I fuel
      (I.make start_p (m.m_T_w_.apply (capi.getMean g)) m.bundle_resolution_) = some voxels) :
    insert_lambda api capi I fuel start_p m bi d
      = some (run_steps m (ray_t.steps ⟨bi, g, capi.numOccupied d, voxels⟩)) := by
  simp only [insert_lambda, h, insert_loop_eq, updateOccupied_d_eq_run_step, run_step_m_T_w,
    run_step_bundle_resolution, hv, Option.map_some', ray_t.steps, run_steps_cons]

theorem traverse_entries_insert (api : accumulator_api) (capi : cloud_api)
    (I : line_iterator_t) (fuel : Nat) (m0 : OccupancyGridmap) (start_p : point_t)
    (es : List (index_t × distribution_t)) :
    ∀ m : OccupancyGridmap, m.m_T_w_ = m0.m_T_w_ →
      m.bundle_resolution_ = m0.bundle_resolution_ →
      (∀ e ∈ es, ∀ g, api.getDistribution e.2 = some g → ∃ n : Nat, n < fuel ∧
        I.done (I.next^[n]
          (I.make start_p (m0.m_T_w_.apply (capi.getMean g)) m0.bundle_resolution_)) = true) →
      traverse_entries (insert_lambda api capi I fuel start_p) es m
        = some (run_steps m
            ((cast_rays api capi I fuel m0 start_p es).flatMap ray_t.steps)) := by
  induction es with
  | nil => intro m _ _ _; rfl
  | cons e es ih =>
    intro m hT hR hterm
    have hrest : ∀ e2 ∈ es, ∀ g, api.getDistribution e2.2 = some g → ∃ n : Nat, n < fuel ∧
        I.done (I.next^[n]
          (I.make start_p (m0.m_T_w_.apply (capi.getMean g)) m0.bundle_resolution_)) = true :=
      fun e2 h2 => hterm e2 (List.mem_cons_of_mem _ h2)
    cases hg : api.getDistribution e.2 with
    | none =>
      simp only [traverse_entries, insert_lambda_of_none _ _ _ _ _ _ _ _ hg, cast_rays, hg]
      exact ih m hT hR hrest
    | some g =>
      obtain ⟨n, hn, hdone⟩ := hterm e (List.mem_cons_self _ _) g hg
      obtain ⟨voxels, hv⟩ := traversed_of_done I n _ hdone fuel hn
      have hv2 : traversed I fuel
          (I.make start_p (m.m_T_w_.apply (capi.getMean g)) m.bundle_resolution_)
            = some voxels := by rw [hT, hR]; exact hv
      simp only [traverse_entries, insert_lambda_of_some _ _ _ _ _ _ _ _ g hg voxels hv2,
        cast_rays, hg, hv, Option.getD_some, List.flatMap_cons, run_steps_append]
      exact ih _ (by rw [run_steps_m_T_w, hT]) (by rw [run_steps_bundle_resolution, hR]) hrest

theorem insert_eq (api : accumulator_api) (capi : cloud_api) (I : line_iterator_t)
    (fuel : Nat) (m : OccupancyGridmap) (origin : transform_t) (points : List point_t)
    (hterm : ∀ e ∈ (fuse_cloud capi m origin points).entries, ∀ g,
      api.getDistribution e.2 = some g → ∃ n : Nat, n < fuel ∧
        I.done (I.next^[n] (I.make (m.m_T_w_.apply origin.t)
          (m.m_T_w_.apply (capi.getMean g)) m.bundle_resolution_)) = true) :
    insert api capi I fuel m origin points
      = some (run_steps m
          ((cast_rays api capi I fuel m (m.m_T_w_.apply origin.t)
            (fuse_cloud capi m origin points).entries).flatMap ray_t.steps)) :=
  traverse_entries_insert api capi I fuel m _ _ m rfl rfl hterm

/-! ## C11: `insert` casts one ray per populated bundle -/

theorem identity_apply (p : point_t) : transform_t.identity.apply p = p := by
  simp [transform_t.identity, transform_t.apply]

theorem unit_map_m_T_w_apply (p : point_t) : unit_map.m_T_w_.apply p = p := by
  simp [unit_map, OccupancyGridmap.new, transform_t.identity, transform_t.inverse,
    transform_t.apply]

theorem unit_map_bundle_resolution : unit_map.bundle_resolution_ = 1 / 2 := by
  norm_num [unit_map, OccupancyGridmap.new]

theorem foldl_fuse_point_filter (capi : cloud_api) (m : OccupancyGridmap)
    (origin : transform_t) (points : List point_t) :
    ∀ s : Storage distribution_t,
      points.foldl (fuse_point capi m origin) s
        = (points.filter (fun p => capi.isNormal (origin.apply p))).foldl
            (fuse_point capi m origin) s := by
  induction points with
  | nil => intro s; rfl
  | cons p ps ih =>
    intro s
    by_cases hn : capi.isNormal (origin.apply p) = true
    · simp only [List.foldl_cons, List.filter_cons, hn, if_true]
      exact ih _
    · have hf : capi.isNormal (origin.apply p) = false := by simpa using hn
      simp only [List.foldl_cons, List.filter_cons, hf, fuse_point_invalid capi m origin s p hf,
        Bool.false_eq_true, if_false]
      exact ih _

theorem fuse_cloud_filter (capi : cloud_api) (m : OccupancyGridmap) (origin : transform_t)
    (points : List point_t) :
    fuse_cloud capi m origin points
      = fuse_cloud capi m origin
          (points.filter (fun p => capi.isNormal (origin.apply p))) :=
  foldl_fuse_point_filter capi m origin points _

theorem fuse_cloud_all_invalid (capi : cloud_api) (m : OccupancyGridmap)
    (origin : transform_t) (points : List point_t)
    (h : ∀ p ∈ points, capi.isNormal (origin.apply p) = false) :
    fuse_cloud capi m origin points = Storage.empty := by
  rw [fuse_cloud_filter]
  have : points.filter (fun p => capi.isNormal (origin.apply p)) = [] := by
    rw [List.filter_eq_nil_iff]
    intro p hp
    simp [h p hp]
  rw [this]
  rfl

/-- C15: `insert` and `insertVolumetric` give the same result, the same map or
the same running out of fuel, on a cloud and on the cloud without the points
that fail the check `isNormal()`; the model has no other outcome, no error is
signalled. On a cloud in which every point fails the check both return with
the map exactly as it was, whatever the fuel. -/
theorem C15_invalid_points_skipped (api : accumulator_api) (capi : cloud_api)
    (I : line_iterator_t) (fuel : Nat) (m : OccupancyGridmap) (origin : transform_t)
    (points : List point_t) (ivm ivm_visibility : inverse_sensor_model_t) :
    insert api capi I fuel m origin points
      = insert api capi I fuel m origin
          (points.filter (fun p => capi.isNormal (origin.apply p))) ∧
    insertVolumetric api capi I fuel m origin points ivm ivm_visibility
      = insertVolumetric api capi I fuel m origin
          (points.filter (fun p => capi.isNormal (origin.apply p))) ivm ivm_visibility ∧
    ((∀ p ∈ points, capi.isNormal (origin.apply p) = false) →
      insert api capi I fuel m origin points = some m ∧
      insertVolumetric api capi I fuel m origin points ivm ivm_visibility = some m) := by
  refine ⟨?_, ?_, ?_⟩
  · simp only [insert]
    rw [← fuse_cloud_filter]
  · simp only [insertVolumetric]
    rw [← fuse_cloud_filter]
  · intro h
    simp only [insert, insertVolumetric, fuse_cloud_all_invalid capi m origin points h]
    exact ⟨rfl, rfl⟩

/-- C15, the worked example: the scan with one failing point gives the result
of the scan of its two other points, and a scan of failing points alone leaves
the map that holds the endpoint bundle as it was. -/
theorem C15_invalid_points_skipped_witness :
    example_scan.filter (fun p => example_cloud_api.isNormal (transform_t.identity.apply p))
      = [⟨11 / 10, 1 / 10, 1 / 10⟩, ⟨6 / 5, 1 / 10, 1 / 10⟩] ∧
    insert example_api example_cloud_api simple_iterator_t 3 unit_map transform_t.identity
        example_scan
      = insert example_api example_cloud_api simple_iterator_t 3 unit_map transform_t.identity
          [⟨11 / 10, 1 / 10, 1 / 10⟩, ⟨6 / 5, 1 / 10, 1 / 10⟩] ∧
    (∀ p ∈ [(⟨0, 1, 1⟩ : point_t), ⟨2, 0, 3⟩],
      example_cloud_api.isNormal (transform_t.identity.apply p) = false) ∧
    insert example_api example_cloud_api simple_iterator_t 0 endpoint_map transform_t.identity
        [⟨0, 1, 1⟩, ⟨2, 0, 3⟩] = some endpoint_map ∧
    insertVolumetric example_api example_cloud_api simple_iterator_t 0 endpoint_map
        transform_t.identity [⟨0, 1, 1⟩, ⟨2, 0, 3⟩] example_model example_model
      = some endpoint_map := by
  have hfilter : example_scan.filter
      (fun p => example_cloud_api.isNormal (transform_t.identity.apply p))
        = [⟨11 / 10, 1 / 10, 1 / 10⟩, ⟨6 / 5, 1 / 10, 1 / 10⟩] := by
    simp [example_scan, identity_apply, example_cloud_api, List.filter_cons]
  have hbad : ∀ p ∈ [(⟨0, 1, 1⟩ : point_t), ⟨2, 0, 3⟩],
      example_cloud_api.isNormal (transform_t.identity.apply p) = false := by
    intro p hp
    simp only [List.mem_cons, List.mem_singleton, List.not_mem_nil, or_false] at hp
    rcases hp with rfl | rfl <;> simp [identity_apply, example_cloud_api]
  have h1 := (C15_invalid_points_skipped example_api example_cloud_api simple_iterator_t 3
    unit_map transform_t.identity example_scan example_model example_model).1
  rw [hfilter] at h1
  have h2 := (C15_invalid_points_skipped example_api example_cloud_api simple_iterator_t 0
    endpoint_map transform_t.identity [⟨0, 1, 1⟩, ⟨2, 0, 3⟩] example_model example_model).2.2
    hbad
  exact ⟨hfilter, h1, hbad, h2.1, h2.2⟩

/-! ## The map only grows -/

theorem grows_refl (m : OccupancyGridmap) : grows m m := ⟨fun _ _ h => h, fun _ _ h => h⟩

theorem grows_trans {m1 m2 m3 : OccupancyGridmap} (h12 : grows m1 m2) (h23 : grows m2 m3) :
    grows m1 m3 :=
  ⟨fun bi b h => h23.1 bi b (h12.1 bi b h), fun k i h => h23.2 k i (h12.2 k i h)⟩

theorem Storage.modify_isSome {α : Type} (s : Storage α) (i j : index_t) (f : α → α) :
    ((s.modify i f).get j).isSome = (s.get j).isSome := by
  rw [Storage.get_modify]
  by_cases h : j = i
  · simp only [h, if_true]
    cases s.get i <;> rfl
  · simp only [h, if_false]

theorem call_through_isSome (m : OccupancyGridmap) (ptr : Option distribution_ref)
    (f : distribution_t → distribution_t) (k : Fin 8) (i : index_t) :
    (((call_through m ptr f).storage_ k).get i).isSome = ((m.storage_ k).get i).isSome := by
  cases ptr with
  | none => rfl
  | some r =>
    rw [call_through_storage_some]
    by_cases hk : k = r.lattice
    · subst hk
      rw [Function.update_same, Storage.modify_isSome]
    · rw [Function.update_noteq hk]

theorem update_corners_isSome (m : OccupancyGridmap) (b : distribution_bundle_t)
    (f : distribution_t → distribution_t) (k : Fin 8) (i : index_t) :
    (((update_corners m b f).storage_ k).get i).isSome = ((m.storage_ k).get i).isSome := by
  simp only [update_corners, call_through_isSome]

theorem grows_getAllocate (m : OccupancyGridmap) (bi : index_t) :
    grows m (getAllocate m bi).1 := by
  refine ⟨fun bj b h => ?_, fun k i h => ?_⟩
  · exact run_step_get_of_some m (step_t.allocate bi) bj b h
  · rw [getAllocate_storage_get_of_isSome m bi k i h]; exact h

theorem grows_update_corners (m : OccupancyGridmap) (b : distribution_bundle_t)
    (f : distribution_t → distribution_t) : grows m (update_corners m b f) := by
  refine ⟨fun bj c h => ?_, fun k i h => ?_⟩
  · rw [update_corners_bundle_storage]; exact h
  · rw [update_corners_isSome]; exact h

theorem grows_run_step (m : OccupancyGridmap) (s : step_t) : grows m (run_step m s) := by
  cases s with
  | allocate bi => exact grows_getAllocate m bi
  | update bi u => exact grows_trans (grows_getAllocate m bi) (grows_update_corners _ _ _)

theorem grows_updateFree (m : OccupancyGridmap) (bi : index_t) : grows m (updateFree m bi) :=
  grows_run_step m (step_t.update bi update_t.free)

theorem grows_updateFree_n (m : OccupancyGridmap) (bi : index_t) (n : Nat) :
    grows m (updateFree_n m bi n) :=
  grows_run_step m (step_t.update bi (update_t.free_n n))

theorem grows_updateOccupied (m : OccupancyGridmap) (bi : index_t) (p : point_t) :
    grows m (updateOccupied m bi p) :=
  grows_run_step m (step_t.update bi (update_t.occupied p))

theorem grows_updateOccupied_d (m : OccupancyGridmap) (bi : index_t) (g : gaussian_t) :
    grows m (updateOccupied_d m bi g) :=
  grows_run_step m (step_t.update bi (update_t.occupied_d g))

theorem grows_add_loop (I : line_iterator_t) (fuel : Nat) :
    ∀ (it : I.state) (m m2 : OccupancyGridmap), add_loop I fuel it m = some m2 → grows m m2 := by
  induction fuel with
  | zero => intro it m m2 h; simp [add_loop] at h
  | succ fuel ih =>
    intro it m m2 h
    by_cases hd : I.done it = true
    · simp only [add_loop, hd, if_true, Option.some.injEq] at h
      subst h; exact grows_refl m
    · simp only [add_loop, hd, if_false, Bool.false_eq_true] at h
      exact grows_trans (grows_updateFree m _) (ih _ _ _ h)

theorem grows_insert_loop (I : line_iterator_t) (n : Nat) (fuel : Nat) :
    ∀ (it : I.state) (m m2 : OccupancyGridmap),
      insert_loop I n fuel it m = some m2 → grows m m2 := by
  induction fuel with
  | zero => intro it m m2 h; simp [insert_loop] at h
  | succ fuel ih =>
    intro it m m2 h
    by_cases hd : I.done it = true
    · simp only [insert_loop, hd, if_true, Option.some.injEq] at h
      subst h; exact grows_refl m
    · simp only [insert_loop, hd, if_false, Bool.false_eq_true] at h
      exact grows_trans (grows_updateFree_n m _ n) (ih _ _ _ h)

theorem grows_traverse_entries {α : Type} (f : OccupancyGridmap → index_t → α → Option OccupancyGridmap)
    (hf : ∀ m bi a m2, f m bi a = some m2 → grows m m2) (es : List (index_t × α)) :
    ∀ m m2 : OccupancyGridmap, traverse_entries f es m = some m2 → grows m m2 := by
  induction es with
  | nil =>
    intro m m2 h
    simp only [traverse_entries, Option.some.injEq] at h
    subst h; exact grows_refl m
  | cons e es ih =>
    intro m m2 h
    simp only [traverse_entries] at h
    cases hfe : f m e.1 e.2 with
    | none => rw [hfe] at h; simp at h
    | some m1 =>
      rw [hfe] at h
      exact grows_trans (hf m e.1 e.2 m1 hfe) (ih m1 m2 h)

theorem grows_insert_lambda (api : accumulator_api) (capi : cloud_api) (I : line_iterator_t)
    (fuel : Nat) (start_p : point_t) (m : OccupancyGridmap) (bi : index_t) (d : distribution_t)
    (m2 : OccupancyGridmap) (h : insert_lambda api capi I fuel start_p m bi d = some m2) :
    grows m m2 := by
  unfold insert_lambda at h
  cases hg : api.getDistribution d with
  | none =>
    simp only [hg, Option.some.injEq] at h
    subst h; exact grows_refl m
  | some g =>
    simp only [hg] at h
    exact grows_trans (grows_updateOccupied_d m bi g) (grows_insert_loop I _ fuel _ _ _ h)

theorem grows_occupancy (api : accumulator_api) (ivm : inverse_sensor_model_t)
    (m : OccupancyGridmap) (bi : index_t) : grows m (occupancy api ivm m bi).2 :=
  grows_getAllocate m bi

theorem grows_current_visibility (api : accumulator_api)
    (ivm ivm_visibility : inverse_sensor_model_t) (start_bi : index_t) (m : OccupancyGridmap)
    (bi : index_t) : grows m (current_visibility api ivm ivm_visibility start_bi m bi).2 :=
  grows_trans (grows_occupancy api ivm m _)
    (grows_trans (grows_occupancy api ivm _ _) (grows_occupancy api ivm _ _))

theorem grows_insertVolumetric_loop (api : accumulator_api)
    (ivm ivm_visibility : inverse_sensor_model_t) (I : line_iterator_t) (start_bi : index_t)
    (n : Nat) (fuel : Nat) :
    ∀ (it : I.state) (v : ℚ) (m m2 : OccupancyGridmap) (r : Option ℚ),
      insertVolumetric_loop api ivm ivm_visibility I start_bi n fuel it v m = some (m2, r) →
      grows m m2 := by
  induction fuel with
  | zero => intro it v m m2 r h; simp [insertVolumetric_loop] at h
  | succ fuel ih =>
    intro it v m m2 r h
    by_cases hd : I.done it = true
    · simp only [insertVolumetric_loop, hd, if_true, Option.some.injEq, Prod.mk.injEq] at h
      rw [← h.1]; exact grows_refl m
    · simp only [insertVolumetric_loop, hd, if_false, Bool.false_eq_true] at h
      split at h
      · simp only [Option.some.injEq, Prod.mk.injEq] at h
        rw [← h.1]
        exact grows_current_visibility api ivm ivm_visibility start_bi m _
      · exact grows_trans (grows_current_visibility api ivm ivm_visibility start_bi m _)
          (grows_trans (grows_updateFree_n _ _ n) (ih _ _ _ _ _ h))

theorem grows_insertVolumetric_lambda (api : accumulator_api) (capi : cloud_api)
    (ivm ivm_visibility : inverse_sensor_model_t) (I : line_iterator_t) (fuel : Nat)
    (start_bi : index_t) (start_p : point_t) (m : OccupancyGridmap) (bi : index_t)
    (d : distribution_t) (m2 : OccupancyGridmap)
    (h : insertVolumetric_lambda api capi ivm ivm_visibility I fuel start_bi start_p m bi d
      = some m2) : grows m m2 := by
  unfold insertVolumetric_lambda at h
  cases hg : api.getDistribution d with
  | none =>
    simp only [hg, Option.some.injEq] at h
    subst h; exact grows_refl m
  | some g =>
    simp only [hg] at h
    cases hl : insertVolumetric_loop api ivm ivm_visibility I start_bi (capi.numOccupied d) fuel
        (I.make start_p (m.m_T_w_.apply (capi.getMean g)) m.bundle_resolution_) 1 m with
    | none => rw [hl] at h; simp at h
    | some res =>
      obtain ⟨m1, r⟩ := res
      have h1 := grows_insertVolumetric_loop api ivm ivm_visibility I start_bi _ fuel _ _ _ _ _ hl
      rw [hl] at h
      cases r with
      | none =>
        simp only [Option.some.injEq] at h
        subst h; exact h1
      | some v =>
        simp only at h
        split at h
        · simp only [Option.some.injEq] at h
          subst h
          exact grows_trans h1 (grows_trans
            (grows_current_visibility api ivm ivm_visibility start_bi m1 bi)
            (grows_updateOccupied_d _ bi g))
        · simp only [Option.some.injEq] at h
          subst h
          exact grows_trans h1 (grows_current_visibility api ivm ivm_visibility start_bi m1 bi)

/-! ## The loop of `insertVolumetric` -/

theorem occupancy_snd (api : accumulator_api) (ivm : inverse_sensor_model_t)
    (m : OccupancyGridmap) (bi : index_t) :
    (occupancy api ivm m bi).2 = (getAllocate m bi).1 := rfl

theorem current_visibility_snd (api : accumulator_api)
    (ivm ivm_visibility : inverse_sensor_model_t) (start_bi : index_t) (m : OccupancyGridmap)
    (bi : index_t) :
    (current_visibility api ivm ivm_visibility start_bi m bi).2
      = run_steps m ((neighbours start_bi bi).map step_t.allocate) := rfl

theorem updates_sent_allocate (l : List index_t) (k : Fin 8) (i : index_t) :
    updates_sent (l.map step_t.allocate) k i = [] := by
  induction l with
  | nil => rfl
  | cons b l ih => rw [List.map_cons, updates_sent_cons_allocate, ih]

theorem visible_count_cons_of_lt (ivm_visibility : inverse_sensor_model_t) (v : ℚ)
    (vs : List ℚ) (h : v < ivm_visibility.prob_prior) :
    visible_count ivm_visibility (v :: vs) = 0 := by
  have : ¬ ivm_visibility.prob_prior ≤ v := not_le.2 h
  simp [visible_count, List.takeWhile_cons, this]

theorem visible_count_cons_of_le (ivm_visibility : inverse_sensor_model_t) (v : ℚ)
    (vs : List ℚ) (h : ¬ v < ivm_visibility.prob_prior) :
    visible_count ivm_visibility (v :: vs) = visible_count ivm_visibility vs + 1 := by
  have : ivm_visibility.prob_prior ≤ v := not_lt.1 h
  simp [visible_count, List.takeWhile_cons, this]

theorem visible_count_le_length (ivm_visibility : inverse_sensor_model_t) (vs : List ℚ) :
    visible_count ivm_visibility vs ≤ vs.length := by
  unfold visible_count
  exact (List.takeWhile_sublist _).length_le

theorem visibility_walk_length (api : accumulator_api)
    (ivm ivm_visibility : inverse_sensor_model_t) (start_bi : index_t) (n : Nat)
    (ray : List index_t) :
    ∀ (v : ℚ) (m : OccupancyGridmap),
      (visibility_walk api ivm ivm_visibility start_bi n v m ray).1.length = ray.length := by
  induction ray with
  | nil => intro v m; rfl
  | cons r rs ih => intro v m; simp only [visibility_walk, List.length_cons, ih]

theorem getLast_getD_cons (x d : ℚ) (l : List ℚ) :
    ((x :: l).getLast?).getD d = (l.getLast?).getD x := by
  cases l with
  | nil => simp
  | cons a l =>
    rw [List.getLast?_cons_cons, List.getLast?_eq_getLast _ (List.cons_ne_nil a l)]
    rfl

theorem insertVolumetric_loop_spec (api : accumulator_api)
    (ivm ivm_visibility : inverse_sensor_model_t) (I : line_iterator_t) (start_bi : index_t)
    (n : Nat) (fuel : Nat) :
    ∀ (it : I.state) (v : ℚ) (m : OccupancyGridmap) (ray : List index_t),
      traversed I fuel it = some ray →
      ∃ (steps : List step_t) (r : Option ℚ),
        insertVolumetric_loop api ivm ivm_visibility I start_bi n fuel it v m
          = some (run_steps m steps, r) ∧
        (∀ (k : Fin 8) (i : index_t),
          updates_sent steps k i
            = List.replicate
                ((ray.take (visible_count ivm_visibility
                    (visibility_walk api ivm ivm_visibility start_bi n v m ray).1)).countP
                  (fun b => decide (i = storage_index b k)))
                (update_t.free_n n)) ∧
        (r = none ↔ visible_count ivm_visibility
            (visibility_walk api ivm ivm_visibility start_bi n v m ray).1 < ray.length) ∧
        (∀ v2, r = some v2 →
          v2 = ((visibility_walk api ivm ivm_visibility start_bi n v m ray).1.getLast?).getD v ∧
          run_steps m steps = (visibility_walk api ivm ivm_visibility start_bi n v m ray).2) ∧
        (∀ s ∈ steps,
          s.index ∈ ray.take (visible_count ivm_visibility
              (visibility_walk api ivm ivm_visibility start_bi n v m ray).1) ∨
          ∃ b ∈ ray.take (visible_count ivm_visibility
              (visibility_walk api ivm ivm_visibility start_bi n v m ray).1 + 1),
            s.index ∈ neighbours start_bi b) ∧
        (∀ b : index_t,
          (b ∈ ray.take (visible_count ivm_visibility
              (visibility_walk api ivm ivm_visibility start_bi n v m ray).1) ∨
           ∃ r0 ∈ ray.take (visible_count ivm_visibility
              (visibility_walk api ivm ivm_visibility start_bi n v m ray).1 + 1),
             b ∈ neighbours start_bi r0) →
          ∃ s ∈ steps, s.index = b) := by
  induction fuel with
  | zero => intro it v m ray h; simp [traversed] at h
  | succ fuel ih =>
    intro it v m ray h
    by_cases hd : I.done it = true
    · simp only [traversed, hd, if_true, Option.some.injEq] at h
      subst h
      refine ⟨[], some v, ?_, ?_, ?_, ?_, ?_, ?_⟩
      · simp [insertVolumetric_loop, hd, run_steps_nil]
      · intro k i; simp [updates_sent_nil]
      · simp [visibility_walk, visible_count]
      · intro v2 hv2
        simp only [Option.some.injEq] at hv2
        subst hv2
        exact ⟨by simp [visibility_walk], rfl⟩
      · intro s hs; simp at hs
      · intro b hb
        simp at hb
    · simp only [traversed, hd, if_false, Bool.false_eq_true, Option.map_eq_some'] at h
      obtain ⟨rest, hrest, rfl⟩ := h
      by_cases hlt : v * (current_visibility api ivm ivm_visibility start_bi m
          ⟨I.x it, I.y it, I.z it⟩).1 < ivm_visibility.prob_prior
      · have hc : visible_count ivm_visibility
            (visibility_walk api ivm ivm_visibility start_bi n v m
              (⟨I.x it, I.y it, I.z it⟩ :: rest)).1 = 0 := by
          simp only [visibility_walk]
          exact visible_count_cons_of_lt _ _ _ hlt
        refine ⟨(neighbours start_bi ⟨I.x it, I.y it, I.z it⟩).map step_t.allocate, none,
          ?_, ?_, ?_, ?_, ?_, ?_⟩
        · simp only [insertVolumetric_loop, hd, if_false, Bool.false_eq_true, hlt, if_true,
            current_visibility_snd]
        · intro k i
          rw [hc, updates_sent_allocate]
          simp
        · rw [hc]; simp
        · intro v2 hv2; simp at hv2
        · intro s hs
          rw [List.mem_map] at hs
          obtain ⟨b, hb, rfl⟩ := hs
          right
          rw [hc]
          exact ⟨_, by simp, hb⟩
        · intro b hb
          rw [hc] at hb
          rcases hb with hb | ⟨r0, hr0, hb⟩
          · simp at hb
          · simp only [zero_add, List.take_succ_cons, List.take_zero, List.mem_singleton] at hr0
            subst hr0
            exact ⟨step_t.allocate b, List.mem_map.2 ⟨b, hb, rfl⟩, rfl⟩
      · have hc : visible_count ivm_visibility
            (visibility_walk api ivm ivm_visibility start_bi n v m
              (⟨I.x it, I.y it, I.z it⟩ :: rest)).1
              = visible_count ivm_visibility
                  (visibility_walk api ivm ivm_visibility start_bi n
                    (v * (current_visibility api ivm ivm_visibility start_bi m
                      ⟨I.x it, I.y it, I.z it⟩).1)
                    (updateFree_n (current_visibility api ivm ivm_visibility start_bi m
                      ⟨I.x it, I.y it, I.z it⟩).2 ⟨I.x it, I.y it, I.z it⟩ n) rest).1 + 1 := by
          simp only [visibility_walk]
          exact visible_count_cons_of_le _ _ _ hlt
        obtain ⟨steps, r, h1, h2, h3, h4, h5, h8⟩ := ih (I.next it)
          (v * (current_visibility api ivm ivm_visibility start_bi m
            ⟨I.x it, I.y it, I.z it⟩).1)
          (updateFree_n (current_visibility api ivm ivm_visibility start_bi m
            ⟨I.x it, I.y it, I.z it⟩).2 ⟨I.x it, I.y it, I.z it⟩ n) rest hrest
        have hstate : updateFree_n (current_visibility api ivm ivm_visibility start_bi m
            ⟨I.x it, I.y it, I.z it⟩).2 ⟨I.x it, I.y it, I.z it⟩ n
            = run_steps m ((neighbours start_bi ⟨I.x it, I.y it, I.z it⟩).map step_t.allocate
                ++ [step_t.update ⟨I.x it, I.y it, I.z it⟩ (update_t.free_n n)]) := by
          rw [run_steps_append, current_visibility_snd, updateFree_n_eq_run_step]
          rfl
        refine ⟨((neighbours start_bi ⟨I.x it, I.y it, I.z it⟩).map step_t.allocate
            ++ [step_t.update ⟨I.x it, I.y it, I.z it⟩ (update_t.free_n n)]) ++ steps, r,
          ?_, ?_, ?_, ?_, ?_, ?_⟩
        · simp only [insertVolumetric_loop, hd, if_false, Bool.false_eq_true, hlt]
          rw [h1, run_steps_append, ← hstate]
        · intro k i
          rw [hc, updates_sent_append, updates_sent_append, updates_sent_allocate, h2,
            updates_sent_cons_update, updates_sent_nil, List.take_succ_cons, List.countP_cons]
          by_cases hi : i = storage_index ⟨I.x it, I.y it, I.z it⟩ k
          · simp only [hi, if_true, decide_True, List.nil_append, List.append_nil,
              List.singleton_append]
            rfl
          · simp [hi]
        · rw [hc, h3, List.length_cons]
          omega
        · intro v2 hv2
          obtain ⟨h6, h7⟩ := h4 v2 hv2
          refine ⟨?_, ?_⟩
          · rw [h6]
            simp only [visibility_walk]
            exact (getLast_getD_cons _ _ _).symm
          · rw [run_steps_append, ← hstate, h7]
            simp only [visibility_walk]
        · intro s hs
          rw [hc]
          rcases List.mem_append.1 hs with hs | hs
          · rcases List.mem_append.1 hs with hs | hs
            · rw [List.mem_map] at hs
              obtain ⟨b, hb, rfl⟩ := hs
              right
              exact ⟨_, by simp, hb⟩
            · rw [List.mem_singleton] at hs
              subst hs
              left
              simp [step_t.index]
          · rcases h5 s hs with h | ⟨b, hb, hn⟩
            · left
              rw [List.take_succ_cons]
              exact List.mem_cons_of_mem _ h
            · right
              refine ⟨b, ?_, hn⟩
              rw [List.take_succ_cons]
              exact List.mem_cons_of_mem _ hb
        · intro b hb
          rw [hc] at hb
          rcases hb with hb | ⟨r0, hr0, hb⟩
          · rw [List.take_succ_cons, List.mem_cons] at hb
            rcases hb with rfl | hb
            · exact ⟨step_t.update ⟨I.x it, I.y it, I.z it⟩ (update_t.free_n n), by simp, rfl⟩
            · obtain ⟨s, hs, hsb⟩ := h8 b (Or.inl hb)
              exact ⟨s, List.mem_append_right _ hs, hsb⟩
          · rw [List.take_succ_cons, List.mem_cons] at hr0
            rcases hr0 with rfl | hr0
            · exact ⟨step_t.allocate b,
                List.mem_append_left _ (List.mem_append_left _ (List.mem_map.2 ⟨b, hb, rfl⟩)),
                rfl⟩
            · obtain ⟨s, hs, hsb⟩ := h8 b (Or.inr ⟨r0, hr0, hb⟩)
              exact ⟨s, List.mem_append_right _ hs, hsb⟩

/-! ## C12: the early exit of `insertVolumetric` -/

theorem visible_count_spec (ivm_visibility : inverse_sensor_model_t) (vs : List ℚ) :
    (∀ v ∈ vs.take (visible_count ivm_visibility vs), ivm_visibility.prob_prior ≤ v) ∧
    (∀ v, vs.get? (visible_count ivm_visibility vs) = some v →
      v < ivm_visibility.prob_prior) := by
  induction vs with
  | nil => simp [visible_count]
  | cons a l ih =>
    by_cases h : a < ivm_visibility.prob_prior
    · rw [visible_count_cons_of_lt _ _ _ h]
      simp [h]
    · rw [visible_count_cons_of_le _ _ _ h]
      refine ⟨?_, ?_⟩
      · intro v hv
        rw [List.take_succ_cons, List.mem_cons] at hv
        rcases hv with rfl | hv
        · exact not_lt.1 h
        · exact ih.1 v hv
      · intro v hv
        rw [List.get?_cons_succ] at hv
        exact ih.2 v hv

/-- C12: the lambda of `insertVolumetric` for one scratch entry `(bi, d)` that
holds the distribution `g`, on a reachable map, for an iterator that is done
after `nsteps` increments and `fuel > nsteps`. The call returns. The visibility
starts at 1 and is multiplied by the factor of each traversed bundle before
that bundle is marked; `marked_count` is the number of leading bundles whose
accumulated visibility is not below the prior probability, and the next one, if
any, is below it. Exactly these leading bundles receive a free update of weight
`n`: from the first bundle below the prior on no bundle of the ray receives
one, and then the endpoint receives no occupied update. When the ray completes
the endpoint bundle receives the fused occupied update exactly when the
accumulated visibility times the factor of the endpoint bundle is at least the
prior probability. -/
theorem C12_volumetric_early_exit (api : accumulator_api) (capi : cloud_api)
    (ivm ivm_visibility : inverse_sensor_model_t) (I : line_iterator_t) (fuel : Nat)
    (start_bi : index_t) (start_p : point_t) (m : OccupancyGridmap) (bi : index_t)
    (d : distribution_t) (g : gaussian_t) (hm : Reachable m)
    (hg : api.getDistribution d = some g) (nsteps : Nat)
    (hdone : I.done (I.next^[nsteps]
      (I.make start_p (m.m_T_w_.apply (capi.getMean g)) m.bundle_resolution_)) = true)
    (hfuel : nsteps < fuel) :
    ∃ (ray : List index_t) (m2 : OccupancyGridmap),
      traversed I fuel (I.make start_p (m.m_T_w_.apply (capi.getMean g)) m.bundle_resolution_)
        = some ray ∧
      insertVolumetric_lambda api capi ivm ivm_visibility I fuel start_bi start_p m bi d
        = some m2 ∧
      marked_count api ivm ivm_visibility start_bi (capi.numOccupied d) m ray ≤ ray.length ∧
      (∀ v ∈ (visibility_walk api ivm ivm_visibility start_bi (capi.numOccupied d) 1 m ray).1.take
          (marked_count api ivm ivm_visibility start_bi (capi.numOccupied d) m ray),
        ivm_visibility.prob_prior ≤ v) ∧
      (∀ v, (visibility_walk api ivm ivm_visibility start_bi (capi.numOccupied d) 1 m ray).1.get?
          (marked_count api ivm ivm_visibility start_bi (capi.numOccupied d) m ray) = some v →
        v < ivm_visibility.prob_prior) ∧
      (∀ (k : Fin 8) (i : index_t),
        observed m2 k i
          = observed m k i
            ++ List.replicate
                ((ray.take (marked_count api ivm ivm_visibility start_bi (capi.numOccupied d)
                    m ray)).countP (fun b => decide (i = storage_index b k)))
                (update_t.free_n (capi.numOccupied d))
            ++ (if marked_count api ivm ivm_visibility start_bi (capi.numOccupied d) m ray
                    = ray.length ∧
                  ivm_visibility.prob_prior
                    ≤ endpoint_visibility api ivm ivm_visibility start_bi (capi.numOccupied d)
                        m ray bi ∧
                  i = storage_index bi k
                then [update_t.occupied_d g] else [])) := by
  obtain ⟨ray, hray⟩ := traversed_of_done I nsteps _ hdone fuel hfuel
  obtain ⟨steps, r, h1, h2, h3, h4, _⟩ :=
    insertVolumetric_loop_spec api ivm ivm_visibility I start_bi (capi.numOccupied d) fuel _ 1 m
      ray hray
  have hle : marked_count api ivm ivm_visibility start_bi (capi.numOccupied d) m ray
      ≤ ray.length := by
    have := visible_count_le_length ivm_visibility
      (visibility_walk api ivm ivm_visibility start_bi (capi.numOccupied d) 1 m ray).1
    rwa [visibility_walk_length] at this
  have hspec := visible_count_spec ivm_visibility
    (visibility_walk api ivm ivm_visibility start_bi (capi.numOccupied d) 1 m ray).1
  cases r with
  | none =>
    have hs : marked_count api ivm ivm_visibility start_bi (capi.numOccupied d) m ray
        < ray.length := h3.1 rfl
    refine ⟨ray, run_steps m steps, hray, ?_, hle, hspec.1, hspec.2, ?_⟩
    · simp only [insertVolumetric_lambda, hg, h1]
    · intro k i
      rw [observed_run_steps steps k i hm, h2 k i]
      have hne : ¬ marked_count api ivm ivm_visibility start_bi (capi.numOccupied d) m ray
          = ray.length := by omega
      simp only [hne, false_and, if_false, List.append_nil]
      rfl
  | some v2 =>
    obtain ⟨h5, h6⟩ := h4 v2 rfl
    have hs : marked_count api ivm ivm_visibility start_bi (capi.numOccupied d) m ray
        = ray.length := by
      have h7 : ¬ marked_count api ivm ivm_visibility start_bi (capi.numOccupied d) m ray
          < ray.length := fun hlt => by
        have := h3.2 hlt
        simp at this
      omega
    have hend : endpoint_visibility api ivm ivm_visibility start_bi (capi.numOccupied d) m ray
        bi = v2 * (current_visibility api ivm ivm_visibility start_bi (run_steps m steps) bi).1 := by
      rw [endpoint_visibility, ← h5, ← h6]
    by_cases hp : ivm_visibility.prob_prior
        ≤ v2 * (current_visibility api ivm ivm_visibility start_bi (run_steps m steps) bi).1
    · refine ⟨ray, run_steps m (steps ++ ((neighbours start_bi bi).map step_t.allocate
          ++ [step_t.update bi (update_t.occupied_d g)])), hray, ?_, hle, hspec.1, hspec.2, ?_⟩
      · simp only [insertVolumetric_lambda, hg, h1, ge_iff_le, hp, if_true,
          current_visibility_snd, updateOccupied_d_eq_run_step, run_steps_append]
        rfl
      · intro k i
        rw [observed_run_steps _ k i hm, updates_sent_append, updates_sent_append, h2 k i,
          updates_sent_allocate, updates_sent_cons_update, updates_sent_nil, hend]
        by_cases hi : i = storage_index bi k
        · rw [if_pos hi, if_pos ⟨hs, hp, hi⟩]
          simp only [List.nil_append, List.append_assoc]
          rfl
        · rw [if_neg hi, if_neg (fun h => hi h.2.2)]
          simp only [List.nil_append, List.append_nil]
          rfl
    · refine ⟨ray, run_steps m (steps ++ (neighbours start_bi bi).map step_t.allocate), hray,
        ?_, hle, hspec.1, hspec.2, ?_⟩
      · simp only [insertVolumetric_lambda, hg, h1, ge_iff_le, hp, if_false,
          current_visibility_snd, run_steps_append]
      · intro k i
        rw [observed_run_steps _ k i hm, updates_sent_append, h2 k i, updates_sent_allocate,
          hend]
        simp only [hp, false_and, and_false, if_false, List.append_nil]
        rfl

/-! ## C14: the visibility stays in the unit interval -/

theorem occupancy_term_unit (api : accumulator_api) (ivm : inverse_sensor_model_t)
    (hocc : ∀ a, 0 ≤ api.getOccupancy a ivm ∧ api.getOccupancy a ivm ≤ 1)
    (m : OccupancyGridmap) (ptr : Option distribution_ref) :
    0 ≤ occupancy_term api ivm m ptr ∧ occupancy_term api ivm m ptr ≤ 1 := by
  unfold occupancy_term
  cases ptr with
  | none => simp
  | some r =>
    cases hd : deref m r with
    | none => simp [hd]
    | some a => simpa [hd] using hocc a

theorem occupancy_unit (api : accumulator_api) (ivm : inverse_sensor_model_t)
    (hocc : ∀ a, 0 ≤ api.getOccupancy a ivm ∧ api.getOccupancy a ivm ≤ 1)
    (m : OccupancyGridmap) (bi : index_t) :
    0 ≤ (occupancy api ivm m bi).1 ∧ (occupancy api ivm m bi).1 ≤ 1 := by
  simp only [occupancy]
  have h := occupancy_term_unit api ivm hocc (getDistributionBundle m bi).1
  have h0 := h ((getDistributionBundle m bi).2 0)
  have h1 := h ((getDistributionBundle m bi).2 1)
  have h2 := h ((getDistributionBundle m bi).2 2)
  have h3 := h ((getDistributionBundle m bi).2 3)
  have h4 := h ((getDistributionBundle m bi).2 4)
  have h5 := h ((getDistributionBundle m bi).2 5)
  have h6 := h ((getDistributionBundle m bi).2 6)
  have h7 := h ((getDistributionBundle m bi).2 7)
  constructor
  · norm_num
    linarith [h0.1, h1.1, h2.1, h3.1, h4.1, h5.1, h6.1, h7.1]
  · norm_num
    linarith [h0.2, h1.2, h2.2, h3.2, h4.2, h5.2, h6.2, h7.2]

theorem blend_bounds (pf po o : ℚ) (ho0 : 0 ≤ o) (ho1 : o ≤ 1) :
    min pf po ≤ pf * o + po * (1 - o) ∧ pf * o + po * (1 - o) ≤ max pf po := by
  have h1 : 0 ≤ 1 - o := by linarith
  constructor
  · calc min pf po = min pf po * o + min pf po * (1 - o) := by ring
      _ ≤ pf * o + po * (1 - o) :=
        add_le_add (mul_le_mul_of_nonneg_right (min_le_left _ _) ho0)
          (mul_le_mul_of_nonneg_right (min_le_right _ _) h1)
  · calc pf * o + po * (1 - o)
        ≤ max pf po * o + max pf po * (1 - o) :=
          add_le_add (mul_le_mul_of_nonneg_right (le_max_left _ _) ho0)
            (mul_le_mul_of_nonneg_right (le_max_right _ _) h1)
      _ = max pf po := by ring

theorem occlusion_unit (api : accumulator_api) (ivm : inverse_sensor_model_t)
    (hocc : ∀ a, 0 ≤ api.getOccupancy a ivm ∧ api.getOccupancy a ivm ≤ 1)
    (m1 m2 m3 : OccupancyGridmap) (b1 b2 b3 : index_t) :
    0 ≤ min (occupancy api ivm m1 b1).1
        (min (occupancy api ivm m2 b2).1 (occupancy api ivm m3 b3).1) ∧
    min (occupancy api ivm m1 b1).1
        (min (occupancy api ivm m2 b2).1 (occupancy api ivm m3 b3).1) ≤ 1 :=
  ⟨le_min (occupancy_unit api ivm hocc m1 b1).1
      (le_min (occupancy_unit api ivm hocc m2 b2).1 (occupancy_unit api ivm hocc m3 b3).1),
    le_trans (min_le_left _ _) (occupancy_unit api ivm hocc m1 b1).2⟩

theorem current_visibility_bounds (api : accumulator_api)
    (ivm ivm_visibility : inverse_sensor_model_t)
    (hocc : ∀ a, 0 ≤ api.getOccupancy a ivm ∧ api.getOccupancy a ivm ≤ 1)
    (start_bi : index_t) (m : OccupancyGridmap) (bi : index_t) :
    min ivm_visibility.prob_free ivm_visibility.prob_occupied
      ≤ (current_visibility api ivm ivm_visibility start_bi m bi).1 ∧
    (current_visibility api ivm ivm_visibility start_bi m bi).1
      ≤ max ivm_visibility.prob_free ivm_visibility.prob_occupied := by
  simp only [current_visibility]
  exact blend_bounds _ _ _ (occlusion_unit api ivm hocc _ _ _ _ _ _).1
    (occlusion_unit api ivm hocc _ _ _ _ _ _).2

theorem current_visibility_unit (api : accumulator_api)
    (ivm ivm_visibility : inverse_sensor_model_t)
    (hocc : ∀ a, 0 ≤ api.getOccupancy a ivm ∧ api.getOccupancy a ivm ≤ 1)
    (hfree : 0 ≤ ivm_visibility.prob_free ∧ ivm_visibility.prob_free ≤ 1)
    (hoccupied : 0 ≤ ivm_visibility.prob_occupied ∧ ivm_visibility.prob_occupied ≤ 1)
    (start_bi : index_t) (m : OccupancyGridmap) (bi : index_t) :
    0 ≤ (current_visibility api ivm ivm_visibility start_bi m bi).1 ∧
    (current_visibility api ivm ivm_visibility start_bi m bi).1 ≤ 1 := by
  have h := current_visibility_bounds api ivm ivm_visibility hocc start_bi m bi
  exact ⟨le_trans (le_min hfree.1 hoccupied.1) h.1, le_trans h.2 (max_le hfree.2 hoccupied.2)⟩

theorem visibility_walk_chain (api : accumulator_api)
    (ivm ivm_visibility : inverse_sensor_model_t)
    (hocc : ∀ a, 0 ≤ api.getOccupancy a ivm ∧ api.getOccupancy a ivm ≤ 1)
    (hfree : 0 ≤ ivm_visibility.prob_free ∧ ivm_visibility.prob_free ≤ 1)
    (hoccupied : 0 ≤ ivm_visibility.prob_occupied ∧ ivm_visibility.prob_occupied ≤ 1)
    (start_bi : index_t) (n : Nat) (ray : List index_t) :
    ∀ (v : ℚ) (m : OccupancyGridmap), 0 ≤ v →
      List.Chain (fun a b => 0 ≤ b ∧ b ≤ a) v
        (visibility_walk api ivm ivm_visibility start_bi n v m ray).1 := by
  induction ray with
  | nil => intro v m _; exact List.Chain.nil
  | cons r rs ih =>
    intro v m hv
    have hf := current_visibility_unit api ivm ivm_visibility hocc hfree hoccupied start_bi m r
    have h0 : 0 ≤ v * (current_visibility api ivm ivm_visibility start_bi m r).1 :=
      mul_nonneg hv hf.1
    have h1 : v * (current_visibility api ivm ivm_visibility start_bi m r).1 ≤ v := by
      calc v * (current_visibility api ivm ivm_visibility start_bi m r).1
          ≤ v * 1 := mul_le_mul_of_nonneg_left hf.2 hv
        _ = v := mul_one v
    simp only [visibility_walk]
    exact List.Chain.cons ⟨h0, h1⟩ (ih _ _ h0)

theorem chain_bounds (l : List ℚ) :
    ∀ v : ℚ, List.Chain (fun a b => 0 ≤ b ∧ b ≤ a) v l → ∀ x ∈ l, 0 ≤ x ∧ x ≤ v := by
  induction l with
  | nil => intro v _ x hx; simp at hx
  | cons a l ih =>
    intro v h x hx
    rw [List.chain_cons] at h
    rcases List.mem_cons.1 hx with rfl | hx
    · exact h.1
    · have := ih a h.2 x hx
      exact ⟨this.1, le_trans this.2 h.1.2⟩

theorem insertVolumetric_loop_visibility (api : accumulator_api)
    (ivm ivm_visibility : inverse_sensor_model_t)
    (hocc : ∀ a, 0 ≤ api.getOccupancy a ivm ∧ api.getOccupancy a ivm ≤ 1)
    (hfree : 0 ≤ ivm_visibility.prob_free ∧ ivm_visibility.prob_free ≤ 1)
    (hoccupied : 0 ≤ ivm_visibility.prob_occupied ∧ ivm_visibility.prob_occupied ≤ 1)
    (I : line_iterator_t) (start_bi : index_t) (n : Nat) (fuel : Nat) :
    ∀ (it : I.state) (v : ℚ) (m m2 : OccupancyGridmap) (v2 : ℚ), 0 ≤ v →
      insertVolumetric_loop api ivm ivm_visibility I start_bi n fuel it v m = some (m2, some v2) →
      0 ≤ v2 ∧ v2 ≤ v := by
  induction fuel with
  | zero => intro it v m m2 v2 _ h; simp [insertVolumetric_loop] at h
  | succ fuel ih =>
    intro it v m m2 v2 hv h
    by_cases hd : I.done it = true
    · simp only [insertVolumetric_loop, hd, if_true, Option.some.injEq, Prod.mk.injEq] at h
      rw [← h.2]
      exact ⟨hv, le_refl v⟩
    · simp only [insertVolumetric_loop, hd, if_false, Bool.false_eq_true] at h
      split at h
      · simp at h
      · have hf := current_visibility_unit api ivm ivm_visibility hocc hfree hoccupied start_bi m
          ⟨I.x it, I.y it, I.z it⟩
        have h0 : 0 ≤ v * (current_visibility api ivm ivm_visibility start_bi m
            ⟨I.x it, I.y it, I.z it⟩).1 := mul_nonneg hv hf.1
        have h1 : v * (current_visibility api ivm ivm_visibility start_bi m
            ⟨I.x it, I.y it, I.z it⟩).1 ≤ v := by
          calc v * (current_visibility api ivm ivm_visibility start_bi m
                ⟨I.x it, I.y it, I.z it⟩).1
              ≤ v * 1 := mul_le_mul_of_nonneg_left hf.2 hv
            _ = v := mul_one v
        have := ih _ _ _ _ _ h0 h
        exact ⟨this.1, le_trans this.2 h1⟩

/-- C14: let every accumulator occupancy under the sensor model and the free
and occupied probabilities of the visibility model lie in [0, 1]. Then the
factor `current_visibility` returns lies in [0, 1] for every map and bundle;
along every ray the accumulated visibilities, starting from 1, lie in [0, 1]
and each is at most the one before it; the visibility with which the loop of
`insertVolumetric` ends lies in [0, 1]; and the visibility at the endpoint is
at least 0 and at most the visibility accumulated over the ray. Values are
exact rationals. -/
theorem C14_visibility_in_unit_interval (api : accumulator_api)
    (ivm ivm_visibility : inverse_sensor_model_t)
    (hocc : ∀ a, 0 ≤ api.getOccupancy a ivm ∧ api.getOccupancy a ivm ≤ 1)
    (hfree : 0 ≤ ivm_visibility.prob_free ∧ ivm_visibility.prob_free ≤ 1)
    (hoccupied : 0 ≤ ivm_visibility.prob_occupied ∧ ivm_visibility.prob_occupied ≤ 1)
    (start_bi : index_t) (n : Nat) (m : OccupancyGridmap) (ray : List index_t) (bi : index_t) :
    (∀ (m2 : OccupancyGridmap) (b : index_t),
      0 ≤ (current_visibility api ivm ivm_visibility start_bi m2 b).1 ∧
      (current_visibility api ivm ivm_visibility start_bi m2 b).1 ≤ 1) ∧
    (∀ v ∈ (visibility_walk api ivm ivm_visibility start_bi n 1 m ray).1, 0 ≤ v ∧ v ≤ 1) ∧
    List.Chain (fun a b => b ≤ a) 1
      (visibility_walk api ivm ivm_visibility start_bi n 1 m ray).1 ∧
    (∀ (I : line_iterator_t) (fuel : Nat) (it : I.state) (m2 : OccupancyGridmap) (v2 : ℚ),
      insertVolumetric_loop api ivm ivm_visibility I start_bi n fuel it 1 m = some (m2, some v2) →
      0 ≤ v2 ∧ v2 ≤ 1) ∧
    (0 ≤ endpoint_visibility api ivm ivm_visibility start_bi n m ray bi ∧
     endpoint_visibility api ivm ivm_visibility start_bi n m ray bi
       ≤ ((visibility_walk api ivm ivm_visibility start_bi n 1 m ray).1.getLast?).getD 1 ∧
     endpoint_visibility api ivm ivm_visibility start_bi n m ray bi ≤ 1) := by
  have hchain := visibility_walk_chain api ivm ivm_visibility hocc hfree hoccupied start_bi n ray
    1 m (by norm_num)
  have hall := chain_bounds _ 1 hchain
  have hlast : 0 ≤ ((visibility_walk api ivm ivm_visibility start_bi n 1 m ray).1.getLast?).getD 1
      ∧ ((visibility_walk api ivm ivm_visibility start_bi n 1 m ray).1.getLast?).getD 1 ≤ 1 := by
    cases hl : (visibility_walk api ivm ivm_visibility start_bi n 1 m ray).1.getLast? with
    | none => simp
    | some x =>
      simp only [Option.getD_some]
      exact hall x (List.mem_of_getLast?_eq_some hl)
  have hf := current_visibility_unit api ivm ivm_visibility hocc hfree hoccupied start_bi
    (visibility_walk api ivm ivm_visibility start_bi n 1 m ray).2 bi
  have hend : endpoint_visibility api ivm ivm_visibility start_bi n m ray bi
      ≤ ((visibility_walk api ivm ivm_visibility start_bi n 1 m ray).1.getLast?).getD 1 := by
    unfold endpoint_visibility
    calc _ ≤ ((visibility_walk api ivm ivm_visibility start_bi n 1 m ray).1.getLast?).getD 1 * 1 :=
          mul_le_mul_of_nonneg_left hf.2 hlast.1
      _ = _ := mul_one _
  refine ⟨fun m2 b => current_visibility_unit api ivm ivm_visibility hocc hfree hoccupied
      start_bi m2 b, hall, hchain.imp (fun _ _ h => h.2), ?_, ?_, hend, le_trans hend hlast.2⟩
  · intro I fuel it m2 v2 h
    exact insertVolumetric_loop_visibility api ivm ivm_visibility hocc hfree hoccupied I start_bi
      n fuel it 1 m m2 v2 (by norm_num) h
  · unfold endpoint_visibility
    exact mul_nonneg hlast.1 hf.1

theorem C14_visibility_in_unit_interval_witness :
    (∀ a, 0 ≤ example_api.getOccupancy a example_model ∧
      example_api.getOccupancy a example_model ≤ 1) ∧
    (0 ≤ example_model.prob_free ∧ example_model.prob_free ≤ 1) ∧
    (0 ≤ example_model.prob_occupied ∧ example_model.prob_occupied ≤ 1) ∧
    ((∀ (m2 : OccupancyGridmap) (b : index_t),
      0 ≤ (current_visibility example_api example_model example_model ⟨0, 0, 0⟩ m2 b).1 ∧
      (current_visibility example_api example_model example_model ⟨0, 0, 0⟩ m2 b).1 ≤ 1) ∧
    (∀ v ∈ (visibility_walk example_api example_model example_model ⟨0, 0, 0⟩ 1 1 unit_map
        [⟨0, 0, 0⟩, ⟨1, 0, 0⟩]).1, 0 ≤ v ∧ v ≤ 1) ∧
    List.Chain (fun a b => b ≤ a) 1
      (visibility_walk example_api example_model example_model ⟨0, 0, 0⟩ 1 1 unit_map
        [⟨0, 0, 0⟩, ⟨1, 0, 0⟩]).1 ∧
    (∀ (I : line_iterator_t) (fuel : Nat) (it : I.state) (m2 : OccupancyGridmap) (v2 : ℚ),
      insertVolumetric_loop example_api example_model example_model I ⟨0, 0, 0⟩ 1 fuel it 1
        unit_map = some (m2, some v2) →
      0 ≤ v2 ∧ v2 ≤ 1) ∧
    (0 ≤ endpoint_visibility example_api example_model example_model ⟨0, 0, 0⟩ 1 unit_map
        [⟨0, 0, 0⟩, ⟨1, 0, 0⟩] ⟨2, 0, 0⟩ ∧
     endpoint_visibility example_api example_model example_model ⟨0, 0, 0⟩ 1 unit_map
        [⟨0, 0, 0⟩, ⟨1, 0, 0⟩] ⟨2, 0, 0⟩
       ≤ ((visibility_walk example_api example_model example_model ⟨0, 0, 0⟩ 1 1 unit_map
        [⟨0, 0, 0⟩, ⟨1, 0, 0⟩]).1.getLast?).getD 1 ∧
     endpoint_visibility example_api example_model example_model ⟨0, 0, 0⟩ 1 unit_map
        [⟨0, 0, 0⟩, ⟨1, 0, 0⟩] ⟨2, 0, 0⟩ ≤ 1)) := by
  have h1 : ∀ a, 0 ≤ example_api.getOccupancy a example_model ∧
      example_api.getOccupancy a example_model ≤ 1 := by
    intro a
    simp only [example_api]
    norm_num
  have h2 : 0 ≤ example_model.prob_free ∧ example_model.prob_free ≤ 1 := by
    simp only [example_model]
    norm_num
  have h3 : 0 ≤ example_model.prob_occupied ∧ example_model.prob_occupied ≤ 1 := by
    simp only [example_model]
    norm_num
  exact ⟨h1, h2, h3, C14_visibility_in_unit_interval example_api example_model example_model
    h1 h2 h3 ⟨0, 0, 0⟩ 1 unit_map [⟨0, 0, 0⟩, ⟨1, 0, 0⟩] ⟨2, 0, 0⟩⟩

theorem example_ray_make :
    simple_iterator_t.make (unit_map.m_T_w_.apply transform_t.identity.t)
      (unit_map.m_T_w_.apply (example_cloud_api.getMean
        ⟨[⟨11 / 10, 1 / 10, 1 / 10⟩, ⟨6 / 5, 1 / 10, 1 / 10⟩]⟩))
      unit_map.bundle_resolution_ = ((⟨0, 0, 0⟩, ⟨2, 0, 0⟩) : index_t × index_t) := by
  rw [unit_map_m_T_w_apply, unit_map_m_T_w_apply, unit_map_bundle_resolution]
  simp only [simple_iterator_t, example_cloud_api, transform_t.identity, List.map_cons,
    List.map_nil, List.sum_cons, List.sum_nil, List.length_cons, List.length_nil]
  have e1 : Int.floor (((11 / 10 + (6 / 5 + 0)) / ((0 + 1 + 1 : ℕ) : ℚ)) / (1 / 2)) = 2 := by
    rw [Int.floor_eq_iff]; norm_num
  have e2 : Int.floor (((1 / 10 + (1 / 10 + 0)) / ((0 + 1 + 1 : ℕ) : ℚ)) / (1 / 2)) = 0 := by
    rw [Int.floor_eq_iff]; norm_num
  have e3 : Int.floor ((0 : ℚ) / (1 / 2)) = 0 := by norm_num
  rw [e1, e2, e3]

theorem example_ray_done :
    simple_iterator_t.done (simple_iterator_t.next^[2]
      (simple_iterator_t.make (unit_map.m_T_w_.apply transform_t.identity.t)
        (unit_map.m_T_w_.apply (example_cloud_api.getMean
          ⟨[⟨11 / 10, 1 / 10, 1 / 10⟩, ⟨6 / 5, 1 / 10, 1 / 10⟩]⟩))
        unit_map.bundle_resolution_)) = true := by
  rw [example_ray_make]
  decide

/-- C12, the worked example: the two points of `example_scan` that fall in the
bundle `{2, 0, 0}` of `unit_map`, seen from the origin. -/
theorem C12_volumetric_early_exit_witness :
    Reachable unit_map ∧
    example_api.getDistribution
      ⟨[update_t.occupied ⟨11 / 10, 1 / 10, 1 / 10⟩, update_t.occupied ⟨6 / 5, 1 / 10, 1 / 10⟩]⟩
      = some ⟨[⟨11 / 10, 1 / 10, 1 / 10⟩, ⟨6 / 5, 1 / 10, 1 / 10⟩]⟩ ∧
    simple_iterator_t.done (simple_iterator_t.next^[2]
      (simple_iterator_t.make (unit_map.m_T_w_.apply transform_t.identity.t)
        (unit_map.m_T_w_.apply (example_cloud_api.getMean
          ⟨[⟨11 / 10, 1 / 10, 1 / 10⟩, ⟨6 / 5, 1 / 10, 1 / 10⟩]⟩))
        unit_map.bundle_resolution_)) = true ∧
    2 < 3 ∧
    ∃ (ray : List index_t) (m2 : OccupancyGridmap),
      traversed simple_iterator_t 3
        (simple_iterator_t.make (unit_map.m_T_w_.apply transform_t.identity.t)
          (unit_map.m_T_w_.apply (example_cloud_api.getMean
            ⟨[⟨11 / 10, 1 / 10, 1 / 10⟩, ⟨6 / 5, 1 / 10, 1 / 10⟩]⟩))
          unit_map.bundle_resolution_) = some ray ∧
      insertVolumetric_lambda example_api example_cloud_api example_model example_model
        simple_iterator_t 3 ⟨0, 0, 0⟩ (unit_map.m_T_w_.apply transform_t.identity.t) unit_map
        ⟨2, 0, 0⟩
        ⟨[update_t.occupied ⟨11 / 10, 1 / 10, 1 / 10⟩,
          update_t.occupied ⟨6 / 5, 1 / 10, 1 / 10⟩]⟩ = some m2 ∧
      marked_count example_api example_model example_model ⟨0, 0, 0⟩
        (example_cloud_api.numOccupied
          ⟨[update_t.occupied ⟨11 / 10, 1 / 10, 1 / 10⟩,
            update_t.occupied ⟨6 / 5, 1 / 10, 1 / 10⟩]⟩) unit_map ray ≤ ray.length ∧
      (∀ v ∈ (visibility_walk example_api example_model example_model ⟨0, 0, 0⟩
          (example_cloud_api.numOccupied
            ⟨[update_t.occupied ⟨11 / 10, 1 / 10, 1 / 10⟩,
              update_t.occupied ⟨6 / 5, 1 / 10, 1 / 10⟩]⟩) 1 unit_map ray).1.take
          (marked_count example_api example_model example_model ⟨0, 0, 0⟩
            (example_cloud_api.numOccupied
              ⟨[update_t.occupied ⟨11 / 10, 1 / 10, 1 / 10⟩,
                update_t.occupied ⟨6 / 5, 1 / 10, 1 / 10⟩]⟩) unit_map ray),
        example_model.prob_prior ≤ v) ∧
      (∀ v, (visibility_walk example_api example_model example_model ⟨0, 0, 0⟩
          (example_cloud_api.numOccupied
            ⟨[update_t.occupied ⟨11 / 10, 1 / 10, 1 / 10⟩,
              update_t.occupied ⟨6 / 5, 1 / 10, 1 / 10⟩]⟩) 1 unit_map ray).1.get?
          (marked_count example_api example_model example_model ⟨0, 0, 0⟩
            (example_cloud_api.numOccupied
              ⟨[update_t.occupied ⟨11 / 10, 1 / 10, 1 / 10⟩,
                update_t.occupied ⟨6 / 5, 1 / 10, 1 / 10⟩]⟩) unit_map ray) = some v →
        v < example_model.prob_prior) ∧
      (∀ (k : Fin 8) (i : index_t),
        observed m2 k i
          = observed unit_map k i
            ++ List.replicate
                ((ray.take (marked_count example_api example_model example_model ⟨0, 0, 0⟩
                    (example_cloud_api.numOccupied
                      ⟨[update_t.occupied ⟨11 / 10, 1 / 10, 1 / 10⟩,
                        update_t.occupied ⟨6 / 5, 1 / 10, 1 / 10⟩]⟩)
                    unit_map ray)).countP (fun b => decide (i = storage_index b k)))
                (update_t.free_n (example_cloud_api.numOccupied
                  ⟨[update_t.occupied ⟨11 / 10, 1 / 10, 1 / 10⟩,
                    update_t.occupied ⟨6 / 5, 1 / 10, 1 / 10⟩]⟩))
            ++ (if marked_count example_api example_model example_model ⟨0, 0, 0⟩
                    (example_cloud_api.numOccupied
                      ⟨[update_t.occupied ⟨11 / 10, 1 / 10, 1 / 10⟩,
                        update_t.occupied ⟨6 / 5, 1 / 10, 1 / 10⟩]⟩) unit_map ray
                    = ray.length ∧
                  example_model.prob_prior
                    ≤ endpoint_visibility example_api example_model example_model ⟨0, 0, 0⟩
                        (example_cloud_api.numOccupied
                          ⟨[update_t.occupied ⟨11 / 10, 1 / 10, 1 / 10⟩,
                            update_t.occupied ⟨6 / 5, 1 / 10, 1 / 10⟩]⟩)
                        unit_map ray ⟨2, 0, 0⟩ ∧
                  i = storage_index ⟨2, 0, 0⟩ k
                then [update_t.occupied_d ⟨[⟨11 / 10, 1 / 10, 1 / 10⟩, ⟨6 / 5, 1 / 10, 1 / 10⟩]⟩]
                else [])) :=
  ⟨unit_map_reachable, rfl, example_ray_done, by decide,
    C12_volumetric_early_exit example_api example_cloud_api example_model example_model
      simple_iterator_t 3 ⟨0, 0, 0⟩ (unit_map.m_T_w_.apply transform_t.identity.t) unit_map
      ⟨2, 0, 0⟩
      ⟨[update_t.occupied ⟨11 / 10, 1 / 10, 1 / 10⟩, update_t.occupied ⟨6 / 5, 1 / 10, 1 / 10⟩]⟩
      ⟨[⟨11 / 10, 1 / 10, 1 / 10⟩, ⟨6 / 5, 1 / 10, 1 / 10⟩]⟩
      unit_map_reachable rfl 2 example_ray_done (by decide)⟩

/-! ## C13: what an early exit leaves allocated -/

theorem insertVolumetric_lambda_early_exit (api : accumulator_api) (capi : cloud_api)
    (ivm ivm_visibility : inverse_sensor_model_t) (I : line_iterator_t) (fuel : Nat)
    (start_bi : index_t) (start_p : point_t) (m : OccupancyGridmap) (bi : index_t)
    (d : distribution_t) (g : gaussian_t) (ray : List index_t) (hm : Reachable m)
    (hg : api.getDistribution d = some g)
    (hray : traversed I fuel
      (I.make start_p (m.m_T_w_.apply (capi.getMean g)) m.bundle_resolution_) = some ray)
    (hstop : marked_count api ivm ivm_visibility start_bi (capi.numOccupied d) m ray
      < ray.length) :
    ∃ m2 : OccupancyGridmap,
      insertVolumetric_lambda api capi ivm ivm_visibility I fuel start_bi start_p m bi d
        = some m2 ∧
      (∀ (k : Fin 8) (i : index_t),
        observed m2 k i
          = observed m k i
            ++ List.replicate
                ((ray.take (marked_count api ivm ivm_visibility start_bi (capi.numOccupied d)
                    m ray)).countP (fun b => decide (i = storage_index b k)))
                (update_t.free_n (capi.numOccupied d))) ∧
      (∀ b ∈ ray.take (marked_count api ivm ivm_visibility start_bi (capi.numOccupied d) m ray),
        (m2.bundle_storage_.get b).isSome = true) ∧
      (∀ r ∈ ray.take
          (marked_count api ivm ivm_visibility start_bi (capi.numOccupied d) m ray + 1),
        ∀ b ∈ neighbours start_bi r, (m2.bundle_storage_.get b).isSome = true) ∧
      (∀ b : index_t,
        b ∉ ray.take (marked_count api ivm ivm_visibility start_bi (capi.numOccupied d) m ray) →
        (∀ r ∈ ray.take
            (marked_count api ivm ivm_visibility start_bi (capi.numOccupied d) m ray + 1),
          b ∉ neighbours start_bi r) →
        m2.bundle_storage_.get b = m.bundle_storage_.get b) := by
  obtain ⟨steps, r, h1, h2, h3, _, h5, h6⟩ :=
    insertVolumetric_loop_spec api ivm ivm_visibility I start_bi (capi.numOccupied d) fuel _ 1 m
      ray hray
  have hr : r = none := h3.2 hstop
  subst hr
  refine ⟨run_steps m steps, ?_, ?_, ?_, ?_, ?_⟩
  · simp only [insertVolumetric_lambda, hg, h1]
  · intro k i
    rw [observed_run_steps steps k i hm, h2 k i]
    rfl
  · intro b hb
    obtain ⟨s, hs, hsb⟩ := h6 b (Or.inl hb)
    rw [← hsb]
    exact run_steps_allocates steps m s hs
  · intro r0 hr0 b hb
    obtain ⟨s, hs, hsb⟩ := h6 b (Or.inr ⟨r0, hr0, hb⟩)
    rw [← hsb]
    exact run_steps_allocates steps m s hs
  · intro b hb1 hb2
    apply run_steps_get_of_not_mem
    intro hmem
    rw [List.mem_map] at hmem
    obtain ⟨s, hs, hsb⟩ := hmem
    rcases h5 s hs with h | ⟨r0, hr0, hn⟩
    · exact hb1 (hsb ▸ h)
    · exact hb2 r0 hr0 (hsb ▸ hn)

theorem insertVolumetric_single_entry (api : accumulator_api) (capi : cloud_api)
    (I : line_iterator_t) (fuel : Nat) (m : OccupancyGridmap) (origin : transform_t)
    (points : List point_t) (ivm ivm_visibility : inverse_sensor_model_t) (bi : index_t)
    (d : distribution_t) (hentries : (fuse_cloud capi m origin points).entries = [(bi, d)]) :
    insertVolumetric api capi I fuel m origin points ivm ivm_visibility
      = insertVolumetric_lambda api capi ivm ivm_visibility I fuel (toBundleIndex m origin.t)
          (m.m_T_w_.apply origin.t) m bi d := by
  simp only [insertVolumetric, hentries, traverse_entries]
  cases insertVolumetric_lambda api capi ivm ivm_visibility I fuel (toBundleIndex m origin.t)
      (m.m_T_w_.apply origin.t) m bi d <;> rfl

/-- C13, amended: `insertVolumetric` on a reachable map for a scan whose valid
points all fall in one bundle `bi` with fused distribution `g`, where the ray
towards the fused mean traverses the bundles `ray` and its accumulated
visibility falls below the prior probability at one of them. The call returns.
The bundles before the stopping bundle receive one free update of weight `n`
each; nothing else is observed, so the endpoint receives no occupied update.
Allocated after the call are the marked bundles and the three neighbours that
`current_visibility` looks up for every examined bundle, the stopping bundle
included; every other bundle is as before the call. In particular the endpoint
bundle stays unallocated when it was unallocated before and is neither a marked
bundle nor a looked-up neighbour of an examined bundle. -/
theorem C13_early_exit_allocation (api : accumulator_api) (capi : cloud_api)
    (ivm ivm_visibility : inverse_sensor_model_t) (I : line_iterator_t) (fuel : Nat)
    (m : OccupancyGridmap) (origin : transform_t) (points : List point_t) (bi : index_t)
    (d : distribution_t) (g : gaussian_t) (ray : List index_t) (hm : Reachable m)
    (hentries : (fuse_cloud capi m origin points).entries = [(bi, d)])
    (hg : api.getDistribution d = some g)
    (hray : traversed I fuel
      (I.make (m.m_T_w_.apply origin.t) (m.m_T_w_.apply (capi.getMean g)) m.bundle_resolution_)
      = some ray)
    (hstop : marked_count api ivm ivm_visibility (toBundleIndex m origin.t) (capi.numOccupied d)
      m ray < ray.length) :
    ∃ m2 : OccupancyGridmap,
      insertVolumetric api capi I fuel m origin points ivm ivm_visibility = some m2 ∧
      (∀ (k : Fin 8) (i : index_t),
        observed m2 k i
          = observed m k i
            ++ List.replicate
                ((ray.take (marked_count api ivm ivm_visibility (toBundleIndex m origin.t)
                    (capi.numOccupied d) m ray)).countP (fun b => decide (i = storage_index b k)))
                (update_t.free_n (capi.numOccupied d))) ∧
      (∀ b ∈ ray.take (marked_count api ivm ivm_visibility (toBundleIndex m origin.t)
          (capi.numOccupied d) m ray),
        (m2.bundle_storage_.get b).isSome = true) ∧
      (∀ r ∈ ray.take (marked_count api ivm ivm_visibility (toBundleIndex m origin.t)
          (capi.numOccupied d) m ray + 1),
        ∀ b ∈ neighbours (toBundleIndex m origin.t) r,
          (m2.bundle_storage_.get b).isSome = true) ∧
      (∀ b : index_t,
        b ∉ ray.take (marked_count api ivm ivm_visibility (toBundleIndex m origin.t)
          (capi.numOccupied d) m ray) →
        (∀ r ∈ ray.take (marked_count api ivm ivm_visibility (toBundleIndex m origin.t)
            (capi.numOccupied d) m ray + 1),
          b ∉ neighbours (toBundleIndex m origin.t) r) →
        m2.bundle_storage_.get b = m.bundle_storage_.get b) ∧
      (m.bundle_storage_.get bi = none →
        bi ∉ ray.take (marked_count api ivm ivm_visibility (toBundleIndex m origin.t)
          (capi.numOccupied d) m ray) →
        (∀ r ∈ ray.take (marked_count api ivm ivm_visibility (toBundleIndex m origin.t)
            (capi.numOccupied d) m ray + 1),
          bi ∉ neighbours (toBundleIndex m origin.t) r) →
        m2.bundle_storage_.get bi = none) := by
  obtain ⟨m2, h1, h2, h3, h4, h5⟩ :=
    insertVolumetric_lambda_early_exit api capi ivm ivm_visibility I fuel
      (toBundleIndex m origin.t) (m.m_T_w_.apply origin.t) m bi d g ray hm hg hray hstop
  refine ⟨m2, ?_, h2, h3, h4, h5, ?_⟩
  · rw [insertVolumetric_single_entry api capi I fuel m origin points ivm ivm_visibility bi d
      hentries, h1]
  · intro hnone hb1 hb2
    rw [h5 bi hb1 hb2, hnone]

theorem blocked_map_reachable : Reachable blocked_map :=
  Reachable.updateOccupied _ _ unit_map_reachable

theorem toBundleIndex_blocked_map (p : point_t) :
    toBundleIndex blocked_map p
      = ⟨Int.floor (p.x * 2), Int.floor (p.y * 2), Int.floor (p.z * 2)⟩ := by
  rw [blocked_map, updateOccupied, toBundleIndex_update, toBundleIndex_unit_map]

theorem blocked_map_m_T_w_apply (p : point_t) : blocked_map.m_T_w_.apply p = p := by
  rw [blocked_map, updateOccupied_eq_run_step, run_step_m_T_w, unit_map_m_T_w_apply]

theorem blocked_map_bundle_resolution : blocked_map.bundle_resolution_ = 1 / 2 := by
  rw [blocked_map, updateOccupied_eq_run_step, run_step_bundle_resolution,
    unit_map_bundle_resolution]

theorem hit_api_occupancy_unit (ivm : inverse_sensor_model_t) (a : distribution_t) :
    0 ≤ hit_api.getOccupancy a ivm ∧ hit_api.getOccupancy a ivm ≤ 1 := by
  simp only [hit_api]
  split <;> norm_num

theorem fuse_cloud_singleton (capi : cloud_api) (m : OccupancyGridmap) (origin : transform_t)
    (p : point_t) (h : capi.isNormal (origin.apply p) = true) :
    (fuse_cloud capi m origin [p]).entries
      = [(toBundleIndex m (origin.apply p), ⟨[update_t.occupied (origin.apply p)]⟩)] := by
  simp [fuse_cloud, fuse_point, h, Storage.empty, Storage.get, Storage.insert, Storage.modify,
    distribution_t.updateOccupied]
  rfl

theorem blocked_map_occupancy_behind :
    (occupancy hit_api example_model blocked_map ⟨-1, 0, 0⟩).1 = 0 := by
  have t0 : occupancy_term hit_api example_model (getDistributionBundle blocked_map ⟨-1, 0, 0⟩).1
      ((getDistributionBundle blocked_map ⟨-1, 0, 0⟩).2 0) = 0 := by decide
  have t1 : occupancy_term hit_api example_model (getDistributionBundle blocked_map ⟨-1, 0, 0⟩).1
      ((getDistributionBundle blocked_map ⟨-1, 0, 0⟩).2 1) = 0 := by decide
  have t2 : occupancy_term hit_api example_model (getDistributionBundle blocked_map ⟨-1, 0, 0⟩).1
      ((getDistributionBundle blocked_map ⟨-1, 0, 0⟩).2 2) = 0 := by decide
  have t3 : occupancy_term hit_api example_model (getDistributionBundle blocked_map ⟨-1, 0, 0⟩).1
      ((getDistributionBundle blocked_map ⟨-1, 0, 0⟩).2 3) = 0 := by decide
  have t4 : occupancy_term hit_api example_model (getDistributionBundle blocked_map ⟨-1, 0, 0⟩).1
      ((getDistributionBundle blocked_map ⟨-1, 0, 0⟩).2 4) = 0 := by decide
  have t5 : occupancy_term hit_api example_model (getDistributionBundle blocked_map ⟨-1, 0, 0⟩).1
      ((getDistributionBundle blocked_map ⟨-1, 0, 0⟩).2 5) = 0 := by decide
  have t6 : occupancy_term hit_api example_model (getDistributionBundle blocked_map ⟨-1, 0, 0⟩).1
      ((getDistributionBundle blocked_map ⟨-1, 0, 0⟩).2 6) = 0 := by decide
  have t7 : occupancy_term hit_api example_model (getDistributionBundle blocked_map ⟨-1, 0, 0⟩).1
      ((getDistributionBundle blocked_map ⟨-1, 0, 0⟩).2 7) = 0 := by decide
  simp only [occupancy, t0, t1, t2, t3, t4, t5, t6, t7]
  norm_num

theorem blocked_map_occupancy_blocker :
    (occupancy hit_api example_model blocked_map ⟨1, 0, 0⟩).1 = 1 := by
  have t0 : occupancy_term hit_api example_model (getDistributionBundle blocked_map ⟨1, 0, 0⟩).1
      ((getDistributionBundle blocked_map ⟨1, 0, 0⟩).2 0) = 1 := by decide
  have t1 : occupancy_term hit_api example_model (getDistributionBundle blocked_map ⟨1, 0, 0⟩).1
      ((getDistributionBundle blocked_map ⟨1, 0, 0⟩).2 1) = 1 := by decide
  have t2 : occupancy_term hit_api example_model (getDistributionBundle blocked_map ⟨1, 0, 0⟩).1
      ((getDistributionBundle blocked_map ⟨1, 0, 0⟩).2 2) = 1 := by decide
  have t3 : occupancy_term hit_api example_model (getDistributionBundle blocked_map ⟨1, 0, 0⟩).1
      ((getDistributionBundle blocked_map ⟨1, 0, 0⟩).2 3) = 1 := by decide
  have t4 : occupancy_term hit_api example_model (getDistributionBundle blocked_map ⟨1, 0, 0⟩).1
      ((getDistributionBundle blocked_map ⟨1, 0, 0⟩).2 4) = 1 := by decide
  have t5 : occupancy_term hit_api example_model (getDistributionBundle blocked_map ⟨1, 0, 0⟩).1
      ((getDistributionBundle blocked_map ⟨1, 0, 0⟩).2 5) = 1 := by decide
  have t6 : occupancy_term hit_api example_model (getDistributionBundle blocked_map ⟨1, 0, 0⟩).1
      ((getDistributionBundle blocked_map ⟨1, 0, 0⟩).2 6) = 1 := by decide
  have t7 : occupancy_term hit_api example_model (getDistributionBundle blocked_map ⟨1, 0, 0⟩).1
      ((getDistributionBundle blocked_map ⟨1, 0, 0⟩).2 7) = 1 := by decide
  simp only [occupancy, t0, t1, t2, t3, t4, t5, t6, t7]
  norm_num

theorem blocked_map_first_factor :
    (current_visibility hit_api example_model example_model ⟨0, 0, 0⟩ blocked_map ⟨0, 0, 0⟩).1
      = 13 / 20 := by
  have hx := blocked_map_occupancy_behind
  have hy := (occupancy_unit hit_api example_model (hit_api_occupancy_unit example_model)
    (occupancy hit_api example_model blocked_map ⟨-1, 0, 0⟩).2 ⟨0, -1, 0⟩).1
  have hz := (occupancy_unit hit_api example_model (hit_api_occupancy_unit example_model)
    (occupancy hit_api example_model
      (occupancy hit_api example_model blocked_map ⟨-1, 0, 0⟩).2 ⟨0, -1, 0⟩).2 ⟨0, 0, -1⟩).1
  have hcv : (current_visibility hit_api example_model example_model ⟨0, 0, 0⟩ blocked_map
      ⟨0, 0, 0⟩).1
      = example_model.prob_free
          * min (occupancy hit_api example_model blocked_map ⟨-1, 0, 0⟩).1
              (min (occupancy hit_api example_model
                  (occupancy hit_api example_model blocked_map ⟨-1, 0, 0⟩).2 ⟨0, -1, 0⟩).1
                (occupancy hit_api example_model
                  (occupancy hit_api example_model
                    (occupancy hit_api example_model blocked_map ⟨-1, 0, 0⟩).2 ⟨0, -1, 0⟩).2
                  ⟨0, 0, -1⟩).1)
        + example_model.prob_occupied
          * (1 - min (occupancy hit_api example_model blocked_map ⟨-1, 0, 0⟩).1
              (min (occupancy hit_api example_model
                  (occupancy hit_api example_model blocked_map ⟨-1, 0, 0⟩).2 ⟨0, -1, 0⟩).1
                (occupancy hit_api example_model
                  (occupancy hit_api example_model
                    (occupancy hit_api example_model blocked_map ⟨-1, 0, 0⟩).2 ⟨0, -1, 0⟩).2
                  ⟨0, 0, -1⟩).1)) := rfl
  rw [hcv, hx, min_eq_left (le_min hy hz)]
  norm_num [example_model]

theorem marked_count_eq_one (api : accumulator_api)
    (ivm ivm_visibility : inverse_sensor_model_t)
    (hocc : ∀ a, 0 ≤ api.getOccupancy a ivm ∧ api.getOccupancy a ivm ≤ 1)
    (start_bi : index_t) (n : Nat) (m : OccupancyGridmap) (r0 r1 : index_t)
    (rest : List index_t)
    (h0 : 0 ≤ (current_visibility api ivm ivm_visibility start_bi m r0).1)
    (h1 : ivm_visibility.prob_prior
      ≤ (current_visibility api ivm ivm_visibility start_bi m r0).1)
    (h2 : (current_visibility api ivm ivm_visibility start_bi m r0).1
        * max ivm_visibility.prob_free ivm_visibility.prob_occupied
      < ivm_visibility.prob_prior) :
    marked_count api ivm ivm_visibility start_bi n m (r0 :: r1 :: rest) = 1 := by
  simp only [marked_count, visibility_walk, one_mul]
  rw [visible_count_cons_of_le _ _ _ (not_lt.2 h1), visible_count_cons_of_lt]
  refine lt_of_le_of_lt ?_ h2
  exact mul_le_mul_of_nonneg_left
    (current_visibility_bounds api ivm ivm_visibility hocc start_bi _ r1).2 h0

theorem blocked_map_ray_near :
    traversed simple_iterator_t 3
      (simple_iterator_t.make (blocked_map.m_T_w_.apply transform_t.identity.t)
        (blocked_map.m_T_w_.apply (example_cloud_api.getMean ⟨[⟨11 / 10, 1 / 10, 1 / 10⟩]⟩))
        blocked_map.bundle_resolution_) = some [⟨0, 0, 0⟩, ⟨1, 0, 0⟩] := by
  have hmake : simple_iterator_t.make (blocked_map.m_T_w_.apply transform_t.identity.t)
      (blocked_map.m_T_w_.apply (example_cloud_api.getMean ⟨[⟨11 / 10, 1 / 10, 1 / 10⟩]⟩))
      blocked_map.bundle_resolution_ = ((⟨0, 0, 0⟩, ⟨2, 0, 0⟩) : index_t × index_t) := by
    rw [blocked_map_m_T_w_apply, blocked_map_m_T_w_apply, blocked_map_bundle_resolution]
    simp only [simple_iterator_t, example_cloud_api, transform_t.identity, List.map_cons,
      List.map_nil, List.sum_cons, List.sum_nil, List.length_cons, List.length_nil]
    have e1 : Int.floor (((11 / 10 + 0) / ((0 + 1 : ℕ) : ℚ)) / (1 / 2)) = 2 := by
      rw [Int.floor_eq_iff]; norm_num
    have e2 : Int.floor (((1 / 10 + 0) / ((0 + 1 : ℕ) : ℚ)) / (1 / 2)) = 0 := by
      rw [Int.floor_eq_iff]; norm_num
    have e3 : Int.floor ((0 : ℚ) / (1 / 2)) = 0 := by norm_num
    rw [e1, e2, e3]
  rw [hmake]
  decide

theorem blocked_map_ray_far :
    traversed simple_iterator_t 5
      (simple_iterator_t.make (blocked_map.m_T_w_.apply transform_t.identity.t)
        (blocked_map.m_T_w_.apply (example_cloud_api.getMean ⟨[⟨21 / 10, 1 / 10, 1 / 10⟩]⟩))
        blocked_map.bundle_resolution_)
      = some [⟨0, 0, 0⟩, ⟨1, 0, 0⟩, ⟨2, 0, 0⟩, ⟨3, 0, 0⟩] := by
  have hmake : simple_iterator_t.make (blocked_map.m_T_w_.apply transform_t.identity.t)
      (blocked_map.m_T_w_.apply (example_cloud_api.getMean ⟨[⟨21 / 10, 1 / 10, 1 / 10⟩]⟩))
      blocked_map.bundle_resolution_ = ((⟨0, 0, 0⟩, ⟨4, 0, 0⟩) : index_t × index_t) := by
    rw [blocked_map_m_T_w_apply, blocked_map_m_T_w_apply, blocked_map_bundle_resolution]
    simp only [simple_iterator_t, example_cloud_api, transform_t.identity, List.map_cons,
      List.map_nil, List.sum_cons, List.sum_nil, List.length_cons, List.length_nil]
    have e1 : Int.floor (((21 / 10 + 0) / ((0 + 1 : ℕ) : ℚ)) / (1 / 2)) = 4 := by
      rw [Int.floor_eq_iff]; norm_num
    have e2 : Int.floor (((1 / 10 + 0) / ((0 + 1 : ℕ) : ℚ)) / (1 / 2)) = 0 := by
      rw [Int.floor_eq_iff]; norm_num
    have e3 : Int.floor ((0 : ℚ) / (1 / 2)) = 0 := by norm_num
    rw [e1, e2, e3]
  rw [hmake]
  decide

theorem blocked_map_start : toBundleIndex blocked_map transform_t.identity.t = ⟨0, 0, 0⟩ := by
  rw [toBundleIndex_blocked_map]
  simp [transform_t.identity]

theorem blocked_map_entries_near :
    (fuse_cloud example_cloud_api blocked_map transform_t.identity
      [⟨11 / 10, 1 / 10, 1 / 10⟩]).entries
      = [(⟨2, 0, 0⟩, ⟨[update_t.occupied ⟨11 / 10, 1 / 10, 1 / 10⟩]⟩)] := by
  have hn : example_cloud_api.isNormal
      (transform_t.identity.apply ⟨11 / 10, 1 / 10, 1 / 10⟩) = true := by
    rw [identity_apply]
    simp [example_cloud_api]
  have hb : toBundleIndex blocked_map ⟨11 / 10, 1 / 10, 1 / 10⟩ = ⟨2, 0, 0⟩ := by
    rw [toBundleIndex_blocked_map]
    have e1 : Int.floor ((11 / 10 : ℚ) * 2) = 2 := by
      rw [Int.floor_eq_iff]; norm_num
    have e2 : Int.floor ((1 / 10 : ℚ) * 2) = 0 := by
      rw [Int.floor_eq_iff]; norm_num
    simp only [e1, e2]
  rw [fuse_cloud_singleton _ _ _ _ hn, identity_apply, hb]

theorem blocked_map_entries_far :
    (fuse_cloud example_cloud_api blocked_map transform_t.identity
      [⟨21 / 10, 1 / 10, 1 / 10⟩]).entries
      = [(⟨4, 0, 0⟩, ⟨[update_t.occupied ⟨21 / 10, 1 / 10, 1 / 10⟩]⟩)] := by
  have hn : example_cloud_api.isNormal
      (transform_t.identity.apply ⟨21 / 10, 1 / 10, 1 / 10⟩) = true := by
    rw [identity_apply]
    simp [example_cloud_api]
  have hb : toBundleIndex blocked_map ⟨21 / 10, 1 / 10, 1 / 10⟩ = ⟨4, 0, 0⟩ := by
    rw [toBundleIndex_blocked_map]
    have e1 : Int.floor ((21 / 10 : ℚ) * 2) = 4 := by
      rw [Int.floor_eq_iff]; norm_num
    have e2 : Int.floor ((1 / 10 : ℚ) * 2) = 0 := by
      rw [Int.floor_eq_iff]; norm_num
    simp only [e1, e2]
  rw [fuse_cloud_singleton _ _ _ _ hn, identity_apply, hb]

theorem blocked_map_marked_count (n : Nat) (r1 : index_t) (rest : List index_t) :
    marked_count hit_api example_model example_model ⟨0, 0, 0⟩ n blocked_map
      (⟨0, 0, 0⟩ :: r1 :: rest) = 1 := by
  apply marked_count_eq_one hit_api example_model example_model
    (hit_api_occupancy_unit example_model)
  · rw [blocked_map_first_factor]; norm_num
  · rw [blocked_map_first_factor]; norm_num [example_model]
  · rw [blocked_map_first_factor]
    have : max example_model.prob_free example_model.prob_occupied = 13 / 20 := by
      simp only [example_model]
      norm_num
    rw [this]
    norm_num [example_model]

theorem insertVolumetric_lambda_complete (api : accumulator_api) (capi : cloud_api)
    (ivm ivm_visibility : inverse_sensor_model_t) (I : line_iterator_t) (fuel : Nat)
    (start_bi : index_t) (start_p : point_t) (m : OccupancyGridmap) (bi : index_t)
    (d : distribution_t) (g : gaussian_t) (ray : List index_t) (hm : Reachable m)
    (hg : api.getDistribution d = some g)
    (hray : traversed I fuel
      (I.make start_p (m.m_T_w_.apply (capi.getMean g)) m.bundle_resolution_) = some ray)
    (hfull : marked_count api ivm ivm_visibility start_bi (capi.numOccupied d) m ray
      = ray.length)
    (hend : ivm_visibility.prob_prior
      ≤ endpoint_visibility api ivm ivm_visibility start_bi (capi.numOccupied d) m ray bi) :
    ∃ m2 : OccupancyGridmap,
      insertVolumetric_lambda api capi ivm ivm_visibility I fuel start_bi start_p m bi d
        = some m2 ∧
      (∀ (k : Fin 8) (i : index_t),
        observed m2 k i
          = observed m k i
            ++ List.replicate (ray.countP (fun b => decide (i = storage_index b k)))
                (update_t.free_n (capi.numOccupied d))
            ++ (if i = storage_index bi k then [update_t.occupied_d g] else [])) ∧
      (m2.bundle_storage_.get bi).isSome = true := by
  obtain ⟨steps, r, h1, h2, h3, h4, _⟩ :=
    insertVolumetric_loop_spec api ivm ivm_visibility I start_bi (capi.numOccupied d) fuel _ 1 m
      ray hray
  have hfull2 : visible_count ivm_visibility
      (visibility_walk api ivm ivm_visibility start_bi (capi.numOccupied d) 1 m ray).1
      = ray.length := hfull
  cases r with
  | none =>
    have := h3.1 rfl
    omega
  | some v2 =>
    obtain ⟨h5, h6⟩ := h4 v2 rfl
    have hp : ivm_visibility.prob_prior
        ≤ v2 * (current_visibility api ivm ivm_visibility start_bi (run_steps m steps) bi).1 := by
      have : endpoint_visibility api ivm ivm_visibility start_bi (capi.numOccupied d) m ray bi
          = v2 * (current_visibility api ivm ivm_visibility start_bi (run_steps m steps)
              bi).1 := by
        rw [endpoint_visibility, ← h5, ← h6]
      rw [← this]
      exact hend
    refine ⟨run_steps m (steps ++ ((neighbours start_bi bi).map step_t.allocate
        ++ [step_t.update bi (update_t.occupied_d g)])), ?_, ?_, ?_⟩
    · simp only [insertVolumetric_lambda, hg, h1, ge_iff_le, hp, if_true,
        current_visibility_snd, updateOccupied_d_eq_run_step, run_steps_append]
      rfl
    · intro k i
      rw [observed_run_steps _ k i hm, updates_sent_append, updates_sent_append, h2 k i,
        updates_sent_allocate, updates_sent_cons_update, updates_sent_nil, hfull2,
        List.take_length]
      simp only [List.nil_append, List.append_nil, List.append_assoc]
    · exact run_steps_allocates _ m (step_t.update bi (update_t.occupied_d g)) (by simp)

theorem current_visibility_ge (api : accumulator_api)
    (ivm ivm_visibility : inverse_sensor_model_t)
    (hle : ivm_visibility.prob_free ≤ ivm_visibility.prob_occupied)
    (start_bi : index_t) (m : OccupancyGridmap) (bi : index_t) (o : ℚ)
    (hx : (occupancy api ivm m
      ⟨bi.x + (if bi.x > start_bi.x then 1 else -1), bi.y, bi.z⟩).1 ≤ o) :
    ivm_visibility.prob_occupied
        - (ivm_visibility.prob_occupied - ivm_visibility.prob_free) * o
      ≤ (current_visibility api ivm ivm_visibility start_bi m bi).1 := by
  simp only [current_visibility]
  have hmin := le_trans (min_le_left
    (occupancy api ivm m ⟨bi.x + (if bi.x > start_bi.x then 1 else -1), bi.y, bi.z⟩).1
    (min (occupancy api ivm
        (occupancy api ivm m ⟨bi.x + (if bi.x > start_bi.x then 1 else -1), bi.y, bi.z⟩).2
        ⟨bi.x, bi.y + (if bi.y > start_bi.y then 1 else -1), bi.z⟩).1
      (occupancy api ivm
        (occupancy api ivm
          (occupancy api ivm m
            ⟨bi.x + (if bi.x > start_bi.x then 1 else -1), bi.y, bi.z⟩).2
          ⟨bi.x, bi.y + (if bi.y > start_bi.y then 1 else -1), bi.z⟩).2
        ⟨bi.x, bi.y, bi.z + (if bi.z > start_bi.z then 1 else -1)⟩).1)) hx
  nlinarith [mul_le_mul_of_nonneg_left hmin (sub_nonneg.2 hle)]

theorem marked_count_eq_two (api : accumulator_api)
    (ivm ivm_visibility : inverse_sensor_model_t) (start_bi : index_t) (n : Nat)
    (m : OccupancyGridmap) (r0 r1 : index_t)
    (h0 : ivm_visibility.prob_prior
      ≤ (current_visibility api ivm ivm_visibility start_bi m r0).1)
    (h1 : ivm_visibility.prob_prior
      ≤ (current_visibility api ivm ivm_visibility start_bi m r0).1
        * (current_visibility api ivm ivm_visibility start_bi
            (updateFree_n (current_visibility api ivm ivm_visibility start_bi m r0).2 r0 n)
            r1).1) :
    marked_count api ivm ivm_visibility start_bi n m [r0, r1] = 2 := by
  simp only [marked_count, visibility_walk, one_mul]
  rw [visible_count_cons_of_le _ _ _ (not_lt.2 h0), visible_count_cons_of_le _ _ _ (not_lt.2 h1)]
  rfl

theorem endpoint_visibility_two (api : accumulator_api)
    (ivm ivm_visibility : inverse_sensor_model_t) (start_bi : index_t) (n : Nat)
    (m : OccupancyGridmap) (r0 r1 bi : index_t) :
    endpoint_visibility api ivm ivm_visibility start_bi n m [r0, r1] bi
      = (current_visibility api ivm ivm_visibility start_bi m r0).1
        * (current_visibility api ivm ivm_visibility start_bi
            (updateFree_n (current_visibility api ivm ivm_visibility start_bi m r0).2 r0 n)
            r1).1
        * (current_visibility api ivm ivm_visibility start_bi
            (updateFree_n (current_visibility api ivm ivm_visibility start_bi
              (updateFree_n (current_visibility api ivm ivm_visibility start_bi m r0).2 r0 n)
              r1).2 r1 n) bi).1 := by
  simp only [endpoint_visibility, visibility_walk, one_mul]
  rfl

theorem blocked_map_occupancy_ahead :
    (occupancy hit_api example_model
      (updateFree_n (current_visibility hit_api example_model clear_model ⟨0, 0, 0⟩ blocked_map
        ⟨0, 0, 0⟩).2 ⟨0, 0, 0⟩ 1) ⟨2, 0, 0⟩).1 = 1 / 2 := by
  have t : ∀ k : Fin 8, occupancy_term hit_api example_model
      (getDistributionBundle (updateFree_n
        (current_visibility hit_api example_model clear_model ⟨0, 0, 0⟩ blocked_map
          ⟨0, 0, 0⟩).2 ⟨0, 0, 0⟩ 1) ⟨2, 0, 0⟩).1
      ((getDistributionBundle (updateFree_n
        (current_visibility hit_api example_model clear_model ⟨0, 0, 0⟩ blocked_map
          ⟨0, 0, 0⟩).2 ⟨0, 0, 0⟩ 1) ⟨2, 0, 0⟩).2 k)
      = if k.val % 2 = 1 then 1 else 0 := by decide
  simp only [occupancy, t]
  norm_num [show ((3 : Fin 8) : ℕ) = 3 from rfl, show ((4 : Fin 8) : ℕ) = 4 from rfl,
    show ((5 : Fin 8) : ℕ) = 5 from rfl, show ((6 : Fin 8) : ℕ) = 6 from rfl,
    show ((7 : Fin 8) : ℕ) = 7 from rfl]

theorem blocked_map_occupancy_beyond :
    (occupancy hit_api example_model
      (updateFree_n (current_visibility hit_api example_model clear_model ⟨0, 0, 0⟩
        (updateFree_n (current_visibility hit_api example_model clear_model ⟨0, 0, 0⟩
          blocked_map ⟨0, 0, 0⟩).2 ⟨0, 0, 0⟩ 1) ⟨1, 0, 0⟩).2 ⟨1, 0, 0⟩ 1) ⟨3, 0, 0⟩).1 = 0 := by
  have t : ∀ k : Fin 8, occupancy_term hit_api example_model
      (getDistributionBundle
        (updateFree_n (current_visibility hit_api example_model clear_model ⟨0, 0, 0⟩
          (updateFree_n (current_visibility hit_api example_model clear_model ⟨0, 0, 0⟩
            blocked_map ⟨0, 0, 0⟩).2 ⟨0, 0, 0⟩ 1) ⟨1, 0, 0⟩).2 ⟨1, 0, 0⟩ 1) ⟨3, 0, 0⟩).1
      ((getDistributionBundle
        (updateFree_n (current_visibility hit_api example_model clear_model ⟨0, 0, 0⟩
          (updateFree_n (current_visibility hit_api example_model clear_model ⟨0, 0, 0⟩
            blocked_map ⟨0, 0, 0⟩).2 ⟨0, 0, 0⟩ 1) ⟨1, 0, 0⟩).2 ⟨1, 0, 0⟩ 1) ⟨3, 0, 0⟩).2 k)
      = 0 := by decide
  simp only [occupancy, t]
  norm_num

theorem blocked_map_clear_factors :
    9 / 10 ≤ (current_visibility hit_api example_model clear_model ⟨0, 0, 0⟩ blocked_map
      ⟨0, 0, 0⟩).1 ∧
    13 / 20 ≤ (current_visibility hit_api example_model clear_model ⟨0, 0, 0⟩
      (updateFree_n (current_visibility hit_api example_model clear_model ⟨0, 0, 0⟩ blocked_map
        ⟨0, 0, 0⟩).2 ⟨0, 0, 0⟩ 1) ⟨1, 0, 0⟩).1 ∧
    9 / 10 ≤ (current_visibility hit_api example_model clear_model ⟨0, 0, 0⟩
      (updateFree_n (current_visibility hit_api example_model clear_model ⟨0, 0, 0⟩
        (updateFree_n (current_visibility hit_api example_model clear_model ⟨0, 0, 0⟩
          blocked_map ⟨0, 0, 0⟩).2 ⟨0, 0, 0⟩ 1) ⟨1, 0, 0⟩).2 ⟨1, 0, 0⟩ 1) ⟨2, 0, 0⟩).1 := by
  have hle : clear_model.prob_free ≤ clear_model.prob_occupied := by
    simp only [clear_model]; norm_num
  have h0 := current_visibility_ge hit_api example_model clear_model hle ⟨0, 0, 0⟩ blocked_map
    ⟨0, 0, 0⟩ 0 (le_of_eq blocked_map_occupancy_behind)
  have h1 := current_visibility_ge hit_api example_model clear_model hle ⟨0, 0, 0⟩
    (updateFree_n (current_visibility hit_api example_model clear_model ⟨0, 0, 0⟩ blocked_map
      ⟨0, 0, 0⟩).2 ⟨0, 0, 0⟩ 1) ⟨1, 0, 0⟩ (1 / 2) (le_of_eq blocked_map_occupancy_ahead)
  have h2 := current_visibility_ge hit_api example_model clear_model hle ⟨0, 0, 0⟩
    (updateFree_n (current_visibility hit_api example_model clear_model ⟨0, 0, 0⟩
      (updateFree_n (current_visibility hit_api example_model clear_model ⟨0, 0, 0⟩
        blocked_map ⟨0, 0, 0⟩).2 ⟨0, 0, 0⟩ 1) ⟨1, 0, 0⟩).2 ⟨1, 0, 0⟩ 1) ⟨2, 0, 0⟩ 0
    (le_of_eq blocked_map_occupancy_beyond)
  refine ⟨le_trans (le_of_eq ?_) h0, le_trans (le_of_eq ?_) h1, le_trans (le_of_eq ?_) h2⟩
  · simp only [clear_model]; norm_num
  · simp only [clear_model]; norm_num
  · simp only [clear_model]; norm_num

theorem blocked_map_clear_marked_count :
    marked_count hit_api example_model clear_model ⟨0, 0, 0⟩ 1 blocked_map
      [⟨0, 0, 0⟩, ⟨1, 0, 0⟩] = 2 := by
  obtain ⟨h0, h1, _⟩ := blocked_map_clear_factors
  have hp : clear_model.prob_prior = 1 / 2 := rfl
  apply marked_count_eq_two
  · rw [hp]; linarith
  · rw [hp]
    nlinarith [mul_le_mul h0 h1 (by norm_num) (le_trans (by norm_num) h0)]

theorem blocked_map_clear_endpoint :
    clear_model.prob_prior
      ≤ endpoint_visibility hit_api example_model clear_model ⟨0, 0, 0⟩ 1 blocked_map
          [⟨0, 0, 0⟩, ⟨1, 0, 0⟩] ⟨2, 0, 0⟩ := by
  obtain ⟨h0, h1, h2⟩ := blocked_map_clear_factors
  have hp : clear_model.prob_prior = 1 / 2 := rfl
  rw [endpoint_visibility_two, hp]
  have h01 := mul_le_mul h0 h1 (by norm_num) (le_trans (by norm_num) h0)
  have h012 := mul_le_mul h01 h2 (by norm_num) (le_trans (by norm_num) h01)
  linarith

theorem replicate_countP_pair {α β : Type} (p : α → Bool) (a b : α) (u : β) :
    List.replicate (List.countP p [a, b]) u
      = (if p a = true then [u] else []) ++ (if p b = true then [u] else []) := by
  cases ha : p a <;> cases hb : p b <;> simp [List.countP_cons, ha, hb]

/-- C13, the scenarios on which the claim fails; in both the bundle `{1, 0, 0}`
of `blocked_map` holds an occupied observation on each corner (occupancy 1,
the highest there is), and the scan is the one point (1.1, 0.1, 0.1) in the
bundle `{2, 0, 0}`, which is not allocated, seen from the origin, so that the
ray traverses `{0, 0, 0}` and the occupied bundle `{1, 0, 0}`. With the
visibility model `example_model` the ray stops at `{1, 0, 0}`: only `{0, 0, 0}`
is marked and the endpoint receives no update, but the look-up of the
neighbours of `{1, 0, 0}` has allocated the endpoint bundle `{2, 0, 0}`, which
is in Bundle Storage after the call. With the visibility model `clear_model`
the ray does not stop: both bundles of the ray are marked, the occupied bundle
`{1, 0, 0}` included, and the endpoint bundle receives the fused occupied
update and is allocated. -/
theorem C13_adjacent_endpoint_counterexample :
    (occupancy hit_api example_model blocked_map ⟨1, 0, 0⟩).1 = 1 ∧
    (blocked_map.bundle_storage_.get ⟨2, 0, 0⟩).isSome = false ∧
    (fuse_cloud example_cloud_api blocked_map transform_t.identity
      [⟨11 / 10, 1 / 10, 1 / 10⟩]).keys = [⟨2, 0, 0⟩] ∧
    traversed simple_iterator_t 3
      (simple_iterator_t.make (blocked_map.m_T_w_.apply transform_t.identity.t)
        (blocked_map.m_T_w_.apply (example_cloud_api.getMean ⟨[⟨11 / 10, 1 / 10, 1 / 10⟩]⟩))
        blocked_map.bundle_resolution_) = some [⟨0, 0, 0⟩, ⟨1, 0, 0⟩] ∧
    marked_count hit_api example_model example_model
      (toBundleIndex blocked_map transform_t.identity.t) 1 blocked_map
      [⟨0, 0, 0⟩, ⟨1, 0, 0⟩] = 1 ∧
    (∃ m2 : OccupancyGridmap,
      insertVolumetric hit_api example_cloud_api simple_iterator_t 3 blocked_map
        transform_t.identity [⟨11 / 10, 1 / 10, 1 / 10⟩] example_model example_model = some m2 ∧
      (∀ (k : Fin 8) (i : index_t),
        observed m2 k i
          = observed blocked_map k i
            ++ (if i = storage_index ⟨0, 0, 0⟩ k then [update_t.free_n 1] else [])) ∧
      (m2.bundle_storage_.get ⟨2, 0, 0⟩).isSome = true) ∧
    marked_count hit_api example_model clear_model
      (toBundleIndex blocked_map transform_t.identity.t) 1 blocked_map
      [⟨0, 0, 0⟩, ⟨1, 0, 0⟩] = 2 ∧
    (∃ m3 : OccupancyGridmap,
      insertVolumetric hit_api example_cloud_api simple_iterator_t 3 blocked_map
        transform_t.identity [⟨11 / 10, 1 / 10, 1 / 10⟩] example_model clear_model = some m3 ∧
      (∀ (k : Fin 8) (i : index_t),
        observed m3 k i
          = observed blocked_map k i
            ++ (if i = storage_index ⟨0, 0, 0⟩ k then [update_t.free_n 1] else [])
            ++ (if i = storage_index ⟨1, 0, 0⟩ k then [update_t.free_n 1] else [])
            ++ (if i = storage_index ⟨2, 0, 0⟩ k
                then [update_t.occupied_d ⟨[⟨11 / 10, 1 / 10, 1 / 10⟩]⟩] else [])) ∧
      (m3.bundle_storage_.get ⟨2, 0, 0⟩).isSome = true) := by
  have hmc : marked_count hit_api example_model example_model
      (toBundleIndex blocked_map transform_t.identity.t) 1 blocked_map
      [⟨0, 0, 0⟩, ⟨1, 0, 0⟩] = 1 := by
    rw [blocked_map_start]
    exact blocked_map_marked_count 1 _ _
  have hmc2 : marked_count hit_api example_model clear_model
      (toBundleIndex blocked_map transform_t.identity.t) 1 blocked_map
      [⟨0, 0, 0⟩, ⟨1, 0, 0⟩] = 2 := by
    rw [blocked_map_start]
    exact blocked_map_clear_marked_count
  have hn : example_cloud_api.numOccupied
      ⟨[update_t.occupied ⟨11 / 10, 1 / 10, 1 / 10⟩]⟩ = 1 := rfl
  refine ⟨blocked_map_occupancy_blocker, by decide, ?_, blocked_map_ray_near, hmc, ?_, hmc2, ?_⟩
  · simp only [Storage.keys, blocked_map_entries_near, List.map_cons, List.map_nil]
  · obtain ⟨m2, h1, h2, _, h4, _⟩ :=
      insertVolumetric_lambda_early_exit hit_api example_cloud_api example_model example_model
        simple_iterator_t 3 (toBundleIndex blocked_map transform_t.identity.t)
        (blocked_map.m_T_w_.apply transform_t.identity.t) blocked_map ⟨2, 0, 0⟩
        ⟨[update_t.occupied ⟨11 / 10, 1 / 10, 1 / 10⟩]⟩ ⟨[⟨11 / 10, 1 / 10, 1 / 10⟩]⟩
        [⟨0, 0, 0⟩, ⟨1, 0, 0⟩] blocked_map_reachable rfl blocked_map_ray_near
        (by
          rw [hn, hmc]
          decide)
    rw [hn, hmc] at h2 h4
    refine ⟨m2, ?_, ?_, ?_⟩
    · rw [insertVolumetric_single_entry hit_api example_cloud_api simple_iterator_t 3
        blocked_map transform_t.identity _ example_model example_model ⟨2, 0, 0⟩ _
        blocked_map_entries_near, h1]
    · intro k i
      rw [h2 k i]
      by_cases hi : i = storage_index ⟨0, 0, 0⟩ k
      · simp [hi]
      · simp [hi]
    · apply h4 ⟨1, 0, 0⟩ (by simp)
      rw [blocked_map_start]
      simp [neighbours]
  · obtain ⟨m3, h1, h2, h3⟩ :=
      insertVolumetric_lambda_complete hit_api example_cloud_api example_model clear_model
        simple_iterator_t 3 (toBundleIndex blocked_map transform_t.identity.t)
        (blocked_map.m_T_w_.apply transform_t.identity.t) blocked_map ⟨2, 0, 0⟩
        ⟨[update_t.occupied ⟨11 / 10, 1 / 10, 1 / 10⟩]⟩ ⟨[⟨11 / 10, 1 / 10, 1 / 10⟩]⟩
        [⟨0, 0, 0⟩, ⟨1, 0, 0⟩] blocked_map_reachable rfl blocked_map_ray_near
        (by rw [hn, hmc2]; rfl)
        (by rw [hn, blocked_map_start]; exact blocked_map_clear_endpoint)
    rw [hn] at h2
    refine ⟨m3, ?_, ?_, h3⟩
    · rw [insertVolumetric_single_entry hit_api example_cloud_api simple_iterator_t 3
        blocked_map transform_t.identity _ example_model clear_model ⟨2, 0, 0⟩ _
        blocked_map_entries_near, h1]
    · intro k i
      rw [h2 k i, replicate_countP_pair]
      simp only [decide_eq_true_eq, List.append_assoc]

/-- C13, the worked example: the same occupied bundle `{1, 0, 0}`, and a scan
of the one point (2.1, 0.1, 0.1) in the bundle `{4, 0, 0}`. The ray stops at
`{1, 0, 0}`; the endpoint bundle `{4, 0, 0}` is no neighbour of an examined
bundle and is not allocated after the call. -/
theorem C13_early_exit_allocation_witness :
    Reachable blocked_map ∧
    (fuse_cloud example_cloud_api blocked_map transform_t.identity
      [⟨21 / 10, 1 / 10, 1 / 10⟩]).entries
      = [(⟨4, 0, 0⟩, ⟨[update_t.occupied ⟨21 / 10, 1 / 10, 1 / 10⟩]⟩)] ∧
    hit_api.getDistribution ⟨[update_t.occupied ⟨21 / 10, 1 / 10, 1 / 10⟩]⟩
      = some ⟨[⟨21 / 10, 1 / 10, 1 / 10⟩]⟩ ∧
    traversed simple_iterator_t 5
      (simple_iterator_t.make (blocked_map.m_T_w_.apply transform_t.identity.t)
        (blocked_map.m_T_w_.apply (example_cloud_api.getMean ⟨[⟨21 / 10, 1 / 10, 1 / 10⟩]⟩))
        blocked_map.bundle_resolution_)
      = some [⟨0, 0, 0⟩, ⟨1, 0, 0⟩, ⟨2, 0, 0⟩, ⟨3, 0, 0⟩] ∧
    marked_count hit_api example_model example_model
      (toBundleIndex blocked_map transform_t.identity.t)
      (example_cloud_api.numOccupied ⟨[update_t.occupied ⟨21 / 10, 1 / 10, 1 / 10⟩]⟩)
      blocked_map [⟨0, 0, 0⟩, ⟨1, 0, 0⟩, ⟨2, 0, 0⟩, ⟨3, 0, 0⟩]
      < [(⟨0, 0, 0⟩ : index_t), ⟨1, 0, 0⟩, ⟨2, 0, 0⟩, ⟨3, 0, 0⟩].length ∧
    ∃ m2 : OccupancyGridmap,
      insertVolumetric hit_api example_cloud_api simple_iterator_t 5 blocked_map
        transform_t.identity [⟨21 / 10, 1 / 10, 1 / 10⟩] example_model example_model = some m2 ∧
      (∀ (k : Fin 8) (i : index_t),
        observed m2 k i
          = observed blocked_map k i
            ++ (if i = storage_index ⟨0, 0, 0⟩ k then [update_t.free_n 1] else [])) ∧
      (m2.bundle_storage_.get ⟨0, 0, 0⟩).isSome = true ∧
      (m2.bundle_storage_.get ⟨2, 0, 0⟩).isSome = true ∧
      (blocked_map.bundle_storage_.get ⟨4, 0, 0⟩).isSome = false ∧
      (m2.bundle_storage_.get ⟨4, 0, 0⟩).isSome = false := by
  have hn : example_cloud_api.numOccupied
      ⟨[update_t.occupied ⟨21 / 10, 1 / 10, 1 / 10⟩]⟩ = 1 := rfl
  have hmc : marked_count hit_api example_model example_model
      (toBundleIndex blocked_map transform_t.identity.t)
      (example_cloud_api.numOccupied ⟨[update_t.occupied ⟨21 / 10, 1 / 10, 1 / 10⟩]⟩)
      blocked_map [⟨0, 0, 0⟩, ⟨1, 0, 0⟩, ⟨2, 0, 0⟩, ⟨3, 0, 0⟩] = 1 := by
    rw [blocked_map_start]
    exact blocked_map_marked_count _ _ _
  have hstop : marked_count hit_api example_model example_model
      (toBundleIndex blocked_map transform_t.identity.t)
      (example_cloud_api.numOccupied ⟨[update_t.occupied ⟨21 / 10, 1 / 10, 1 / 10⟩]⟩)
      blocked_map [⟨0, 0, 0⟩, ⟨1, 0, 0⟩, ⟨2, 0, 0⟩, ⟨3, 0, 0⟩]
      < [(⟨0, 0, 0⟩ : index_t), ⟨1, 0, 0⟩, ⟨2, 0, 0⟩, ⟨3, 0, 0⟩].length := by
    rw [hmc]
    decide
  obtain ⟨m2, h1, h2, h3, h4, _, h6⟩ :=
    C13_early_exit_allocation hit_api example_cloud_api example_model example_model
      simple_iterator_t 5 blocked_map transform_t.identity [⟨21 / 10, 1 / 10, 1 / 10⟩]
      ⟨4, 0, 0⟩ ⟨[update_t.occupied ⟨21 / 10, 1 / 10, 1 / 10⟩]⟩ ⟨[⟨21 / 10, 1 / 10, 1 / 10⟩]⟩
      [⟨0, 0, 0⟩, ⟨1, 0, 0⟩, ⟨2, 0, 0⟩, ⟨3, 0, 0⟩] blocked_map_reachable
      blocked_map_entries_far rfl blocked_map_ray_far hstop
  rw [hmc] at h2 h3 h4 h6
  rw [hn] at h2
  rw [blocked_map_start] at h4 h6
  have hbefore : blocked_map.bundle_storage_.get ⟨4, 0, 0⟩ = none := by decide
  refine ⟨blocked_map_reachable, blocked_map_entries_far, rfl, blocked_map_ray_far, hstop,
    m2, h1, ?_, ?_, ?_, by decide, ?_⟩
  · intro k i
    rw [h2 k i]
    by_cases hi : i = storage_index ⟨0, 0, 0⟩ k
    · simp [hi]
    · simp [hi]
  · exact h3 ⟨0, 0, 0⟩ (by simp)
  · exact h4 ⟨1, 0, 0⟩ (by simp) ⟨2, 0, 0⟩ (by simp [neighbours])
  · rw [h6 hbefore (by simp) (by
      intro r hr
      simp only [List.take_succ_cons, List.take_zero, List.mem_cons, List.mem_singleton,
        List.not_mem_nil, or_false] at hr
      rcases hr with rfl | rfl <;> simp [neighbours])]
    rfl

/-! ## C19: no operation removes a bundle or an accumulator -/

theorem grows_add (I : line_iterator_t) (fuel : Nat) (m m2 : OccupancyGridmap)
    (start_p end_p : point_t) (h : add I fuel m start_p end_p = some m2) : grows m m2 :=
  grows_trans (grows_updateOccupied m _ end_p) (grows_add_loop I fuel _ _ _ h)

theorem grows_insert (api : accumulator_api) (capi : cloud_api) (I : line_iterator_t)
    (fuel : Nat) (m m2 : OccupancyGridmap) (origin : transform_t) (points : List point_t)
    (h : insert api capi I fuel m origin points = some m2) : grows m m2 :=
  grows_traverse_entries _
    (fun m1 bi d m3 h3 => grows_insert_lambda api capi I fuel _ m1 bi d m3 h3) _ m m2 h

theorem grows_insertVolumetric (api : accumulator_api) (capi : cloud_api)
    (I : line_iterator_t) (fuel : Nat) (m m2 : OccupancyGridmap) (origin : transform_t)
    (points : List point_t) (ivm ivm_visibility : inverse_sensor_model_t)
    (h : insertVolumetric api capi I fuel m origin points ivm ivm_visibility = some m2) :
    grows m m2 :=
  grows_traverse_entries _
    (fun m1 bi d m3 h3 =>
      grows_insertVolumetric_lambda api capi ivm ivm_visibility I fuel _ _ m1 bi d m3 h3)
    _ m m2 h

theorem sample_snd (api : accumulator_api) (m : OccupancyGridmap) (p : point_t)
    (ivm : inverse_sensor_model_t) : (sample api m p ivm).2 = m := by
  cases h : m.bundle_storage_.get (toBundleIndex m p) <;> simp only [sample, h]

theorem sampleNonNormalized_snd (api : accumulator_api) (m : OccupancyGridmap) (p : point_t)
    (ivm : inverse_sensor_model_t) : (sampleNonNormalized api m p ivm).2 = m := by
  cases h : m.bundle_storage_.get (toBundleIndex m p) <;> simp only [sampleNonNormalized, h]

/-- C19: for every map state `m`, whatever the accumulator interface, the
iterator and the arguments: the map after `add`, `insert`, `insertVolumetric`,
`getDistributionBundle`, `sample` and `sampleNonNormalized` holds everything
`m` holds. Every bundle index allocated in `m` is allocated after the call and
its Bundle has the same 8 (lattice, storage index) pointers, and every storage
index that has an accumulator in a Corner Lattice of `m` has one in that
lattice after the call. For the three members that run a ray iterator this is
said of the map they return with. -/
theorem C19_map_only_grows (api : accumulator_api) (capi : cloud_api) (I : line_iterator_t)
    (fuel : Nat) (m : OccupancyGridmap) (start_p end_p p : point_t) (origin : transform_t)
    (points : List point_t) (ivm ivm_visibility : inverse_sensor_model_t) (bi : index_t) :
    (∀ m2, add I fuel m start_p end_p = some m2 → grows m m2) ∧
    (∀ m2, insert api capi I fuel m origin points = some m2 → grows m m2) ∧
    (∀ m2, insertVolumetric api capi I fuel m origin points ivm ivm_visibility = some m2 →
      grows m m2) ∧
    grows m (getDistributionBundle m bi).1 ∧
    grows m (sample api m p ivm).2 ∧
    grows m (sampleNonNormalized api m p ivm).2 :=
  ⟨fun m2 h => grows_add I fuel m m2 start_p end_p h,
   fun m2 h => grows_insert api capi I fuel m m2 origin points h,
   fun m2 h => grows_insertVolumetric api capi I fuel m m2 origin points ivm ivm_visibility h,
   grows_getAllocate m bi,
   by rw [sample_snd]; exact grows_refl m,
   by rw [sampleNonNormalized_snd]; exact grows_refl m⟩

theorem blocked_map_add_returns :
    ∃ m2, add simple_iterator_t 3 blocked_map ⟨0, 0, 0⟩ ⟨11 / 10, 1 / 10, 1 / 10⟩ = some m2 := by
  rw [add_eq]
  have h := blocked_map_ray_near
  have hmean : example_cloud_api.getMean ⟨[⟨11 / 10, 1 / 10, 1 / 10⟩]⟩
      = ⟨11 / 10, 1 / 10, 1 / 10⟩ := by
    simp [example_cloud_api]
  have ht : transform_t.identity.t = ⟨0, 0, 0⟩ := rfl
  rw [hmean, ht] at h
  rw [h]
  exact ⟨_, rfl⟩

theorem blocked_map_insert_returns :
    ∃ m2, insert hit_api example_cloud_api simple_iterator_t 3 blocked_map
      transform_t.identity [⟨11 / 10, 1 / 10, 1 / 10⟩] = some m2 := by
  refine ⟨_, insert_eq hit_api example_cloud_api simple_iterator_t 3 blocked_map
    transform_t.identity [⟨11 / 10, 1 / 10, 1 / 10⟩] ?_⟩
  intro e he g hg
  rw [blocked_map_entries_near, List.mem_singleton] at he
  subst he
  have hg2 : g = ⟨[⟨11 / 10, 1 / 10, 1 / 10⟩]⟩ := by
    have : hit_api.getDistribution ⟨[update_t.occupied ⟨11 / 10, 1 / 10, 1 / 10⟩]⟩
        = some ⟨[⟨11 / 10, 1 / 10, 1 / 10⟩]⟩ := rfl
    rw [this] at hg
    exact (Option.some.inj hg).symm
  subst hg2
  obtain ⟨n, hn, hd⟩ : ∃ n : Nat, n < 3 ∧ simple_iterator_t.done (simple_iterator_t.next^[n]
      (simple_iterator_t.make (blocked_map.m_T_w_.apply transform_t.identity.t)
        (blocked_map.m_T_w_.apply (example_cloud_api.getMean ⟨[⟨11 / 10, 1 / 10, 1 / 10⟩]⟩))
        blocked_map.bundle_resolution_)) = true := by
    refine ⟨2, by decide, ?_⟩
    have hmake : simple_iterator_t.make (blocked_map.m_T_w_.apply transform_t.identity.t)
        (blocked_map.m_T_w_.apply (example_cloud_api.getMean ⟨[⟨11 / 10, 1 / 10, 1 / 10⟩]⟩))
        blocked_map.bundle_resolution_ = ((⟨0, 0, 0⟩, ⟨2, 0, 0⟩) : index_t × index_t) := by
      rw [blocked_map_m_T_w_apply, blocked_map_m_T_w_apply, blocked_map_bundle_resolution]
      simp only [simple_iterator_t, example_cloud_api, transform_t.identity, List.map_cons,
        List.map_nil, List.sum_cons, List.sum_nil, List.length_cons, List.length_nil]
      have e1 : Int.floor (((11 / 10 + 0) / ((0 + 1 : ℕ) : ℚ)) / (1 / 2)) = 2 := by
        rw [Int.floor_eq_iff]; norm_num
      have e2 : Int.floor (((1 / 10 + 0) / ((0 + 1 : ℕ) : ℚ)) / (1 / 2)) = 0 := by
        rw [Int.floor_eq_iff]; norm_num
      have e3 : Int.floor ((0 : ℚ) / (1 / 2)) = 0 := by norm_num
      rw [e1, e2, e3]
    rw [hmake]
    decide
  exact ⟨n, hn, hd⟩

theorem blocked_map_insertVolumetric_returns :
    ∃ m2, insertVolumetric hit_api example_cloud_api simple_iterator_t 3 blocked_map
      transform_t.identity [⟨11 / 10, 1 / 10, 1 / 10⟩] example_model example_model
      = some m2 := by
  obtain ⟨steps, r, h1, _⟩ :=
    insertVolumetric_loop_spec hit_api example_model example_model simple_iterator_t
      (toBundleIndex blocked_map transform_t.identity.t)
      (example_cloud_api.numOccupied ⟨[update_t.occupied ⟨11 / 10, 1 / 10, 1 / 10⟩]⟩) 3 _ 1
      blocked_map _ blocked_map_ray_near
  have hg : hit_api.getDistribution ⟨[update_t.occupied ⟨11 / 10, 1 / 10, 1 / 10⟩]⟩
      = some ⟨[⟨11 / 10, 1 / 10, 1 / 10⟩]⟩ := rfl
  rw [insertVolumetric_single_entry hit_api example_cloud_api simple_iterator_t 3
    blocked_map transform_t.identity _ example_model example_model ⟨2, 0, 0⟩ _
    blocked_map_entries_near]
  simp only [insertVolumetric_lambda, hg, h1]
  cases r with
  | none => exact ⟨_, rfl⟩
  | some v =>
    simp only []
    split <;> exact ⟨_, rfl⟩

/-- C19, the worked example: on the map with the occupied bundle `{1, 0, 0}`,
`add`, `insert` and `insertVolumetric` towards (1.1, 0.1, 0.1) each return,
with a map that holds everything the map held before. -/
theorem C19_map_only_grows_witness :
    (∃ m2, add simple_iterator_t 3 blocked_map ⟨0, 0, 0⟩ ⟨11 / 10, 1 / 10, 1 / 10⟩ = some m2 ∧
      grows blocked_map m2) ∧
    (∃ m2, insert hit_api example_cloud_api simple_iterator_t 3 blocked_map
        transform_t.identity [⟨11 / 10, 1 / 10, 1 / 10⟩] = some m2 ∧
      grows blocked_map m2) ∧
    (∃ m2, insertVolumetric hit_api example_cloud_api simple_iterator_t 3 blocked_map
        transform_t.identity [⟨11 / 10, 1 / 10, 1 / 10⟩] example_model example_model = some m2 ∧
      grows blocked_map m2) ∧
    grows blocked_map (getDistributionBundle blocked_map ⟨2, 0, 0⟩).1 ∧
    grows blocked_map (sample hit_api blocked_map ⟨3 / 5, 1 / 10, 1 / 10⟩ example_model).2 ∧
    grows blocked_map
      (sampleNonNormalized hit_api blocked_map ⟨3 / 5, 1 / 10, 1 / 10⟩ example_model).2 := by
  have h := C19_map_only_grows hit_api example_cloud_api simple_iterator_t 3 blocked_map
    ⟨0, 0, 0⟩ ⟨11 / 10, 1 / 10, 1 / 10⟩ ⟨3 / 5, 1 / 10, 1 / 10⟩ transform_t.identity
    [⟨11 / 10, 1 / 10, 1 / 10⟩] example_model example_model ⟨2, 0, 0⟩
  obtain ⟨a, ha⟩ := blocked_map_add_returns
  obtain ⟨b, hb⟩ := blocked_map_insert_returns
  obtain ⟨c, hc⟩ := blocked_map_insertVolumetric_returns
  exact ⟨⟨a, ha, h.1 a ha⟩, ⟨b, hb, h.2.1 b hb⟩, ⟨c, hc, h.2.2.1 c hc⟩, h.2.2.2⟩

/-! ## C20: what the accessors change -/

/-- C20, the input on which the claim fails: on the freshly constructed
`unit_map` the call `getDistributionBundle({0, 5, 0})` allocates. Bundle Storage
holds the bundle `{0, 5, 0}` afterwards, Corner Lattice 0 holds an accumulator
at the storage index `{0, 2, 0}`, and the Bounding Index changes from
`({INT_MAX, INT_MAX, 0}, {INT_MIN, INT_MIN, 0})` to `({0, 5, 0}, {0, 5, 0})`. -/
theorem C20_getDistributionBundle_allocates_counterexample :
    (unit_map.bundle_storage_.get ⟨0, 5, 0⟩).isSome = false ∧
    ((getDistributionBundle unit_map ⟨0, 5, 0⟩).1.bundle_storage_.get ⟨0, 5, 0⟩).isSome = true ∧
    ((unit_map.storage_ 0).get ⟨0, 2, 0⟩).isSome = false ∧
    (((getDistributionBundle unit_map ⟨0, 5, 0⟩).1.storage_ 0).get ⟨0, 2, 0⟩).isSome = true ∧
    unit_map.min_index_ = ⟨INT_MAX, INT_MAX, 0⟩ ∧
    unit_map.max_index_ = ⟨INT_MIN, INT_MIN, 0⟩ ∧
    (getDistributionBundle unit_map ⟨0, 5, 0⟩).1.min_index_ = ⟨0, 5, 0⟩ ∧
    (getDistributionBundle unit_map ⟨0, 5, 0⟩).1.max_index_ = ⟨0, 5, 0⟩ := by
  refine ⟨by decide, by decide, by decide, by decide, by decide, by decide, by decide,
    by decide⟩

/-- C20, amended: for every map state `m`, bundle index `bi` and vector `out`.
`getBundleIndices(out)` appends the allocated bundle indices to `out` and
`getStorages()` returns the eight Corner Lattices, and both leave the map
exactly as it was. `getDistributionBundle(bi)` leaves the map exactly as it was
when a bundle is stored for `bi`, and returns that bundle. When none is stored
it allocates: afterwards Bundle Storage holds for `bi` the returned bundle,
whose corner `k` points into Corner Lattice `k` at `storage_index bi k`, and is
unchanged at every other index; Corner Lattice `k` holds a default accumulator
at `storage_index bi k` if it held none and is otherwise unchanged; and the
Bounding Index is `std::min(min_index_, bi)`, `std::max(max_index_, bi)`. -/
theorem C20_accessors_frame (m : OccupancyGridmap) (bi : index_t) (out : List index_t) :
    (getBundleIndices m out).2 = m ∧
    (getBundleIndices m out).1 = out ++ m.bundle_storage_.keys ∧
    (getStorages m).2 = m ∧
    (getStorages m).1 = m.storage_ ∧
    (∀ b, m.bundle_storage_.get bi = some b → getDistributionBundle m bi = (m, b)) ∧
    (m.bundle_storage_.get bi = none →
      (getDistributionBundle m bi).1.bundle_storage_.get bi
        = some (getDistributionBundle m bi).2 ∧
      (∀ k : Fin 8, (getDistributionBundle m bi).2 k = some ⟨k, storage_index bi k⟩) ∧
      (∀ bj, bj ≠ bi →
        (getDistributionBundle m bi).1.bundle_storage_.get bj = m.bundle_storage_.get bj) ∧
      (∀ (k : Fin 8) (j : index_t),
        ((getDistributionBundle m bi).1.storage_ k).get j
          = if j = storage_index bi k then some (((m.storage_ k).get j).getD default)
            else (m.storage_ k).get j) ∧
      (getDistributionBundle m bi).1.min_index_ = std_min m.min_index_ bi ∧
      (getDistributionBundle m bi).1.max_index_ = std_max m.max_index_ bi) := by
  refine ⟨rfl, rfl, rfl, rfl, fun b h => getAllocate_of_some h, fun h => ?_⟩
  refine ⟨getAllocate_get m bi, ?_, fun bj hj => getAllocate_get_ne m hj, ?_, ?_, ?_⟩
  · intro k
    show (getAllocate m bi).2 k = _
    rw [getAllocate_of_none h, allocate_bundle_snd]
  · intro k j
    show ((getAllocate m bi).1.storage_ k).get j = _
    rw [getAllocate_of_none h, allocate_bundle_storage, getAllocate_storage_get]
    by_cases hj : j = storage_index bi k
    · subst hj; simp
    · simp [hj]
  · show (getAllocate m bi).1.min_index_ = _
    rw [getAllocate_of_none h, allocate_bundle_min_index]
  · show (getAllocate m bi).1.max_index_ = _
    rw [getAllocate_of_none h, allocate_bundle_max_index]

/-- C20, the worked example: on the map that holds the bundle `{0, 5, 0}` the
three accessors leave the map as it is; `getDistributionBundle({1, 0, 0})`, for
which no bundle is stored, allocates it and keeps the bundle `{0, 5, 0}`. -/
theorem C20_accessors_frame_witness :
    (getBundleIndices one_bundle_map []).2 = one_bundle_map ∧
    (getBundleIndices one_bundle_map []).1 = [⟨0, 5, 0⟩] ∧
    (getStorages one_bundle_map).2 = one_bundle_map ∧
    (one_bundle_map.bundle_storage_.get ⟨0, 5, 0⟩).isSome = true ∧
    (getDistributionBundle one_bundle_map ⟨0, 5, 0⟩).1 = one_bundle_map ∧
    one_bundle_map.bundle_storage_.get ⟨1, 0, 0⟩ = none ∧
    ((getDistributionBundle one_bundle_map ⟨1, 0, 0⟩).1.bundle_storage_.get ⟨1, 0, 0⟩).isSome
      = true ∧
    (getDistributionBundle one_bundle_map ⟨1, 0, 0⟩).1.bundle_storage_.get ⟨0, 5, 0⟩
      = one_bundle_map.bundle_storage_.get ⟨0, 5, 0⟩ := by
  have h1 := C20_accessors_frame one_bundle_map ⟨0, 5, 0⟩ []
  have h2 := C20_accessors_frame one_bundle_map ⟨1, 0, 0⟩ []
  have hsome : (one_bundle_map.bundle_storage_.get ⟨0, 5, 0⟩).isSome = true := by decide
  have hnone : one_bundle_map.bundle_storage_.get ⟨1, 0, 0⟩ = none := by decide
  obtain ⟨b, hb⟩ := Option.isSome_iff_exists.1 hsome
  obtain ⟨g1, g2, g3, _, g5, _⟩ := h1
  obtain ⟨k1, _, k3, _⟩ := h2.2.2.2.2.2 hnone
  refine ⟨g1, ?_, g3, hsome, ?_, hnone, ?_, k3 ⟨0, 5, 0⟩ (by decide)⟩
  · rw [g2]; decide
  · rw [g5 b hb]
  · rw [k1]; rfl

/-! ## The members set by the constructor -/

theorem call_through_resolution (m : OccupancyGridmap) (ptr : Option distribution_ref)
    (f : distribution_t → distribution_t) :
    (call_through m ptr f).resolution_ = m.resolution_ := by
  cases ptr <;> rfl

theorem call_through_w_T_m (m : OccupancyGridmap) (ptr : Option distribution_ref)
    (f : distribution_t → distribution_t) :
    (call_through m ptr f).w_T_m_ = m.w_T_m_ := by
  cases ptr <;> rfl

theorem update_corners_resolution (m : OccupancyGridmap) (b : distribution_bundle_t)
    (f : distribution_t → distribution_t) :
    (update_corners m b f).resolution_ = m.resolution_ := by
  simp only [update_corners, call_through_resolution]

theorem update_corners_w_T_m (m : OccupancyGridmap) (b : distribution_bundle_t)
    (f : distribution_t → distribution_t) :
    (update_corners m b f).w_T_m_ = m.w_T_m_ := by
  simp only [update_corners, call_through_w_T_m]

theorem getAllocate_corner_resolution (m : OccupancyGridmap) (k : Fin 8) (i : index_t) :
    (getAllocate_corner m k i).1.resolution_ = m.resolution_ := rfl

theorem getAllocate_corner_w_T_m (m : OccupancyGridmap) (k : Fin 8) (i : index_t) :
    (getAllocate_corner m k i).1.w_T_m_ = m.w_T_m_ := rfl

theorem allocate_bundle_resolution (m : OccupancyGridmap) (bi : index_t) :
    (allocate_bundle m bi).1.resolution_ = m.resolution_ := by
  simp only [allocate_bundle, updateIndices, getAllocate_corner_resolution]

theorem allocate_bundle_w_T_m (m : OccupancyGridmap) (bi : index_t) :
    (allocate_bundle m bi).1.w_T_m_ = m.w_T_m_ := by
  simp only [allocate_bundle, updateIndices, getAllocate_corner_w_T_m]

theorem getAllocate_resolution (m : OccupancyGridmap) (bi : index_t) :
    (getAllocate m bi).1.resolution_ = m.resolution_ := by
  cases hg : m.bundle_storage_.get bi with
  | some b => rw [getAllocate_of_some hg]
  | none => rw [getAllocate_of_none hg, allocate_bundle_resolution]

theorem getAllocate_w_T_m (m : OccupancyGridmap) (bi : index_t) :
    (getAllocate m bi).1.w_T_m_ = m.w_T_m_ := by
  cases hg : m.bundle_storage_.get bi with
  | some b => rw [getAllocate_of_some hg]
  | none => rw [getAllocate_of_none hg, allocate_bundle_w_T_m]

theorem run_step_resolution (m : OccupancyGridmap) (s : step_t) :
    (run_step m s).resolution_ = m.resolution_ := by
  cases s with
  | allocate bi => exact getAllocate_resolution m bi
  | update bi u => simp only [run_step]; rw [update_corners_resolution, getAllocate_resolution]

theorem run_step_w_T_m (m : OccupancyGridmap) (s : step_t) :
    (run_step m s).w_T_m_ = m.w_T_m_ := by
  cases s with
  | allocate bi => exact getAllocate_w_T_m m bi
  | update bi u => simp only [run_step]; rw [update_corners_w_T_m, getAllocate_w_T_m]

theorem Reachable.rec_run_step {P : OccupancyGridmap → Prop}
    (hnew : ∀ origin resolution, P (OccupancyGridmap.new origin resolution))
    (hstep : ∀ m s, P m → P (run_step m s)) {m : OccupancyGridmap} (h : Reachable m) : P m := by
  induction h with
  | new origin resolution => exact hnew origin resolution
  | getAllocate bi _ ih => exact hstep _ (step_t.allocate bi) ih
  | updateFree bi _ ih => exact hstep _ (step_t.update bi update_t.free) ih
  | updateFree_n bi n _ ih => exact hstep _ (step_t.update bi (update_t.free_n n)) ih
  | updateOccupied bi p _ ih => exact hstep _ (step_t.update bi (update_t.occupied p)) ih
  | updateOccupied_d bi d _ ih => exact hstep _ (step_t.update bi (update_t.occupied_d d)) ih

theorem Reachable.bundle_resolution_eq {m : OccupancyGridmap} (h : Reachable m) :
    m.bundle_resolution_ = m.resolution_ / 2 := by
  refine Reachable.rec_run_step (P := fun m => m.bundle_resolution_ = m.resolution_ / 2)
    ?_ ?_ h
  · intro origin resolution
    simp only [OccupancyGridmap.new]
    norm_num
    ring
  · intro m s hm
    rw [run_step_bundle_resolution, run_step_resolution]
    exact hm

theorem Reachable.bundle_resolution_inv_eq {m : OccupancyGridmap} (h : Reachable m) :
    m.bundle_resolution_inv_ = 1 / m.bundle_resolution_ := by
  refine Reachable.rec_run_step
    (P := fun m => m.bundle_resolution_inv_ = 1 / m.bundle_resolution_) ?_ ?_ h
  · intro origin resolution
    rfl
  · intro m s hm
    rw [run_step_bundle_resolution_inv, run_step_bundle_resolution]
    exact hm

theorem Reachable.m_T_w_eq {m : OccupancyGridmap} (h : Reachable m) :
    m.m_T_w_ = m.w_T_m_.inverse := by
  refine Reachable.rec_run_step (P := fun m => m.m_T_w_ = m.w_T_m_.inverse) ?_ ?_ h
  · intro origin resolution
    rfl
  · intro m s hm
    rw [run_step_m_T_w, run_step_w_T_m]
    exact hm

theorem one_bundle_map_bundle_resolution : one_bundle_map.bundle_resolution_ = 1 / 2 := by
  rw [one_bundle_map, getDistributionBundle, getAllocate_bundle_resolution,
    unit_map_bundle_resolution]

theorem transform_t.inverse_apply (T : transform_t) (h : T.rigid) (q : point_t) :
    T.inverse.apply (T.apply q) = q := by
  obtain ⟨hxx, hyy, hzz, hxy, hxz, hyz⟩ := h
  cases q with
  | mk x y z =>
    simp only [transform_t.apply, transform_t.inverse, point_t.mk.injEq]
    refine ⟨?_, ?_, ?_⟩
    · linear_combination x * hxx + y * hxy + z * hxz
    · linear_combination x * hxy + y * hyy + z * hyz
    · linear_combination x * hxz + y * hyz + z * hzz

theorem transform2d_inverse_apply (T : cslibs_ndt_2d.transform_t) (h : T.rigid)
    (q : cslibs_ndt_2d.point_t) : T.inverse.apply (T.apply q) = q := by
  unfold cslibs_ndt_2d.transform_t.rigid at h
  cases q with
  | mk x y =>
    simp only [cslibs_ndt_2d.transform_t.apply, cslibs_ndt_2d.transform_t.inverse,
      cslibs_ndt_2d.point_t.mk.injEq]
    refine ⟨?_, ?_⟩
    · linear_combination x * h
    · linear_combination y * h

theorem floor_index_mul (i : Int) (r : ℚ) (hr : r ≠ 0) :
    Int.floor ((i : ℚ) * r * (1 / r)) = i := by
  rw [mul_one_div, mul_div_assoc, div_self hr, mul_one]
  exact Int.floor_intCast i

theorem toIndex_fromIndex (origin : cslibs_ndt_2d.transform_t) (resolution : ℚ)
    (size : cslibs_ndt_2d.size_t)
    (storage : List (cslibs_ndt_2d.index_t × cslibs_ndt_2d.distribution_t))
    (horigin : origin.rigid) (hres : resolution ≠ 0) (i : cslibs_ndt_2d.index_t) :
    cslibs_ndt_2d.toIndex { cslibs_ndt_2d.Gridmap.new origin resolution size with
        storage_ := storage }
      (cslibs_ndt_2d.fromIndex { cslibs_ndt_2d.Gridmap.new origin resolution size with
        storage_ := storage } i) = i := by
  simp only [cslibs_ndt_2d.toIndex, cslibs_ndt_2d.fromIndex, cslibs_ndt_2d.Gridmap.new,
    transform2d_inverse_apply origin horigin, floor_index_mul _ _ hres]

theorem toBundleIndex_fromIndex (m : OccupancyGridmap) (hm : Reachable m)
    (hrigid : m.w_T_m_.rigid) (hres : m.resolution_ ≠ 0) (i : index_t) :
    toBundleIndex m (fromIndex m i) = i := by
  have hbr : m.bundle_resolution_ ≠ 0 := by
    rw [hm.bundle_resolution_eq]
    exact div_ne_zero hres (by norm_num)
  simp only [toBundleIndex, fromIndex, hm.m_T_w_eq, transform_t.inverse_apply _ hrigid,
    hm.bundle_resolution_inv_eq, floor_index_mul _ _ hbr]

/-- C17: in exact arithmetic, for a rigid origin transform and a resolution
that is not 0. For the 2D map `flat::Gridmap` constructed with this origin and
resolution, whatever its storage holds: `toIndex(fromIndex(i)) = i` for every
index `i`, hence `toIndex(fromIndex(toIndex(p))) = toIndex(p)` for every point
`p`. For the 3D map reached from the constructor, with `fromIndex` the
map-to-world transform applied to the bundle index times the bundle
resolution: `toBundleIndex(fromIndex(i)) = i` for every bundle index `i`, hence
`toBundleIndex(fromIndex(toBundleIndex(p))) = toBundleIndex(p)`. -/
theorem C17_round_trip (origin : cslibs_ndt_2d.transform_t) (resolution : ℚ)
    (size : cslibs_ndt_2d.size_t)
    (storage : List (cslibs_ndt_2d.index_t × cslibs_ndt_2d.distribution_t))
    (horigin : origin.rigid) (hres : resolution ≠ 0)
    (m : OccupancyGridmap) (hm : Reachable m) (hrigid : m.w_T_m_.rigid)
    (hres3 : m.resolution_ ≠ 0) :
    (∀ i : cslibs_ndt_2d.index_t,
      cslibs_ndt_2d.toIndex { cslibs_ndt_2d.Gridmap.new origin resolution size with
          storage_ := storage }
        (cslibs_ndt_2d.fromIndex { cslibs_ndt_2d.Gridmap.new origin resolution size with
          storage_ := storage } i) = i) ∧
    (∀ p : cslibs_ndt_2d.point_t,
      cslibs_ndt_2d.toIndex { cslibs_ndt_2d.Gridmap.new origin resolution size with
          storage_ := storage }
        (cslibs_ndt_2d.fromIndex { cslibs_ndt_2d.Gridmap.new origin resolution size with
            storage_ := storage }
          (cslibs_ndt_2d.toIndex { cslibs_ndt_2d.Gridmap.new origin resolution size with
            storage_ := storage } p))
        = cslibs_ndt_2d.toIndex { cslibs_ndt_2d.Gridmap.new origin resolution size with
            storage_ := storage } p) ∧
    (∀ i : index_t, toBundleIndex m (fromIndex m i) = i) ∧
    (∀ p : point_t,
      toBundleIndex m (fromIndex m (toBundleIndex m p)) = toBundleIndex m p) :=
  ⟨fun i => toIndex_fromIndex origin resolution size storage horigin hres i,
   fun _ => toIndex_fromIndex origin resolution size storage horigin hres _,
   fun i => toBundleIndex_fromIndex m hm hrigid hres3 i,
   fun _ => toBundleIndex_fromIndex m hm hrigid hres3 _⟩

/-- C17, the worked example: the 2D map at the pose with cosine 3/5, sine 4/5
and translation (1, 2), resolution 1/2, and the 3D `unit_map`. -/
theorem C17_round_trip_witness :
    cslibs_ndt_2d.transform_t.rigid ⟨3 / 5, 4 / 5, ⟨1, 2⟩⟩ ∧ (1 / 2 : ℚ) ≠ 0 ∧
    Reachable unit_map ∧ unit_map.w_T_m_.rigid ∧ unit_map.resolution_ ≠ 0 ∧
    cslibs_ndt_2d.toIndex (cslibs_ndt_2d.Gridmap.new ⟨3 / 5, 4 / 5, ⟨1, 2⟩⟩ (1 / 2) ⟨10, 10⟩)
      (cslibs_ndt_2d.fromIndex
        (cslibs_ndt_2d.Gridmap.new ⟨3 / 5, 4 / 5, ⟨1, 2⟩⟩ (1 / 2) ⟨10, 10⟩) ⟨3, -2⟩) = ⟨3, -2⟩ ∧
    cslibs_ndt_2d.fromIndex
      (cslibs_ndt_2d.Gridmap.new ⟨3 / 5, 4 / 5, ⟨1, 2⟩⟩ (1 / 2) ⟨10, 10⟩) ⟨3, -2⟩
      = ⟨27 / 10, 13 / 5⟩ ∧
    toBundleIndex unit_map (fromIndex unit_map ⟨-1, 1, 0⟩) = ⟨-1, 1, 0⟩ ∧
    fromIndex unit_map ⟨-1, 1, 0⟩ = ⟨-1 / 2, 1 / 2, 0⟩ := by
  have h1 : cslibs_ndt_2d.transform_t.rigid ⟨3 / 5, 4 / 5, ⟨1, 2⟩⟩ := by
    unfold cslibs_ndt_2d.transform_t.rigid
    norm_num
  have h2 : (1 / 2 : ℚ) ≠ 0 := by norm_num
  have h3 : unit_map.w_T_m_.rigid := by
    simp only [transform_t.rigid, unit_map, OccupancyGridmap.new, transform_t.identity]
    norm_num
  have h4 : unit_map.resolution_ ≠ 0 := by
    simp only [unit_map, OccupancyGridmap.new]
    norm_num
  have h := C17_round_trip ⟨3 / 5, 4 / 5, ⟨1, 2⟩⟩ (1 / 2) ⟨10, 10⟩ [] h1 h2 unit_map
    unit_map_reachable h3 h4
  refine ⟨h1, h2, unit_map_reachable, h3, h4, h.1 ⟨3, -2⟩, ?_, h.2.2.1 ⟨-1, 1, 0⟩, ?_⟩
  · simp only [cslibs_ndt_2d.fromIndex, cslibs_ndt_2d.Gridmap.new,
      cslibs_ndt_2d.transform_t.apply, cslibs_ndt_2d.point_t.mk.injEq]
    norm_num
  · simp only [fromIndex, unit_map, OccupancyGridmap.new, transform_t.identity,
      transform_t.apply, point_t.mk.injEq]
    norm_num

/-! ## The calls behind the public members -/

theorem reaches_refl (m : OccupancyGridmap) : reaches m m := ⟨[], rfl⟩

theorem reaches_trans {m1 m2 m3 : OccupancyGridmap} (h12 : reaches m1 m2)
    (h23 : reaches m2 m3) : reaches m1 m3 := by
  obtain ⟨s1, rfl⟩ := h12
  obtain ⟨s2, rfl⟩ := h23
  exact ⟨s1 ++ s2, (run_steps_append m1 s1 s2).symm⟩

theorem reaches_run_step (m : OccupancyGridmap) (s : step_t) : reaches m (run_step m s) :=
  ⟨[s], rfl⟩

theorem reaches_current_visibility (api : accumulator_api)
    (ivm ivm_visibility : inverse_sensor_model_t) (start_bi : index_t) (m : OccupancyGridmap)
    (bi : index_t) : reaches m (current_visibility api ivm ivm_visibility start_bi m bi).2 :=
  ⟨_, current_visibility_snd api ivm ivm_visibility start_bi m bi⟩

theorem reaches_add_loop (I : line_iterator_t) (fuel : Nat) :
    ∀ (it : I.state) (m m2 : OccupancyGridmap), add_loop I fuel it m = some m2 →
      reaches m m2 := by
  induction fuel with
  | zero => intro it m m2 h; simp [add_loop] at h
  | succ fuel ih =>
    intro it m m2 h
    by_cases hd : I.done it = true
    · simp only [add_loop, hd, if_true, Option.some.injEq] at h
      subst h; exact reaches_refl m
    · simp only [add_loop, hd, if_false, Bool.false_eq_true] at h
      exact reaches_trans (reaches_run_step m (step_t.update _ update_t.free)) (ih _ _ _ h)

theorem reaches_add (I : line_iterator_t) (fuel : Nat) (m m2 : OccupancyGridmap)
    (start_p end_p : point_t) (h : add I fuel m start_p end_p = some m2) : reaches m m2 :=
  reaches_trans (reaches_run_step m (step_t.update _ (update_t.occupied end_p)))
    (reaches_add_loop I fuel _ _ _ h)

theorem reaches_insert_loop (I : line_iterator_t) (n : Nat) (fuel : Nat) :
    ∀ (it : I.state) (m m2 : OccupancyGridmap),
      insert_loop I n fuel it m = some m2 → reaches m m2 := by
  induction fuel with
  | zero => intro it m m2 h; simp [insert_loop] at h
  | succ fuel ih =>
    intro it m m2 h
    by_cases hd : I.done it = true
    · simp only [insert_loop, hd, if_true, Option.some.injEq] at h
      subst h; exact reaches_refl m
    · simp only [insert_loop, hd, if_false, Bool.false_eq_true] at h
      exact reaches_trans (reaches_run_step m (step_t.update _ (update_t.free_n n)))
        (ih _ _ _ h)

theorem reaches_traverse_entries {α : Type}
    (f : OccupancyGridmap → index_t → α → Option OccupancyGridmap)
    (hf : ∀ m bi a m2, f m bi a = some m2 → reaches m m2) (es : List (index_t × α)) :
    ∀ m m2 : OccupancyGridmap, traverse_entries f es m = some m2 → reaches m m2 := by
  induction es with
  | nil =>
    intro m m2 h
    simp only [traverse_entries, Option.some.injEq] at h
    subst h; exact reaches_refl m
  | cons e es ih =>
    intro m m2 h
    simp only [traverse_entries] at h
    cases hfe : f m e.1 e.2 with
    | none => rw [hfe] at h; simp at h
    | some m1 =>
      rw [hfe] at h
      exact reaches_trans (hf m e.1 e.2 m1 hfe) (ih m1 m2 h)

theorem reaches_insert_lambda (api : accumulator_api) (capi : cloud_api) (I : line_iterator_t)
    (fuel : Nat) (start_p : point_t) (m : OccupancyGridmap) (bi : index_t) (d : distribution_t)
    (m2 : OccupancyGridmap) (h : insert_lambda api capi I fuel start_p m bi d = some m2) :
    reaches m m2 := by
  unfold insert_lambda at h
  cases hg : api.getDistribution d with
  | none =>
    simp only [hg, Option.some.injEq] at h
    subst h; exact reaches_refl m
  | some g =>
    simp only [hg] at h
    exact reaches_trans (reaches_run_step m (step_t.update bi (update_t.occupied_d g)))
      (reaches_insert_loop I _ fuel _ _ _ h)

theorem reaches_insert (api : accumulator_api) (capi : cloud_api) (I : line_iterator_t)
    (fuel : Nat) (m m2 : OccupancyGridmap) (origin : transform_t) (points : List point_t)
    (h : insert api capi I fuel m origin points = some m2) : reaches m m2 :=
  reaches_traverse_entries _
    (fun m1 bi d m3 h3 => reaches_insert_lambda api capi I fuel _ m1 bi d m3 h3) _ m m2 h

theorem reaches_insertVolumetric_loop (api : accumulator_api)
    (ivm ivm_visibility : inverse_sensor_model_t) (I : line_iterator_t) (start_bi : index_t)
    (n : Nat) (fuel : Nat) :
    ∀ (it : I.state) (v : ℚ) (m m2 : OccupancyGridmap) (r : Option ℚ),
      insertVolumetric_loop api ivm ivm_visibility I start_bi n fuel it v m = some (m2, r) →
      reaches m m2 := by
  induction fuel with
  | zero => intro it v m m2 r h; simp [insertVolumetric_loop] at h
  | succ fuel ih =>
    intro it v m m2 r h
    by_cases hd : I.done it = true
    · simp only [insertVolumetric_loop, hd, if_true, Option.some.injEq, Prod.mk.injEq] at h
      rw [← h.1]; exact reaches_refl m
    · simp only [insertVolumetric_loop, hd, if_false, Bool.false_eq_true] at h
      split at h
      · simp only [Option.some.injEq, Prod.mk.injEq] at h
        rw [← h.1]
        exact reaches_current_visibility api ivm ivm_visibility start_bi m _
      · exact reaches_trans (reaches_current_visibility api ivm ivm_visibility start_bi m _)
          (reaches_trans (reaches_run_step _ (step_t.update _ (update_t.free_n n)))
            (ih _ _ _ _ _ h))

theorem reaches_insertVolumetric_lambda (api : accumulator_api) (capi : cloud_api)
    (ivm ivm_visibility : inverse_sensor_model_t) (I : line_iterator_t) (fuel : Nat)
    (start_bi : index_t) (start_p : point_t) (m : OccupancyGridmap) (bi : index_t)
    (d : distribution_t) (m2 : OccupancyGridmap)
    (h : insertVolumetric_lambda api capi ivm ivm_visibility I fuel start_bi start_p m bi d
      = some m2) : reaches m m2 := by
  unfold insertVolumetric_lambda at h
  cases hg : api.getDistribution d with
  | none =>
    simp only [hg, Option.some.injEq] at h
    subst h; exact reaches_refl m
  | some g =>
    simp only [hg] at h
    cases hl : insertVolumetric_loop api ivm ivm_visibility I start_bi (capi.numOccupied d) fuel
        (I.make start_p (m.m_T_w_.apply (capi.getMean g)) m.bundle_resolution_) 1 m with
    | none => rw [hl] at h; simp at h
    | some res =>
      obtain ⟨m1, r⟩ := res
      have h1 := reaches_insertVolumetric_loop api ivm ivm_visibility I start_bi _ fuel _ _ _ _ _
        hl
      rw [hl] at h
      cases r with
      | none =>
        simp only [Option.some.injEq] at h
        subst h; exact h1
      | some v =>
        simp only at h
        split at h
        · simp only [Option.some.injEq] at h
          subst h
          exact reaches_trans h1 (reaches_trans
            (reaches_current_visibility api ivm ivm_visibility start_bi m1 bi)
            (reaches_run_step _ (step_t.update bi (update_t.occupied_d g))))
        · simp only [Option.some.injEq] at h
          subst h
          exact reaches_trans h1
            (reaches_current_visibility api ivm ivm_visibility start_bi m1 bi)

theorem reaches_insertVolumetric (api : accumulator_api) (capi : cloud_api)
    (I : line_iterator_t) (fuel : Nat) (m m2 : OccupancyGridmap) (origin : transform_t)
    (points : List point_t) (ivm ivm_visibility : inverse_sensor_model_t)
    (h : insertVolumetric api capi I fuel m origin points ivm ivm_visibility = some m2) :
    reaches m m2 :=
  reaches_traverse_entries _
    (fun m1 bi d m3 h3 =>
      reaches_insertVolumetric_lambda api capi ivm ivm_visibility I fuel _ _ m1 bi d m3 h3)
    _ m m2 h

theorem reaches_reachable {m m2 : OccupancyGridmap} (h : reaches m m2) (hm : Reachable m) :
    Reachable m2 := by
  obtain ⟨steps, rfl⟩ := h
  exact run_steps_reachable steps hm

theorem Reachable.reaches_new {m : OccupancyGridmap} (h : Reachable m) :
    ∃ origin resolution, reaches (OccupancyGridmap.new origin resolution) m := by
  induction h with
  | new origin resolution => exact ⟨origin, resolution, reaches_refl _⟩
  | getAllocate bi _ ih =>
    obtain ⟨o, r, h⟩ := ih
    exact ⟨o, r, reaches_trans h (reaches_run_step _ (step_t.allocate bi))⟩
  | updateFree bi _ ih =>
    obtain ⟨o, r, h⟩ := ih
    exact ⟨o, r, reaches_trans h (reaches_run_step _ (step_t.update bi update_t.free))⟩
  | updateFree_n bi n _ ih =>
    obtain ⟨o, r, h⟩ := ih
    exact ⟨o, r, reaches_trans h (reaches_run_step _ (step_t.update bi (update_t.free_n n)))⟩
  | updateOccupied bi p _ ih =>
    obtain ⟨o, r, h⟩ := ih
    exact ⟨o, r, reaches_trans h (reaches_run_step _ (step_t.update bi (update_t.occupied p)))⟩
  | updateOccupied_d bi d _ ih =>
    obtain ⟨o, r, h⟩ := ih
    exact ⟨o, r,
      reaches_trans h (reaches_run_step _ (step_t.update bi (update_t.occupied_d d)))⟩

theorem run_steps_w_T_m (steps : List step_t) :
    ∀ m : OccupancyGridmap, (run_steps m steps).w_T_m_ = m.w_T_m_ := by
  induction steps with
  | nil => intro m; rfl
  | cons s steps ih => intro m; rw [run_steps_cons, ih, run_step_w_T_m]

/-! ## C28: the freshly constructed map -/

/-- C28: the map constructed from any pose and resolution holds no bundle and
its eight Corner Lattices are empty. Its Bounding Index is
`min_index_ = {INT_MAX, INT_MAX, 0}` and `max_index_ = {INT_MIN, INT_MIN, 0}`:
the initialisers list two values and the z component of both is 0. On this
map `getMin()[2] = 0` and `getMax()[2] = bundle_resolution_`, which is half the
resolution, while the x and y components are the sentinels times the bundle
resolution, `INT_MAX * bundle_resolution_` for `getMin()` and
`(INT_MIN + 1) * bundle_resolution_` for `getMax()`. -/
theorem C28_fresh_map (origin : transform_t) (resolution : ℚ) :
    (OccupancyGridmap.new origin resolution).bundle_storage_.entries = [] ∧
    (∀ k : Fin 8, ((OccupancyGridmap.new origin resolution).storage_ k).entries = []) ∧
    (∀ bi, (OccupancyGridmap.new origin resolution).bundle_storage_.get bi = none) ∧
    (∀ (k : Fin 8) (i : index_t),
      ((OccupancyGridmap.new origin resolution).storage_ k).get i = none) ∧
    (getBundleIndices (OccupancyGridmap.new origin resolution) []).1 = [] ∧
    (OccupancyGridmap.new origin resolution).min_index_ = ⟨INT_MAX, INT_MAX, 0⟩ ∧
    (OccupancyGridmap.new origin resolution).max_index_ = ⟨INT_MIN, INT_MIN, 0⟩ ∧
    (OccupancyGridmap.new origin resolution).bundle_resolution_ = resolution / 2 ∧
    (getMin (OccupancyGridmap.new origin resolution)).z = 0 ∧
    (getMax (OccupancyGridmap.new origin resolution)).z
      = (OccupancyGridmap.new origin resolution).bundle_resolution_ ∧
    (getMin (OccupancyGridmap.new origin resolution)).x
      = (INT_MAX : ℚ) * (OccupancyGridmap.new origin resolution).bundle_resolution_ ∧
    (getMin (OccupancyGridmap.new origin resolution)).y
      = (INT_MAX : ℚ) * (OccupancyGridmap.new origin resolution).bundle_resolution_ ∧
    (getMax (OccupancyGridmap.new origin resolution)).x
      = ((INT_MIN : ℚ) + 1) * (OccupancyGridmap.new origin resolution).bundle_resolution_ ∧
    (getMax (OccupancyGridmap.new origin resolution)).y
      = ((INT_MIN : ℚ) + 1) * (OccupancyGridmap.new origin resolution).bundle_resolution_ := by
  refine ⟨rfl, fun _ => rfl, fun _ => rfl, fun _ _ => rfl, rfl, rfl, rfl, ?_, ?_, ?_, rfl, rfl,
    rfl, rfl⟩
  · simp only [OccupancyGridmap.new]
    norm_num
    ring
  · simp only [getMin, OccupancyGridmap.new]
    norm_num
  · simp only [getMax, OccupancyGridmap.new]
    norm_num

/-- C28, the worked example: `unit_map`, constructed with resolution 1, reports
the z extent from 0 to 1/2 and holds no bundle. -/
theorem C28_fresh_map_witness :
    unit_map.bundle_storage_.entries = [] ∧
    unit_map.min_index_ = ⟨2147483647, 2147483647, 0⟩ ∧
    unit_map.max_index_ = ⟨-2147483648, -2147483648, 0⟩ ∧
    (getMin unit_map).z = 0 ∧ (getMax unit_map).z = 1 / 2 := by
  obtain ⟨h1, _, _, _, _, h6, h7, h8, h9, h10, _⟩ := C28_fresh_map transform_t.identity 1
  refine ⟨h1, h6, h7, h9, ?_⟩
  have h11 : (getMax unit_map).z = unit_map.bundle_resolution_ := h10
  rw [h11, unit_map_bundle_resolution]

/-! ## C21: the reported poses -/

theorem getInitialOrigin_of_reaches {m m2 : OccupancyGridmap} (h : reaches m m2) :
    getInitialOrigin m2 = getInitialOrigin m := by
  obtain ⟨steps, rfl⟩ := h
  exact run_steps_w_T_m steps m

/-- C21: for the map constructed with the pose `origin` and then changed by any
sequence of allocations and updates, `getInitialOrigin()` returns `origin`, and
`getOrigin()` returns the pose with the rotation of `origin` and the
translation `getMin()` of the current state. `add`, `insert` and
`insertVolumetric` on such a map return with a map whose `getInitialOrigin()`
is still `origin`. -/
theorem C21_origins (origin : transform_t) (resolution : ℚ) (steps : List step_t)
    (api : accumulator_api) (capi : cloud_api) (I : line_iterator_t) (fuel : Nat)
    (start_p end_p : point_t) (pose : transform_t) (points : List point_t)
    (ivm ivm_visibility : inverse_sensor_model_t) :
    Reachable (run_steps (OccupancyGridmap.new origin resolution) steps) ∧
    getInitialOrigin (run_steps (OccupancyGridmap.new origin resolution) steps) = origin ∧
    (getOrigin (run_steps (OccupancyGridmap.new origin resolution) steps)).rx = origin.rx ∧
    (getOrigin (run_steps (OccupancyGridmap.new origin resolution) steps)).ry = origin.ry ∧
    (getOrigin (run_steps (OccupancyGridmap.new origin resolution) steps)).rz = origin.rz ∧
    (getOrigin (run_steps (OccupancyGridmap.new origin resolution) steps)).t
      = getMin (run_steps (OccupancyGridmap.new origin resolution) steps) ∧
    (∀ m2, add I fuel (run_steps (OccupancyGridmap.new origin resolution) steps) start_p end_p
        = some m2 → getInitialOrigin m2 = origin) ∧
    (∀ m2, insert api capi I fuel (run_steps (OccupancyGridmap.new origin resolution) steps)
        pose points = some m2 → getInitialOrigin m2 = origin) ∧
    (∀ m2, insertVolumetric api capi I fuel
        (run_steps (OccupancyGridmap.new origin resolution) steps) pose points ivm
        ivm_visibility = some m2 → getInitialOrigin m2 = origin) := by
  have h0 : getInitialOrigin (run_steps (OccupancyGridmap.new origin resolution) steps)
      = origin := run_steps_w_T_m steps _
  have hw : (run_steps (OccupancyGridmap.new origin resolution) steps).w_T_m_ = origin := h0
  refine ⟨run_steps_reachable steps (Reachable.new origin resolution), h0, ?_, ?_, ?_, rfl,
    ?_, ?_, ?_⟩
  · simp only [getOrigin, hw]
  · simp only [getOrigin, hw]
  · simp only [getOrigin, hw]
  · intro m2 h
    rw [getInitialOrigin_of_reaches (reaches_add I fuel _ m2 start_p end_p h), h0]
  · intro m2 h
    rw [getInitialOrigin_of_reaches (reaches_insert api capi I fuel _ m2 pose points h), h0]
  · intro m2 h
    rw [getInitialOrigin_of_reaches
      (reaches_insertVolumetric api capi I fuel _ m2 pose points ivm ivm_visibility h), h0]

/-- C21, the worked example: on `one_bundle_map`, constructed at the identity
pose, `getInitialOrigin()` is the identity and `getOrigin()` is the identity
rotation with the translation (0, 2.5, 0). -/
theorem C21_origins_witness :
    one_bundle_map = run_steps (OccupancyGridmap.new transform_t.identity 1)
      [step_t.allocate ⟨0, 5, 0⟩] ∧
    getInitialOrigin one_bundle_map = transform_t.identity ∧
    getOrigin one_bundle_map = ⟨⟨1, 0, 0⟩, ⟨0, 1, 0⟩, ⟨0, 0, 1⟩, ⟨0, 5 / 2, 0⟩⟩ := by
  have h := C21_origins transform_t.identity 1 [step_t.allocate ⟨0, 5, 0⟩] example_api
    example_cloud_api simple_iterator_t 1 ⟨0, 0, 0⟩ ⟨0, 0, 0⟩ transform_t.identity []
    example_model example_model
  have hm : one_bundle_map = run_steps (OccupancyGridmap.new transform_t.identity 1)
      [step_t.allocate ⟨0, 5, 0⟩] := rfl
  rw [← hm] at h
  obtain ⟨_, h1, h2, h3, h4, h5, _⟩ := h
  refine ⟨hm, h1, ?_⟩
  have hmin : getMin one_bundle_map = ⟨0, 5 / 2, 0⟩ := by
    have hi : one_bundle_map.min_index_ = ⟨0, 5, 0⟩ := by decide
    simp only [getMin, hi, one_bundle_map_bundle_resolution]
    norm_num
  cases ho : getOrigin one_bundle_map with
  | mk rx ry rz t =>
    rw [ho] at h2 h3 h4 h5
    simp only at h2 h3 h4 h5
    rw [h2, h3, h4, h5, hmin]
    rfl

/-! ## C23: the occlusion estimate -/

theorem WellFormed.occupancy_term_getAllocate {m : OccupancyGridmap} (h : WellFormed m)
    (api : accumulator_api) (ivm : inverse_sensor_model_t) (bi : index_t) (k : Fin 8) :
    occupancy_term api ivm (getAllocate m bi).1 ((getAllocate m bi).2 k)
      = api.getOccupancy ⟨observed m k (storage_index bi k)⟩ ivm := by
  rw [h.getAllocate_snd bi k]
  simp only [occupancy_term, deref, h.storage_get_after_getAllocate bi k, if_true, observed]
  cases (m.storage_ k).get (storage_index bi k) <;> rfl

theorem WellFormed.occupancy_eq {m : OccupancyGridmap} (h : WellFormed m)
    (api : accumulator_api) (ivm : inverse_sensor_model_t) (bi : index_t) :
    (occupancy api ivm m bi).1
      = 0.125 * (api.getOccupancy ⟨observed m 0 (storage_index bi 0)⟩ ivm +
                 api.getOccupancy ⟨observed m 1 (storage_index bi 1)⟩ ivm +
                 api.getOccupancy ⟨observed m 2 (storage_index bi 2)⟩ ivm +
                 api.getOccupancy ⟨observed m 3 (storage_index bi 3)⟩ ivm +
                 api.getOccupancy ⟨observed m 4 (storage_index bi 4)⟩ ivm +
                 api.getOccupancy ⟨observed m 5 (storage_index bi 5)⟩ ivm +
                 api.getOccupancy ⟨observed m 6 (storage_index bi 6)⟩ ivm +
                 api.getOccupancy ⟨observed m 7 (storage_index bi 7)⟩ ivm) := by
  simp only [occupancy, getDistributionBundle, h.occupancy_term_getAllocate api ivm bi]

theorem WellFormed.occupancy_after_getAllocate {m : OccupancyGridmap} (h : WellFormed m)
    (api : accumulator_api) (ivm : inverse_sensor_model_t) (b0 bi : index_t) :
    (occupancy api ivm (getAllocate m b0).1 bi).1 = (occupancy api ivm m bi).1 := by
  rw [(h.of_getAllocate b0).occupancy_eq api ivm bi, h.occupancy_eq api ivm bi]
  simp only [h.observed_getAllocate b0]

theorem neighbour_farther (b s : Int) :
    |b + (if b > s then 1 else -1) - s| > |b - s| := by
  by_cases h : b > s
  · simp only [h, if_true]
    rw [abs_of_pos (by omega), abs_of_pos (by omega)]
    omega
  · simp only [h, if_false]
    rw [abs_of_neg (by omega), abs_of_nonpos (by omega)]
    omega

/-- C23: on a reachable map, for every traversed bundle `bi` and sensor bundle
`start_bi`, the factor `current_visibility(bi)` returns is
`getProbFree() * occlusion + getProbOccupied() * (1 - occlusion)`, where the
occlusion is the minimum of the occupancies of three bundles `nx`, `ny`, `nz`,
each the mean of the occupancies of the bundle's 8 corner accumulators. The
bundle examined for an axis differs from `bi` on that axis only, by +1 if
`bi` is beyond `start_bi` on that axis and by -1 otherwise, and on that axis it
is strictly farther from `start_bi` than `bi` is, also when `bi` and `start_bi`
agree there. The value does not depend on the order in which the three
occupancies are read. -/
theorem C23_occlusion_neighbours (api : accumulator_api)
    (ivm ivm_visibility : inverse_sensor_model_t) (start_bi : index_t) (m : OccupancyGridmap)
    (hm : Reachable m) (bi : index_t) :
    ∃ nx ny nz : index_t,
      neighbours start_bi bi = [nx, ny, nz] ∧
      (nx.y = bi.y ∧ nx.z = bi.z ∧
        (bi.x > start_bi.x → nx.x = bi.x + 1) ∧ (¬ bi.x > start_bi.x → nx.x = bi.x - 1) ∧
        |nx.x - start_bi.x| > |bi.x - start_bi.x|) ∧
      (ny.x = bi.x ∧ ny.z = bi.z ∧
        (bi.y > start_bi.y → ny.y = bi.y + 1) ∧ (¬ bi.y > start_bi.y → ny.y = bi.y - 1) ∧
        |ny.y - start_bi.y| > |bi.y - start_bi.y|) ∧
      (nz.x = bi.x ∧ nz.y = bi.y ∧
        (bi.z > start_bi.z → nz.z = bi.z + 1) ∧ (¬ bi.z > start_bi.z → nz.z = bi.z - 1) ∧
        |nz.z - start_bi.z| > |bi.z - start_bi.z|) ∧
      (current_visibility api ivm ivm_visibility start_bi m bi).1
        = ivm_visibility.prob_free
            * min (occupancy api ivm m nx).1
                (min (occupancy api ivm m ny).1 (occupancy api ivm m nz).1)
          + ivm_visibility.prob_occupied
            * (1 - min (occupancy api ivm m nx).1
                (min (occupancy api ivm m ny).1 (occupancy api ivm m nz).1)) ∧
      (∀ b ∈ [nx, ny, nz],
        (occupancy api ivm m b).1
          = 0.125 * (api.getOccupancy ⟨observed m 0 (storage_index b 0)⟩ ivm +
                     api.getOccupancy ⟨observed m 1 (storage_index b 1)⟩ ivm +
                     api.getOccupancy ⟨observed m 2 (storage_index b 2)⟩ ivm +
                     api.getOccupancy ⟨observed m 3 (storage_index b 3)⟩ ivm +
                     api.getOccupancy ⟨observed m 4 (storage_index b 4)⟩ ivm +
                     api.getOccupancy ⟨observed m 5 (storage_index b 5)⟩ ivm +
                     api.getOccupancy ⟨observed m 6 (storage_index b 6)⟩ ivm +
                     api.getOccupancy ⟨observed m 7 (storage_index b 7)⟩ ivm)) := by
  have hw := hm.wellFormed
  refine ⟨⟨bi.x + (if bi.x > start_bi.x then 1 else -1), bi.y, bi.z⟩,
    ⟨bi.x, bi.y + (if bi.y > start_bi.y then 1 else -1), bi.z⟩,
    ⟨bi.x, bi.y, bi.z + (if bi.z > start_bi.z then 1 else -1)⟩, rfl, ?_, ?_, ?_, ?_, ?_⟩
  · refine ⟨rfl, rfl, ?_, ?_, neighbour_farther bi.x start_bi.x⟩
    · intro h; simp only [h, if_true]
    · intro h; simp only [h, if_false]; rfl
  · refine ⟨rfl, rfl, ?_, ?_, neighbour_farther bi.y start_bi.y⟩
    · intro h; simp only [h, if_true]
    · intro h; simp only [h, if_false]; rfl
  · refine ⟨rfl, rfl, ?_, ?_, neighbour_farther bi.z start_bi.z⟩
    · intro h; simp only [h, if_true]
    · intro h; simp only [h, if_false]; rfl
  · simp only [current_visibility]
    rw [occupancy_snd, occupancy_snd, hw.occupancy_after_getAllocate,
      (hw.of_getAllocate _).occupancy_after_getAllocate, hw.occupancy_after_getAllocate]
  · intro b _
    exact hw.occupancy_eq api ivm b

/-- C23, the worked example: on the map with the occupied bundle `{1, 0, 0}`,
seen from the bundle `{0, 0, 0}`, the bundle `{1, 0, 0}` is examined through
`{2, 0, 0}`, `{1, -1, 0}` and `{1, 0, -1}`. -/
theorem C23_occlusion_neighbours_witness :
    Reachable blocked_map ∧
    neighbours ⟨0, 0, 0⟩ ⟨1, 0, 0⟩ = [⟨2, 0, 0⟩, ⟨1, -1, 0⟩, ⟨1, 0, -1⟩] ∧
    (current_visibility hit_api example_model example_model ⟨0, 0, 0⟩ blocked_map ⟨1, 0, 0⟩).1
      = example_model.prob_free
          * min (occupancy hit_api example_model blocked_map ⟨2, 0, 0⟩).1
              (min (occupancy hit_api example_model blocked_map ⟨1, -1, 0⟩).1
                (occupancy hit_api example_model blocked_map ⟨1, 0, -1⟩).1)
        + example_model.prob_occupied
          * (1 - min (occupancy hit_api example_model blocked_map ⟨2, 0, 0⟩).1
              (min (occupancy hit_api example_model blocked_map ⟨1, -1, 0⟩).1
                (occupancy hit_api example_model blocked_map ⟨1, 0, -1⟩).1)) := by
  obtain ⟨nx, ny, nz, h1, _, _, _, h5, _⟩ :=
    C23_occlusion_neighbours hit_api example_model example_model ⟨0, 0, 0⟩ blocked_map
      blocked_map_reachable ⟨1, 0, 0⟩
  have hn : neighbours ⟨0, 0, 0⟩ ⟨1, 0, 0⟩ = [⟨2, 0, 0⟩, ⟨1, -1, 0⟩, ⟨1, 0, -1⟩] := by decide
  rw [hn] at h1
  simp only [List.cons.injEq, and_true] at h1
  obtain ⟨rfl, rfl, rfl⟩ := h1
  exact ⟨blocked_map_reachable, hn, h5⟩

/-! ## The Bounding Index after a call -/

theorem run_step_min_index (m : OccupancyGridmap) (s : step_t) :
    (run_step m s).min_index_
      = if (m.bundle_storage_.get s.index).isSome then m.min_index_
        else std_min m.min_index_ s.index := by
  have h : (getAllocate m s.index).1.min_index_
      = if (m.bundle_storage_.get s.index).isSome then m.min_index_
        else std_min m.min_index_ s.index := by
    cases hg : m.bundle_storage_.get s.index with
    | some b => rw [getAllocate_of_some hg]; rfl
    | none => rw [getAllocate_of_none hg, allocate_bundle_min_index]; rfl
  cases s with
  | allocate bi => exact h
  | update bi u =>
    simp only [run_step]
    rw [update_corners_min_index]
    exact h

theorem run_step_max_index (m : OccupancyGridmap) (s : step_t) :
    (run_step m s).max_index_
      = if (m.bundle_storage_.get s.index).isSome then m.max_index_
        else std_max m.max_index_ s.index := by
  have h : (getAllocate m s.index).1.max_index_
      = if (m.bundle_storage_.get s.index).isSome then m.max_index_
        else std_max m.max_index_ s.index := by
    cases hg : m.bundle_storage_.get s.index with
    | some b => rw [getAllocate_of_some hg]; rfl
    | none => rw [getAllocate_of_none hg, allocate_bundle_max_index]; rfl
  cases s with
  | allocate bi => exact h
  | update bi u =>
    simp only [run_step]
    rw [update_corners_max_index]
    exact h

theorem run_step_isSome_iff (m : OccupancyGridmap) (s : step_t) (b : index_t) :
    ((run_step m s).bundle_storage_.get b).isSome = true
      ↔ b = s.index ∨ (m.bundle_storage_.get b).isSome = true := by
  constructor
  · intro h
    by_cases hb : b = s.index
    · exact Or.inl hb
    · rw [run_step_get_of_ne m s b hb] at h
      exact Or.inr h
  · intro h
    rcases h with rfl | h
    · exact run_step_allocates m s
    · obtain ⟨v, hv⟩ := Option.isSome_iff_exists.1 h
      rw [run_step_get_of_some m s b v hv]
      rfl

theorem std_min_le (a b : index_t) :
    index_t.le_on_every_axis (std_min a b) a ∧ index_t.le_on_every_axis (std_min a b) b :=
  ⟨⟨min_le_left _ _, min_le_left _ _, min_le_left _ _⟩,
    ⟨min_le_right _ _, min_le_right _ _, min_le_right _ _⟩⟩

theorem le_std_max (a b : index_t) :
    index_t.le_on_every_axis a (std_max a b) ∧ index_t.le_on_every_axis b (std_max a b) :=
  ⟨⟨le_max_left _ _, le_max_left _ _, le_max_left _ _⟩,
    ⟨le_max_right _ _, le_max_right _ _, le_max_right _ _⟩⟩

theorem within_bounds_std_self (lo hi b : index_t) :
    within_bounds (std_min lo b) (std_max hi b) b :=
  ⟨⟨(std_min_le lo b).2.1, (le_std_max hi b).2.1⟩,
    ⟨(std_min_le lo b).2.2.1, (le_std_max hi b).2.2.1⟩,
    ⟨(std_min_le lo b).2.2.2, (le_std_max hi b).2.2.2⟩⟩

theorem within_bounds_std_mono {lo hi b : index_t} (bi : index_t) (h : within_bounds lo hi b) :
    within_bounds (std_min lo bi) (std_max hi bi) b :=
  ⟨⟨le_trans (std_min_le lo bi).1.1 h.1.1, le_trans h.1.2 (le_std_max hi bi).1.1⟩,
    ⟨le_trans (std_min_le lo bi).1.2.1 h.2.1.1, le_trans h.2.1.2 (le_std_max hi bi).1.2.1⟩,
    ⟨le_trans (std_min_le lo bi).1.2.2 h.2.2.1, le_trans h.2.2.2 (le_std_max hi bi).1.2.2⟩⟩

/-- Every allocated bundle index lies within the Bounding Index on each of the
three axes. -/
theorem Reachable.allocated_within_bounds {m : OccupancyGridmap} (h : Reachable m) :
    ∀ b, (m.bundle_storage_.get b).isSome = true →
      within_bounds m.min_index_ m.max_index_ b := by
  refine Reachable.rec_run_step
    (P := fun m => ∀ b, (m.bundle_storage_.get b).isSome = true →
      within_bounds m.min_index_ m.max_index_ b) ?_ ?_ h
  · intro origin resolution b hb
    simp [OccupancyGridmap.new, Storage.get_empty] at hb
  · intro m s ih b hb
    rw [run_step_min_index, run_step_max_index]
    by_cases hs : (m.bundle_storage_.get s.index).isSome = true
    · simp only [hs, if_true]
      rcases (run_step_isSome_iff m s b).1 hb with rfl | hb2
      · exact ih _ hs
      · exact ih _ hb2
    · simp only [hs, if_false, Bool.false_eq_true]
      rcases (run_step_isSome_iff m s b).1 hb with rfl | hb2
      · exact within_bounds_std_self _ _ _
      · exact within_bounds_std_mono _ (ih b hb2)

/-- The x and y components of the Bounding Index are attained: while no bundle
is allocated the bounds are those of the constructor, and afterwards each of
the four components is the component of an allocated bundle index. -/
theorem Reachable.bounds_attained {m : OccupancyGridmap} (h : Reachable m) :
    (∀ b, (m.bundle_storage_.get b).isSome = true →
      (INT_MIN ≤ b.x ∧ b.x ≤ INT_MAX) ∧ (INT_MIN ≤ b.y ∧ b.y ≤ INT_MAX)) →
    ((∀ b, m.bundle_storage_.get b = none) →
      m.min_index_ = ⟨INT_MAX, INT_MAX, 0⟩ ∧ m.max_index_ = ⟨INT_MIN, INT_MIN, 0⟩) ∧
    ((∃ b, (m.bundle_storage_.get b).isSome = true) →
      (∃ b, (m.bundle_storage_.get b).isSome = true ∧ b.x = m.min_index_.x) ∧
      (∃ b, (m.bundle_storage_.get b).isSome = true ∧ b.y = m.min_index_.y) ∧
      (∃ b, (m.bundle_storage_.get b).isSome = true ∧ b.x = m.max_index_.x) ∧
      (∃ b, (m.bundle_storage_.get b).isSome = true ∧ b.y = m.max_index_.y)) := by
  refine Reachable.rec_run_step
    (P := fun m =>
      (∀ b, (m.bundle_storage_.get b).isSome = true →
        (INT_MIN ≤ b.x ∧ b.x ≤ INT_MAX) ∧ (INT_MIN ≤ b.y ∧ b.y ≤ INT_MAX)) →
      ((∀ b, m.bundle_storage_.get b = none) →
        m.min_index_ = ⟨INT_MAX, INT_MAX, 0⟩ ∧ m.max_index_ = ⟨INT_MIN, INT_MIN, 0⟩) ∧
      ((∃ b, (m.bundle_storage_.get b).isSome = true) →
        (∃ b, (m.bundle_storage_.get b).isSome = true ∧ b.x = m.min_index_.x) ∧
        (∃ b, (m.bundle_storage_.get b).isSome = true ∧ b.y = m.min_index_.y) ∧
        (∃ b, (m.bundle_storage_.get b).isSome = true ∧ b.x = m.max_index_.x) ∧
        (∃ b, (m.bundle_storage_.get b).isSome = true ∧ b.y = m.max_index_.y))) ?_ ?_ h
  · intro origin resolution _
    refine ⟨fun _ => ⟨rfl, rfl⟩, ?_⟩
    rintro ⟨b, hb⟩
    simp [OccupancyGridmap.new, Storage.get_empty] at hb
  · intro m s ih hrange
    have hrange_m : ∀ b, (m.bundle_storage_.get b).isSome = true →
        (INT_MIN ≤ b.x ∧ b.x ≤ INT_MAX) ∧ (INT_MIN ≤ b.y ∧ b.y ≤ INT_MAX) :=
      fun b hb => hrange b ((run_step_isSome_iff m s b).2 (Or.inr hb))
    obtain ⟨hempty, hfull⟩ := ih hrange_m
    have hs := run_step_allocates m s
    have lift : ∀ b, (m.bundle_storage_.get b).isSome = true →
        ((run_step m s).bundle_storage_.get b).isSome = true :=
      fun b hb => (run_step_isSome_iff m s b).2 (Or.inr hb)
    refine ⟨?_, fun _ => ?_⟩
    · intro hnone
      rw [hnone s.index] at hs
      simp at hs
    · rw [run_step_min_index, run_step_max_index]
      by_cases hsi : (m.bundle_storage_.get s.index).isSome = true
      · simp only [hsi, if_true]
        obtain ⟨⟨b1, h1, e1⟩, ⟨b2, h2, e2⟩, ⟨b3, h3, e3⟩, ⟨b4, h4, e4⟩⟩ := hfull ⟨_, hsi⟩
        exact ⟨⟨b1, lift b1 h1, e1⟩, ⟨b2, lift b2 h2, e2⟩, ⟨b3, lift b3 h3, e3⟩,
          ⟨b4, lift b4 h4, e4⟩⟩
      · simp only [hsi, if_false, Bool.false_eq_true]
        by_cases hne : ∃ b, (m.bundle_storage_.get b).isSome = true
        · obtain ⟨⟨b1, h1, e1⟩, ⟨b2, h2, e2⟩, ⟨b3, h3, e3⟩, ⟨b4, h4, e4⟩⟩ := hfull hne
          refine ⟨?_, ?_, ?_, ?_⟩
          · rcases min_choice m.min_index_.x s.index.x with e | e
            · exact ⟨b1, lift b1 h1, e1.trans e.symm⟩
            · exact ⟨s.index, hs, e.symm⟩
          · rcases min_choice m.min_index_.y s.index.y with e | e
            · exact ⟨b2, lift b2 h2, e2.trans e.symm⟩
            · exact ⟨s.index, hs, e.symm⟩
          · rcases max_choice m.max_index_.x s.index.x with e | e
            · exact ⟨b3, lift b3 h3, e3.trans e.symm⟩
            · exact ⟨s.index, hs, e.symm⟩
          · rcases max_choice m.max_index_.y s.index.y with e | e
            · exact ⟨b4, lift b4 h4, e4.trans e.symm⟩
            · exact ⟨s.index, hs, e.symm⟩
        · have hnone : ∀ b, m.bundle_storage_.get b = none := by
            intro b
            cases hb : m.bundle_storage_.get b with
            | none => rfl
            | some v => exact absurd ⟨b, by rw [hb]; rfl⟩ hne
          obtain ⟨e1, e2⟩ := hempty hnone
          have hr := hrange s.index hs
          rw [e1, e2]
          exact ⟨⟨s.index, hs, (min_eq_right hr.1.2).symm⟩,
            ⟨s.index, hs, (min_eq_right hr.2.2).symm⟩,
            ⟨s.index, hs, (max_eq_right hr.1.1).symm⟩,
            ⟨s.index, hs, (max_eq_right hr.2.1).symm⟩⟩

/-! ## C1: allocated bundles lie within the Bounding Index -/

theorem run_call_reaches (api : accumulator_api) (capi : cloud_api) (I : line_iterator_t)
    (fuel : Nat) (m m2 : OccupancyGridmap) (c : call_t)
    (h : run_call api capi I fuel m c = some m2) : reaches m m2 := by
  cases c with
  | add start_p end_p => exact reaches_add I fuel m m2 start_p end_p h
  | insert origin points => exact reaches_insert api capi I fuel m m2 origin points h
  | insertVolumetric origin points ivm ivm_visibility =>
    exact reaches_insertVolumetric api capi I fuel m m2 origin points ivm ivm_visibility h
  | getDistributionBundle bi =>
    simp only [run_call, Option.some.injEq] at h
    subst h
    exact reaches_run_step m (step_t.allocate bi)

theorem run_calls_reachable (api : accumulator_api) (capi : cloud_api) (I : line_iterator_t)
    (fuel : Nat) (calls : List call_t) :
    ∀ (m m2 : OccupancyGridmap), Reachable m →
      run_calls api capi I fuel m calls = some m2 → Reachable m2 := by
  induction calls with
  | nil =>
    intro m m2 hm h
    simp only [run_calls, Option.some.injEq] at h
    subst h
    exact hm
  | cons c calls ih =>
    intro m m2 hm h
    simp only [run_calls] at h
    cases hc : run_call api capi I fuel m c with
    | none => rw [hc] at h; simp at h
    | some m1 =>
      rw [hc] at h
      exact ih m1 m2 (reaches_reachable (run_call_reaches api capi I fuel m m1 c hc) hm) h

/-- C1: take a freshly constructed map and any sequence of the calls `add`,
`insert`, `insertVolumetric` and `getDistributionBundle`, whatever the
accumulator interface, the ray iterator and the arguments. In the map `m` after
the sequence (hence after each call, every prefix being such a sequence) every
allocated bundle index `b` satisfies
`min_index_[a] <= b[a] <= max_index_[a]` on each of the three axes `a`. -/
theorem C1_allocated_within_bounds (api : accumulator_api) (capi : cloud_api)
    (I : line_iterator_t) (fuel : Nat) (origin : transform_t) (resolution : ℚ)
    (calls : List call_t) (m : OccupancyGridmap)
    (h : run_calls api capi I fuel (OccupancyGridmap.new origin resolution) calls = some m) :
    ∀ b, (m.bundle_storage_.get b).isSome = true →
      (m.min_index_.x ≤ b.x ∧ b.x ≤ m.max_index_.x) ∧
      (m.min_index_.y ≤ b.y ∧ b.y ≤ m.max_index_.y) ∧
      (m.min_index_.z ≤ b.z ∧ b.z ≤ m.max_index_.z) :=
  (run_calls_reachable api capi I fuel calls _ m (Reachable.new origin resolution)
    h).allocated_within_bounds

/-- C1, the worked example: on the unit map the calls
`getDistributionBundle({0, 5, 0})` and `getDistributionBundle({1, 0, 0})` leave
the bounds `min_index_ = {0, 0, 0}` and `max_index_ = {1, 5, 0}`, and both
allocated bundles lie within them on every axis. -/
theorem C1_allocated_within_bounds_witness :
    run_calls example_api example_cloud_api simple_iterator_t 3
      (OccupancyGridmap.new transform_t.identity 1)
      [call_t.getDistributionBundle ⟨0, 5, 0⟩, call_t.getDistributionBundle ⟨1, 0, 0⟩]
      = some two_bundle_map ∧
    two_bundle_map.bundle_storage_.keys = [⟨1, 0, 0⟩, ⟨0, 5, 0⟩] ∧
    two_bundle_map.min_index_ = ⟨0, 0, 0⟩ ∧
    two_bundle_map.max_index_ = ⟨1, 5, 0⟩ ∧
    (∀ b, (two_bundle_map.bundle_storage_.get b).isSome = true →
      (two_bundle_map.min_index_.x ≤ b.x ∧ b.x ≤ two_bundle_map.max_index_.x) ∧
      (two_bundle_map.min_index_.y ≤ b.y ∧ b.y ≤ two_bundle_map.max_index_.y) ∧
      (two_bundle_map.min_index_.z ≤ b.z ∧ b.z ≤ two_bundle_map.max_index_.z)) :=
  ⟨rfl, by decide, by decide, by decide,
    C1_allocated_within_bounds example_api example_cloud_api simple_iterator_t 3
      transform_t.identity 1
      [call_t.getDistributionBundle ⟨0, 5, 0⟩, call_t.getDistributionBundle ⟨1, 0, 0⟩]
      two_bundle_map rfl⟩

/-! ## C2: the Bounding Index never shrinks -/

/-- C2: for every map state `m` and every bundle index `bi`: after
`updateIndices(bi)`, which every allocation of a bundle runs, and after
`getDistributionBundle(bi)`, which allocates `bi` when it is absent, each
component of `min_index_` is at most its value before and each component of
`max_index_` is at least its value before; when the bundle resolution is not
negative, so is each component of `getMin()` and of `getMax()`. -/
theorem C2_bounds_never_shrink (m : OccupancyGridmap) (bi : index_t) :
    (index_t.le_on_every_axis (updateIndices m bi).min_index_ m.min_index_ ∧
      index_t.le_on_every_axis m.max_index_ (updateIndices m bi).max_index_) ∧
    (index_t.le_on_every_axis (getDistributionBundle m bi).1.min_index_ m.min_index_ ∧
      index_t.le_on_every_axis m.max_index_ (getDistributionBundle m bi).1.max_index_) ∧
    (0 ≤ m.bundle_resolution_ →
      ((getMin (getDistributionBundle m bi).1).x ≤ (getMin m).x ∧
        (getMin (getDistributionBundle m bi).1).y ≤ (getMin m).y ∧
        (getMin (getDistributionBundle m bi).1).z ≤ (getMin m).z) ∧
      ((getMax m).x ≤ (getMax (getDistributionBundle m bi).1).x ∧
        (getMax m).y ≤ (getMax (getDistributionBundle m bi).1).y ∧
        (getMax m).z ≤ (getMax (getDistributionBundle m bi).1).z)) := by
  have hmin : index_t.le_on_every_axis (getDistributionBundle m bi).1.min_index_ m.min_index_ := by
    have e := run_step_min_index m (step_t.allocate bi)
    simp only [run_step, step_t.index] at e
    simp only [getDistributionBundle]
    rw [e]
    split
    · exact ⟨le_refl _, le_refl _, le_refl _⟩
    · exact (std_min_le _ _).1
  have hmax : index_t.le_on_every_axis m.max_index_ (getDistributionBundle m bi).1.max_index_ := by
    have e := run_step_max_index m (step_t.allocate bi)
    simp only [run_step, step_t.index] at e
    simp only [getDistributionBundle]
    rw [e]
    split
    · exact ⟨le_refl _, le_refl _, le_refl _⟩
    · exact (le_std_max _ _).1
  have hbr : (getDistributionBundle m bi).1.bundle_resolution_ = m.bundle_resolution_ :=
    getAllocate_bundle_resolution m bi
  refine ⟨⟨(std_min_le _ _).1, (le_std_max _ _).1⟩, ⟨hmin, hmax⟩, fun hres => ⟨?_, ?_⟩⟩
  · simp only [getMin, hbr]
    exact ⟨mul_le_mul_of_nonneg_right (Int.cast_le.2 hmin.1) hres,
      mul_le_mul_of_nonneg_right (Int.cast_le.2 hmin.2.1) hres,
      mul_le_mul_of_nonneg_right (Int.cast_le.2 hmin.2.2) hres⟩
  · simp only [getMax, hbr]
    exact ⟨mul_le_mul_of_nonneg_right (add_le_add_right (Int.cast_le.2 hmax.1) 1) hres,
      mul_le_mul_of_nonneg_right (add_le_add_right (Int.cast_le.2 hmax.2.1) 1) hres,
      mul_le_mul_of_nonneg_right (add_le_add_right (Int.cast_le.2 hmax.2.2) 1) hres⟩

/-- C2, the worked example: on the map holding the bundle `{0, 5, 0}` (bundle
resolution 1/2) the allocation of `{1, 0, 0}` lowers `min_index_` from
`{0, 5, 0}` to `{0, 0, 0}` and raises `max_index_` from `{0, 5, 0}` to
`{1, 5, 0}`; no component of `min_index_` or `getMin()` rises and none of
`max_index_` or `getMax()` falls. -/
theorem C2_bounds_never_shrink_witness :
    one_bundle_map.min_index_ = ⟨0, 5, 0⟩ ∧ one_bundle_map.max_index_ = ⟨0, 5, 0⟩ ∧
    (getDistributionBundle one_bundle_map ⟨1, 0, 0⟩).1.min_index_ = ⟨0, 0, 0⟩ ∧
    (getDistributionBundle one_bundle_map ⟨1, 0, 0⟩).1.max_index_ = ⟨1, 5, 0⟩ ∧
    0 ≤ one_bundle_map.bundle_resolution_ ∧
    (index_t.le_on_every_axis (updateIndices one_bundle_map ⟨1, 0, 0⟩).min_index_
        one_bundle_map.min_index_ ∧
      index_t.le_on_every_axis one_bundle_map.max_index_
        (updateIndices one_bundle_map ⟨1, 0, 0⟩).max_index_) ∧
    (index_t.le_on_every_axis (getDistributionBundle one_bundle_map ⟨1, 0, 0⟩).1.min_index_
        one_bundle_map.min_index_ ∧
      index_t.le_on_every_axis one_bundle_map.max_index_
        (getDistributionBundle one_bundle_map ⟨1, 0, 0⟩).1.max_index_) ∧
    ((getMin (getDistributionBundle one_bundle_map ⟨1, 0, 0⟩).1).x ≤ (getMin one_bundle_map).x ∧
      (getMin (getDistributionBundle one_bundle_map ⟨1, 0, 0⟩).1).y ≤ (getMin one_bundle_map).y ∧
      (getMin (getDistributionBundle one_bundle_map ⟨1, 0, 0⟩).1).z
        ≤ (getMin one_bundle_map).z) ∧
    ((getMax one_bundle_map).x ≤ (getMax (getDistributionBundle one_bundle_map ⟨1, 0, 0⟩).1).x ∧
      (getMax one_bundle_map).y ≤ (getMax (getDistributionBundle one_bundle_map ⟨1, 0, 0⟩).1).y ∧
      (getMax one_bundle_map).z
        ≤ (getMax (getDistributionBundle one_bundle_map ⟨1, 0, 0⟩).1).z) := by
  have hres : 0 ≤ one_bundle_map.bundle_resolution_ := by
    rw [one_bundle_map_bundle_resolution]; norm_num
  obtain ⟨h1, h2, h3⟩ := C2_bounds_never_shrink one_bundle_map ⟨1, 0, 0⟩
  exact ⟨by decide, by decide, by decide, by decide, hres, h1, h2, h3 hres⟩

/-! ## C24: the Bounding Index and the allocated indices -/

/-- C24, the inputs on which the claim fails. After the allocations `{0, 5, 0}`
and `{1, 0, 0}` on the unit map (every x component strictly between `INT_MIN`
and `INT_MAX`) the bounds are `min_index_ = {0, 0, 0}` and
`max_index_ = {1, 5, 0}`: neither is an allocated bundle index, so `min_index_`
is not the smallest and `max_index_` not the largest allocated index in any
order. After the single allocation `{0, 0, 3}` the bounds are
`min_index_ = {0, 0, 0}` and `max_index_ = {0, 0, 3}`, and `min_index_` differs
from the one allocated index. -/
theorem C24_bounds_not_allocated_counterexample :
    Reachable two_bundle_map ∧
    two_bundle_map.bundle_storage_.keys = [⟨1, 0, 0⟩, ⟨0, 5, 0⟩] ∧
    (∀ b, (two_bundle_map.bundle_storage_.get b).isSome = true →
      INT_MIN < b.x ∧ b.x < INT_MAX) ∧
    two_bundle_map.min_index_ = ⟨0, 0, 0⟩ ∧
    two_bundle_map.max_index_ = ⟨1, 5, 0⟩ ∧
    (two_bundle_map.bundle_storage_.get two_bundle_map.min_index_).isSome = false ∧
    (two_bundle_map.bundle_storage_.get two_bundle_map.max_index_).isSome = false ∧
    Reachable (getDistributionBundle unit_map ⟨0, 0, 3⟩).1 ∧
    (getDistributionBundle unit_map ⟨0, 0, 3⟩).1.bundle_storage_.keys = [⟨0, 0, 3⟩] ∧
    (getDistributionBundle unit_map ⟨0, 0, 3⟩).1.min_index_ = ⟨0, 0, 0⟩ ∧
    (getDistributionBundle unit_map ⟨0, 0, 3⟩).1.max_index_ = ⟨0, 0, 3⟩ ∧
    (getDistributionBundle unit_map ⟨0, 0, 3⟩).1.min_index_ ≠ ⟨0, 0, 3⟩ := by
  have hk : two_bundle_map.bundle_storage_.keys = [⟨1, 0, 0⟩, ⟨0, 5, 0⟩] := by decide
  refine ⟨one_bundle_map_reachable.getDistributionBundle _, hk, ?_, by decide, by decide,
    by decide, by decide, unit_map_reachable.getDistributionBundle _, by decide, by decide,
    by decide, by decide⟩
  intro b hb
  rw [Storage.get_isSome_iff, hk] at hb
  simp only [List.mem_cons, List.mem_singleton, List.not_mem_nil, or_false] at hb
  rcases hb with rfl | rfl <;> decide

/-- C24, amended: on a map reached from the constructor that holds at least one
bundle, the x and y components of every allocated index being `int` values
(between `INT_MIN` and `INT_MAX`): every allocated index `b` satisfies
`min_index_[a] <= b[a] <= max_index_[a]` on each of the three axes, and on the
x and the y axis the bounds are attained, each of `min_index_[0]`,
`min_index_[1]`, `max_index_[0]`, `max_index_[1]` being the component of some
allocated index; so on these two axes `min_index_` holds the smallest and
`max_index_` the largest component of the allocated indices. When exactly one
bundle `b` is allocated, `min_index_` and `max_index_` agree with `b` on the x
and the y axis. -/
theorem C24_componentwise_bounds (m : OccupancyGridmap) (hm : Reachable m)
    (hne : ∃ b, (m.bundle_storage_.get b).isSome = true)
    (hrange : ∀ b, (m.bundle_storage_.get b).isSome = true →
      (INT_MIN ≤ b.x ∧ b.x ≤ INT_MAX) ∧ (INT_MIN ≤ b.y ∧ b.y ≤ INT_MAX)) :
    (∀ b, (m.bundle_storage_.get b).isSome = true →
      within_bounds m.min_index_ m.max_index_ b) ∧
    (∃ b, (m.bundle_storage_.get b).isSome = true ∧ b.x = m.min_index_.x) ∧
    (∃ b, (m.bundle_storage_.get b).isSome = true ∧ b.y = m.min_index_.y) ∧
    (∃ b, (m.bundle_storage_.get b).isSome = true ∧ b.x = m.max_index_.x) ∧
    (∃ b, (m.bundle_storage_.get b).isSome = true ∧ b.y = m.max_index_.y) ∧
    (∀ b, m.bundle_storage_.keys = [b] →
      m.min_index_.x = b.x ∧ m.min_index_.y = b.y ∧
      m.max_index_.x = b.x ∧ m.max_index_.y = b.y) := by
  obtain ⟨h1, h2, h3, h4⟩ := (hm.bounds_attained hrange).2 hne
  refine ⟨hm.allocated_within_bounds, h1, h2, h3, h4, ?_⟩
  intro b hb
  obtain ⟨b1, a1, e1⟩ := h1
  obtain ⟨b2, a2, e2⟩ := h2
  obtain ⟨b3, a3, e3⟩ := h3
  obtain ⟨b4, a4, e4⟩ := h4
  rw [Storage.get_isSome_iff, hb, List.mem_singleton] at a1 a2 a3 a4
  subst a1 a2 a3 a4
  exact ⟨e1.symm, e2.symm, e3.symm, e4.symm⟩

/-- C24, the worked example: after the allocations `{0, 5, 0}` and `{1, 0, 0}`
the bounds are `min_index_ = {0, 0, 0}` and `max_index_ = {1, 5, 0}`; both
allocated indices lie within them on every axis, `min_index_[0] = 0` and
`max_index_[1] = 5` are components of `{0, 5, 0}`, and `min_index_[1] = 0` and
`max_index_[0] = 1` are components of `{1, 0, 0}`. -/
theorem C24_componentwise_bounds_witness :
    Reachable two_bundle_map ∧
    two_bundle_map.bundle_storage_.keys = [⟨1, 0, 0⟩, ⟨0, 5, 0⟩] ∧
    two_bundle_map.min_index_ = ⟨0, 0, 0⟩ ∧
    two_bundle_map.max_index_ = ⟨1, 5, 0⟩ ∧
    (∀ b, (two_bundle_map.bundle_storage_.get b).isSome = true →
      within_bounds two_bundle_map.min_index_ two_bundle_map.max_index_ b) ∧
    (∃ b, (two_bundle_map.bundle_storage_.get b).isSome = true ∧
      b.x = two_bundle_map.min_index_.x) ∧
    (∃ b, (two_bundle_map.bundle_storage_.get b).isSome = true ∧
      b.y = two_bundle_map.min_index_.y) ∧
    (∃ b, (two_bundle_map.bundle_storage_.get b).isSome = true ∧
      b.x = two_bundle_map.max_index_.x) ∧
    (∃ b, (two_bundle_map.bundle_storage_.get b).isSome = true ∧
      b.y = two_bundle_map.max_index_.y) := by
  have hm : Reachable two_bundle_map := one_bundle_map_reachable.getDistributionBundle _
  have hk : two_bundle_map.bundle_storage_.keys = [⟨1, 0, 0⟩, ⟨0, 5, 0⟩] := by decide
  have hne : ∃ b, (two_bundle_map.bundle_storage_.get b).isSome = true :=
    ⟨⟨1, 0, 0⟩, by decide⟩
  have hrange : ∀ b, (two_bundle_map.bundle_storage_.get b).isSome = true →
      (INT_MIN ≤ b.x ∧ b.x ≤ INT_MAX) ∧ (INT_MIN ≤ b.y ∧ b.y ≤ INT_MAX) := by
    intro b hb
    rw [Storage.get_isSome_iff, hk] at hb
    simp only [List.mem_cons, List.mem_singleton, List.not_mem_nil, or_false] at hb
    rcases hb with rfl | rfl <;> decide
  obtain ⟨h1, h2, h3, h4, h5, _⟩ := C24_componentwise_bounds _ hm hne hrange
  exact ⟨hm, hk, by decide, by decide, h1, h2, h3, h4, h5⟩

/-! ## C25: neighbouring bundles share four corners -/

theorem corner_offset_bits (k : Fin 8) :
    ((corner_offset k).x = 0 ∨ (corner_offset k).x = 1) ∧
    ((corner_offset k).y = 0 ∨ (corner_offset k).y = 1) ∧
    ((corner_offset k).z = 0 ∨ (corner_offset k).z = 1) := by
  fin_cases k <;> decide

theorem half_floor (a o : Int) (ho : o = 0 ∨ o = 1) :
    Int.fdiv a 2 + o * Int.fmod a 2 = (a + o) / 2 := by
  rw [Int.fdiv_eq_ediv a (by norm_num), Int.fmod_eq_emod a (by norm_num)]
  rcases ho with rfl | rfl <;> omega

theorem storage_index_half (b : index_t) (k : Fin 8) :
    storage_index b k
      = ⟨(b.x + (corner_offset k).x) / 2, (b.y + (corner_offset k).y) / 2,
         (b.z + (corner_offset k).z) / 2⟩ := by
  obtain ⟨hx, hy, hz⟩ := corner_offset_bits k
  rw [storage_index_eq, half_floor _ _ hx, half_floor _ _ hy, half_floor _ _ hz]

theorem half_eq_iff (a a2 o : Int) (ho : o = 0 ∨ o = 1) (h : a2 = a + 1 ∨ a2 = a - 1) :
    (a + o) / 2 = (a2 + o) / 2 ↔ o = (if a2 = a + 1 then a % 2 else a2 % 2) := by
  rcases ho with rfl | rfl <;> rcases h with rfl | rfl <;> split <;> omega

theorem count_offset_x (c : Int) (hc : c = 0 ∨ c = 1) :
    ((List.finRange 8).filter (fun k => decide ((corner_offset k).x = c))).length = 4 ∧
    ((List.finRange 8).filter (fun k => decide ((corner_offset k).x ≠ c))).length = 4 := by
  rcases hc with rfl | rfl <;> decide

theorem count_offset_y (c : Int) (hc : c = 0 ∨ c = 1) :
    ((List.finRange 8).filter (fun k => decide ((corner_offset k).y = c))).length = 4 ∧
    ((List.finRange 8).filter (fun k => decide ((corner_offset k).y ≠ c))).length = 4 := by
  rcases hc with rfl | rfl <;> decide

theorem count_offset_z (c : Int) (hc : c = 0 ∨ c = 1) :
    ((List.finRange 8).filter (fun k => decide ((corner_offset k).z = c))).length = 4 ∧
    ((List.finRange 8).filter (fun k => decide ((corner_offset k).z ≠ c))).length = 4 := by
  rcases hc with rfl | rfl <;> decide

theorem parity_bit (a a2 : Int) :
    (if a2 = a + 1 then a % 2 else a2 % 2) = 0 ∨ (if a2 = a + 1 then a % 2 else a2 % 2) = 1 := by
  split <;> omega

theorem shared_corners_length (b b2 : index_t) (h : adjacent b b2) :
    (shared_corners b b2).length = 4 ∧ (separate_corners b b2).length = 4 := by
  unfold shared_corners separate_corners
  rcases h with ⟨hx, hy, hz⟩ | ⟨hx, hy, hz⟩ | ⟨hx, hy, hz⟩
  · have key : ∀ k : Fin 8, storage_index b k = storage_index b2 k
        ↔ (corner_offset k).x = (if b2.x = b.x + 1 then b.x % 2 else b2.x % 2) := by
      intro k
      rw [storage_index_half, storage_index_half, hy, hz, index_t.mk.injEq]
      simp only [and_true]
      exact half_eq_iff _ _ _ (corner_offset_bits k).1 hx
    have e1 : (fun k : Fin 8 => decide (storage_index b k = storage_index b2 k))
        = (fun k => decide ((corner_offset k).x
            = (if b2.x = b.x + 1 then b.x % 2 else b2.x % 2))) :=
      funext (fun k => decide_eq_decide.2 (key k))
    have e2 : (fun k : Fin 8 => decide (storage_index b k ≠ storage_index b2 k))
        = (fun k => decide ((corner_offset k).x
            ≠ (if b2.x = b.x + 1 then b.x % 2 else b2.x % 2))) :=
      funext (fun k => decide_eq_decide.2 (not_congr (key k)))
    rw [e1, e2]
    exact count_offset_x _ (parity_bit _ _)
  · have key : ∀ k : Fin 8, storage_index b k = storage_index b2 k
        ↔ (corner_offset k).y = (if b2.y = b.y + 1 then b.y % 2 else b2.y % 2) := by
      intro k
      rw [storage_index_half, storage_index_half, hx, hz, index_t.mk.injEq]
      simp only [and_true, true_and]
      exact half_eq_iff _ _ _ (corner_offset_bits k).2.1 hy
    have e1 : (fun k : Fin 8 => decide (storage_index b k = storage_index b2 k))
        = (fun k => decide ((corner_offset k).y
            = (if b2.y = b.y + 1 then b.y % 2 else b2.y % 2))) :=
      funext (fun k => decide_eq_decide.2 (key k))
    have e2 : (fun k : Fin 8 => decide (storage_index b k ≠ storage_index b2 k))
        = (fun k => decide ((corner_offset k).y
            ≠ (if b2.y = b.y + 1 then b.y % 2 else b2.y % 2))) :=
      funext (fun k => decide_eq_decide.2 (not_congr (key k)))
    rw [e1, e2]
    exact count_offset_y _ (parity_bit _ _)
  · have key : ∀ k : Fin 8, storage_index b k = storage_index b2 k
        ↔ (corner_offset k).z = (if b2.z = b.z + 1 then b.z % 2 else b2.z % 2) := by
      intro k
      rw [storage_index_half, storage_index_half, hx, hy, index_t.mk.injEq]
      simp only [true_and]
      exact half_eq_iff _ _ _ (corner_offset_bits k).2.2 hz
    have e1 : (fun k : Fin 8 => decide (storage_index b k = storage_index b2 k))
        = (fun k => decide ((corner_offset k).z
            = (if b2.z = b.z + 1 then b.z % 2 else b2.z % 2))) :=
      funext (fun k => decide_eq_decide.2 (key k))
    have e2 : (fun k : Fin 8 => decide (storage_index b k ≠ storage_index b2 k))
        = (fun k => decide ((corner_offset k).z
            ≠ (if b2.z = b.z + 1 then b.z % 2 else b2.z % 2))) :=
      funext (fun k => decide_eq_decide.2 (not_congr (key k)))
    rw [e1, e2]
    exact count_offset_z _ (parity_bit _ _)

/-- C25: for two bundle indices `b` and `b2` that differ by exactly 1 on one
axis and agree on the other two, exactly 4 of the 8 corners `k` have the same
storage index in Corner Lattice `k` for `b` and for `b2`, and the other 4 have
different ones. On a reachable map an occupied observation fused into bundle
`b` therefore arrives at these 4 corner accumulators of `b2` and at no other
corner accumulator of `b2`. -/
theorem C25_neighbours_share_corners (b b2 : index_t) (h : adjacent b b2)
    (m : OccupancyGridmap) (hm : Reachable m) (p : point_t) :
    (shared_corners b b2).length = 4 ∧
    (separate_corners b b2).length = 4 ∧
    (∀ k : Fin 8, k ∈ shared_corners b b2 ↔ storage_index b k = storage_index b2 k) ∧
    (∀ k : Fin 8, k ∈ separate_corners b b2 ↔ storage_index b k ≠ storage_index b2 k) ∧
    (∀ k ∈ shared_corners b b2,
      observed (updateOccupied m b p) k (storage_index b2 k)
        = observed m k (storage_index b2 k) ++ [update_t.occupied p]) ∧
    (∀ k ∈ separate_corners b b2,
      observed (updateOccupied m b p) k (storage_index b2 k)
        = observed m k (storage_index b2 k)) := by
  have hmem : ∀ k : Fin 8, k ∈ shared_corners b b2
      ↔ storage_index b k = storage_index b2 k := by
    intro k
    simp [shared_corners, List.mem_filter, List.mem_finRange]
  have hmem2 : ∀ k : Fin 8, k ∈ separate_corners b b2
      ↔ storage_index b k ≠ storage_index b2 k := by
    intro k
    simp [separate_corners, List.mem_filter, List.mem_finRange]
  refine ⟨(shared_corners_length b b2 h).1, (shared_corners_length b b2 h).2, hmem, hmem2,
    ?_, ?_⟩
  · intro k hk
    rw [hm.wellFormed.observed_updateOccupied, if_pos ((hmem k).1 hk).symm]
  · intro k hk
    rw [hm.wellFormed.observed_updateOccupied,
      if_neg (fun e => (hmem2 k).1 hk e.symm), List.append_nil]

/-- C25, the worked example: the bundles `{1, 0, 0}` and `{2, 0, 0}` share the
corners 1, 3, 5 and 7; a point fused into `{1, 0, 0}` on the fresh `unit_map`
is the one observation of corner 1 of `{2, 0, 0}`, and corner 0 of `{2, 0, 0}`
has none. -/
theorem C25_neighbours_share_corners_witness :
    adjacent ⟨1, 0, 0⟩ ⟨2, 0, 0⟩ ∧ Reachable unit_map ∧
    shared_corners ⟨1, 0, 0⟩ ⟨2, 0, 0⟩ = [1, 3, 5, 7] ∧
    separate_corners ⟨1, 0, 0⟩ ⟨2, 0, 0⟩ = [0, 2, 4, 6] ∧
    observed (updateOccupied unit_map ⟨1, 0, 0⟩ ⟨3 / 5, 1 / 10, 1 / 10⟩) 1
      (storage_index ⟨2, 0, 0⟩ 1) = [update_t.occupied ⟨3 / 5, 1 / 10, 1 / 10⟩] ∧
    observed (updateOccupied unit_map ⟨1, 0, 0⟩ ⟨3 / 5, 1 / 10, 1 / 10⟩) 0
      (storage_index ⟨2, 0, 0⟩ 0) = [] := by
  have hadj : adjacent ⟨1, 0, 0⟩ ⟨2, 0, 0⟩ := by decide
  have hs : shared_corners ⟨1, 0, 0⟩ ⟨2, 0, 0⟩ = [1, 3, 5, 7] := by decide
  have hd : separate_corners ⟨1, 0, 0⟩ ⟨2, 0, 0⟩ = [0, 2, 4, 6] := by decide
  obtain ⟨_, _, _, _, h5, h6⟩ :=
    C25_neighbours_share_corners ⟨1, 0, 0⟩ ⟨2, 0, 0⟩ hadj unit_map unit_map_reachable
      ⟨3 / 5, 1 / 10, 1 / 10⟩
  refine ⟨hadj, unit_map_reachable, hs, hd, ?_, ?_⟩
  · rw [h5 1 (by rw [hs]; decide), observed_unit_map]
    rfl
  · rw [h6 0 (by rw [hd]; decide), observed_unit_map]

/-! ## The bundles that the visibility look-up allocates -/

theorem grows_isSome {m m2 : OccupancyGridmap} (h : grows m m2) (b : index_t)
    (hb : (m.bundle_storage_.get b).isSome = true) :
    (m2.bundle_storage_.get b).isSome = true := by
  obtain ⟨v, hv⟩ := Option.isSome_iff_exists.1 hb
  rw [h.1 b v hv]
  rfl

theorem current_visibility_allocates (api : accumulator_api)
    (ivm ivm_visibility : inverse_sensor_model_t) (start_bi : index_t) (m : OccupancyGridmap)
    (bi : index_t) :
    ∀ nb ∈ neighbours start_bi bi,
      ((current_visibility api ivm ivm_visibility start_bi m bi).2.bundle_storage_.get
        nb).isSome = true := by
  intro nb hnb
  rw [current_visibility_snd]
  exact run_steps_allocates _ m (step_t.allocate nb) (List.mem_map.2 ⟨nb, hnb, rfl⟩)

theorem insertVolumetric_lambda_consults (api : accumulator_api) (capi : cloud_api)
    (ivm ivm_visibility : inverse_sensor_model_t) (I : line_iterator_t) (fuel : Nat)
    (start_bi : index_t) (start_p : point_t) (m : OccupancyGridmap) (bi : index_t)
    (d : distribution_t) (g : gaussian_t) (ray : List index_t)
    (hg : api.getDistribution d = some g)
    (hray : traversed I fuel
      (I.make start_p (m.m_T_w_.apply (capi.getMean g)) m.bundle_resolution_) = some ray) :
    ∃ m2 : OccupancyGridmap,
      insertVolumetric_lambda api capi ivm ivm_visibility I fuel start_bi start_p m bi d
        = some m2 ∧
      (∀ r ∈ ray.take
          (marked_count api ivm ivm_visibility start_bi (capi.numOccupied d) m ray + 1),
        ∀ nb ∈ neighbours start_bi r, (m2.bundle_storage_.get nb).isSome = true) ∧
      (marked_count api ivm ivm_visibility start_bi (capi.numOccupied d) m ray = ray.length →
        ∀ nb ∈ neighbours start_bi bi, (m2.bundle_storage_.get nb).isSome = true) := by
  obtain ⟨steps, r, h1, _, h3, _, _, h6⟩ :=
    insertVolumetric_loop_spec api ivm ivm_visibility I start_bi (capi.numOccupied d) fuel _ 1 m
      ray hray
  have hloop : ∀ r0 ∈ ray.take
      (marked_count api ivm ivm_visibility start_bi (capi.numOccupied d) m ray + 1),
      ∀ nb ∈ neighbours start_bi r0,
        ((run_steps m steps).bundle_storage_.get nb).isSome = true := by
    intro r0 hr0 nb hnb
    obtain ⟨s, hs, hsb⟩ := h6 nb (Or.inr ⟨r0, hr0, hnb⟩)
    rw [← hsb]
    exact run_steps_allocates steps m s hs
  cases r with
  | none =>
    refine ⟨run_steps m steps, ?_, hloop, ?_⟩
    · simp only [insertVolumetric_lambda, hg, h1]
    · intro hc
      have := h3.1 rfl
      unfold marked_count at hc
      omega
  | some v2 =>
    by_cases hp : v2 * (current_visibility api ivm ivm_visibility start_bi (run_steps m steps)
        bi).1 ≥ ivm_visibility.prob_prior
    · refine ⟨updateOccupied_d (current_visibility api ivm ivm_visibility start_bi
          (run_steps m steps) bi).2 bi g, ?_, ?_, ?_⟩
      · simp only [insertVolumetric_lambda, hg, h1]
        rw [if_pos hp]
      · intro r0 hr0 nb hnb
        exact grows_isSome (grows_trans
          (grows_current_visibility api ivm ivm_visibility start_bi _ bi)
          (grows_updateOccupied_d _ bi g)) nb (hloop r0 hr0 nb hnb)
      · intro _ nb hnb
        exact grows_isSome (grows_updateOccupied_d _ bi g) nb
          (current_visibility_allocates api ivm ivm_visibility start_bi _ bi nb hnb)
    · refine ⟨(current_visibility api ivm ivm_visibility start_bi (run_steps m steps) bi).2,
        ?_, ?_, ?_⟩
      · simp only [insertVolumetric_lambda, hg, h1]
        rw [if_neg hp]
      · intro r0 hr0 nb hnb
        exact grows_isSome (grows_current_visibility api ivm ivm_visibility start_bi _ bi) nb
          (hloop r0 hr0 nb hnb)
      · intro _ nb hnb
        exact current_visibility_allocates api ivm ivm_visibility start_bi _ bi nb hnb

theorem traverse_entries_split {α σ : Type} (f : σ → index_t → α → Option σ)
    (pre : List (index_t × α)) (e : index_t × α) (post : List (index_t × α)) :
    ∀ (s sf : σ), traverse_entries f (pre ++ e :: post) s = some sf →
      ∃ s1 s2, traverse_entries f pre s = some s1 ∧ f s1 e.1 e.2 = some s2 ∧
        traverse_entries f post s2 = some sf := by
  induction pre with
  | nil =>
    intro s sf h
    simp only [List.nil_append, traverse_entries] at h
    cases hfe : f s e.1 e.2 with
    | none => rw [hfe] at h; simp at h
    | some s2 =>
      rw [hfe] at h
      exact ⟨s, s2, rfl, hfe, h⟩
  | cons a pre ih =>
    intro s sf h
    simp only [List.cons_append, traverse_entries] at h
    cases hfa : f s a.1 a.2 with
    | none => rw [hfa] at h; simp at h
    | some sa =>
      rw [hfa] at h
      obtain ⟨s1, s2, h1, h2, h3⟩ := ih sa sf h
      refine ⟨s1, s2, ?_, h2, h3⟩
      simp only [traverse_entries, hfa]
      exact h1

theorem reaches_m_T_w {m m2 : OccupancyGridmap} (h : reaches m m2) : m2.m_T_w_ = m.m_T_w_ := by
  obtain ⟨steps, rfl⟩ := h
  exact run_steps_m_T_w steps m

theorem reaches_bundle_resolution {m m2 : OccupancyGridmap} (h : reaches m m2) :
    m2.bundle_resolution_ = m.bundle_resolution_ := by
  obtain ⟨steps, rfl⟩ := h
  exact run_steps_bundle_resolution steps m

theorem insertVolumetric_lambda_returns (api : accumulator_api) (capi : cloud_api)
    (ivm ivm_visibility : inverse_sensor_model_t) (I : line_iterator_t) (fuel : Nat)
    (start_bi : index_t) (start_p : point_t) (m : OccupancyGridmap) (bi : index_t)
    (d : distribution_t)
    (hterm : ∀ g, api.getDistribution d = some g → ∃ n : Nat, n < fuel ∧
      I.done (I.next^[n] (I.make start_p (m.m_T_w_.apply (capi.getMean g))
        m.bundle_resolution_)) = true) :
    ∃ m2, insertVolumetric_lambda api capi ivm ivm_visibility I fuel start_bi start_p m bi d
      = some m2 := by
  cases hg : api.getDistribution d with
  | none => exact ⟨m, by simp only [insertVolumetric_lambda, hg]⟩
  | some g =>
    obtain ⟨n, hn, hd⟩ := hterm g hg
    obtain ⟨ray, hray⟩ := traversed_of_done I n _ hd fuel hn
    obtain ⟨m2, h, _⟩ := insertVolumetric_lambda_consults api capi ivm ivm_visibility I fuel
      start_bi start_p m bi d g ray hg hray
    exact ⟨m2, h⟩

theorem traverse_entries_returns (api : accumulator_api) (capi : cloud_api)
    (ivm ivm_visibility : inverse_sensor_model_t) (I : line_iterator_t) (fuel : Nat)
    (start_bi : index_t) (start_p : point_t) (m0 : OccupancyGridmap)
    (es : List (index_t × distribution_t)) :
    (∀ e ∈ es, ∀ g, api.getDistribution e.2 = some g → ∃ n : Nat, n < fuel ∧
      I.done (I.next^[n] (I.make start_p (m0.m_T_w_.apply (capi.getMean g))
        m0.bundle_resolution_)) = true) →
    ∀ m, reaches m0 m →
      ∃ mf, traverse_entries
        (insertVolumetric_lambda api capi ivm ivm_visibility I fuel start_bi start_p) es m
        = some mf := by
  induction es with
  | nil => intro _ m _; exact ⟨m, rfl⟩
  | cons e es ih =>
    intro hterm m hm
    obtain ⟨m2, h2⟩ := insertVolumetric_lambda_returns api capi ivm ivm_visibility I fuel
      start_bi start_p m e.1 e.2 (by
        intro g hg
        rw [reaches_m_T_w hm, reaches_bundle_resolution hm]
        exact hterm e (List.mem_cons_self _ _) g hg)
    obtain ⟨mf, hf⟩ := ih (fun e2 he2 => hterm e2 (List.mem_cons_of_mem _ he2)) m2
      (reaches_trans hm (reaches_insertVolumetric_lambda api capi ivm ivm_visibility I fuel
        start_bi start_p m e.1 e.2 m2 h2))
    exact ⟨mf, by simp only [traverse_entries, h2]; exact hf⟩

/-! ## C26: evaluating the visibility allocates bundles -/

/-- C26: `insertVolumetric` on a reachable map, for an iterator that is done
within the fuel on the ray of every populated scratch bundle. The call
returns. `current_visibility` leaves the three neighbours it reads allocated,
before its value is compared with the prior probability. For every scratch
entry `(bi, d)` with a distribution, with `m1` the map when its ray starts and
`ray` the bundles towards its fused mean: the three neighbours of every
examined bundle, the one at which the ray stops included, and hence those of
the first bundle of the ray, exist in Bundle Storage when the call returns;
when the ray completes, so do the three neighbours of the endpoint bundle `bi`.
Each of these bundles is counted in the Bounding Index of the map the call
returns, `min_index_[a] <= nb[a] <= max_index_[a]` on each of the three axes
`a`, whether or not it received an observation. -/
theorem C26_visibility_lookup_allocates (api : accumulator_api) (capi : cloud_api)
    (I : line_iterator_t) (fuel : Nat) (m : OccupancyGridmap) (origin : transform_t)
    (points : List point_t) (ivm ivm_visibility : inverse_sensor_model_t) (hm : Reachable m)
    (hterm : ∀ e ∈ (fuse_cloud capi m origin points).entries, ∀ g,
      api.getDistribution e.2 = some g → ∃ n : Nat, n < fuel ∧
        I.done (I.next^[n] (I.make (m.m_T_w_.apply origin.t)
          (m.m_T_w_.apply (capi.getMean g)) m.bundle_resolution_)) = true) :
    (∀ (m1 : OccupancyGridmap) (b : index_t), ∀ nb ∈ neighbours (toBundleIndex m origin.t) b,
      ((current_visibility api ivm ivm_visibility (toBundleIndex m origin.t) m1
        b).2.bundle_storage_.get nb).isSome = true) ∧
    ∃ mf : OccupancyGridmap,
      insertVolumetric api capi I fuel m origin points ivm ivm_visibility = some mf ∧
      Reachable mf ∧
      ∀ (pre post : List (index_t × distribution_t)) (bi : index_t) (d : distribution_t)
        (g : gaussian_t),
        (fuse_cloud capi m origin points).entries = pre ++ (bi, d) :: post →
        api.getDistribution d = some g →
        ∃ (m1 : OccupancyGridmap) (ray : List index_t),
          traverse_entries
            (insertVolumetric_lambda api capi ivm ivm_visibility I fuel
              (toBundleIndex m origin.t) (m.m_T_w_.apply origin.t)) pre m = some m1 ∧
          traversed I fuel (I.make (m.m_T_w_.apply origin.t)
            (m.m_T_w_.apply (capi.getMean g)) m.bundle_resolution_) = some ray ∧
          (∀ r ∈ ray.take (marked_count api ivm ivm_visibility (toBundleIndex m origin.t)
              (capi.numOccupied d) m1 ray + 1),
            ∀ nb ∈ neighbours (toBundleIndex m origin.t) r,
              (mf.bundle_storage_.get nb).isSome = true ∧
              within_bounds mf.min_index_ mf.max_index_ nb) ∧
          (∀ r0 rest, ray = r0 :: rest →
            ∀ nb ∈ neighbours (toBundleIndex m origin.t) r0,
              (mf.bundle_storage_.get nb).isSome = true ∧
              within_bounds mf.min_index_ mf.max_index_ nb) ∧
          (marked_count api ivm ivm_visibility (toBundleIndex m origin.t)
              (capi.numOccupied d) m1 ray = ray.length →
            ∀ nb ∈ neighbours (toBundleIndex m origin.t) bi,
              (mf.bundle_storage_.get nb).isSome = true ∧
              within_bounds mf.min_index_ mf.max_index_ nb) := by
  refine ⟨fun m1 b => current_visibility_allocates api ivm ivm_visibility _ m1 b, ?_⟩
  obtain ⟨mf, hmf⟩ := traverse_entries_returns api capi ivm ivm_visibility I fuel
    (toBundleIndex m origin.t) (m.m_T_w_.apply origin.t) m
    (fuse_cloud capi m origin points).entries hterm m (reaches_refl m)
  have hret : insertVolumetric api capi I fuel m origin points ivm ivm_visibility = some mf :=
    hmf
  have hreach : Reachable mf :=
    reaches_reachable (reaches_insertVolumetric api capi I fuel m mf origin points ivm
      ivm_visibility hret) hm
  refine ⟨mf, hret, hreach, ?_⟩
  intro pre post bi d g hentries hg
  rw [hentries] at hmf
  obtain ⟨m1, m2, h1, h2, h3⟩ := traverse_entries_split _ pre (bi, d) post m mf hmf
  have hr1 : reaches m m1 := reaches_traverse_entries _
    (fun ma b a mb h => reaches_insertVolumetric_lambda api capi ivm ivm_visibility I fuel _ _
      ma b a mb h) pre m m1 h1
  obtain ⟨n, hn, hd⟩ := hterm (bi, d) (by rw [hentries]; simp) g hg
  obtain ⟨ray, hray⟩ := traversed_of_done I n _ hd fuel hn
  have hray1 : traversed I fuel (I.make (m.m_T_w_.apply origin.t)
      (m1.m_T_w_.apply (capi.getMean g)) m1.bundle_resolution_) = some ray := by
    rw [reaches_m_T_w hr1, reaches_bundle_resolution hr1]
    exact hray
  obtain ⟨m2b, h2b, hex, hend⟩ := insertVolumetric_lambda_consults api capi ivm ivm_visibility
    I fuel (toBundleIndex m origin.t) (m.m_T_w_.apply origin.t) m1 bi d g ray hg hray1
  have he : m2b = m2 := by
    have h2c : insertVolumetric_lambda api capi ivm ivm_visibility I fuel
        (toBundleIndex m origin.t) (m.m_T_w_.apply origin.t) m1 bi d = some m2 := h2
    rw [h2b] at h2c
    exact Option.some.inj h2c
  subst he
  have hg2 : grows m2b mf := grows_traverse_entries _
    (fun ma b a mb h => grows_insertVolumetric_lambda api capi ivm ivm_visibility I fuel _ _
      ma b a mb h) post m2b mf h3
  have fin : ∀ nb, (m2b.bundle_storage_.get nb).isSome = true →
      (mf.bundle_storage_.get nb).isSome = true ∧
      within_bounds mf.min_index_ mf.max_index_ nb := by
    intro nb hnb
    have ha := grows_isSome hg2 nb hnb
    exact ⟨ha, hreach.allocated_within_bounds nb ha⟩
  refine ⟨m1, ray, h1, hray, ?_, ?_, ?_⟩
  · intro r hr nb hnb
    exact fin nb (hex r hr nb hnb)
  · intro r0 rest hrr nb hnb
    refine fin nb (hex r0 ?_ nb hnb)
    rw [hrr, List.take_succ_cons]
    exact List.mem_cons_self _ _
  · intro hc nb hnb
    exact fin nb (hend hc nb hnb)

theorem blocked_map_near_terminates :
    ∀ e ∈ (fuse_cloud example_cloud_api blocked_map transform_t.identity
        [⟨11 / 10, 1 / 10, 1 / 10⟩]).entries, ∀ g,
      hit_api.getDistribution e.2 = some g → ∃ n : Nat, n < 3 ∧
        simple_iterator_t.done (simple_iterator_t.next^[n]
          (simple_iterator_t.make (blocked_map.m_T_w_.apply transform_t.identity.t)
            (blocked_map.m_T_w_.apply (example_cloud_api.getMean g))
            blocked_map.bundle_resolution_)) = true := by
  intro e he g hg
  rw [blocked_map_entries_near, List.mem_singleton] at he
  subst he
  have hg2 : g = ⟨[⟨11 / 10, 1 / 10, 1 / 10⟩]⟩ := by
    have : hit_api.getDistribution ⟨[update_t.occupied ⟨11 / 10, 1 / 10, 1 / 10⟩]⟩
        = some ⟨[⟨11 / 10, 1 / 10, 1 / 10⟩]⟩ := rfl
    rw [this] at hg
    exact (Option.some.inj hg).symm
  subst hg2
  refine ⟨2, by decide, ?_⟩
  have hmake : simple_iterator_t.make (blocked_map.m_T_w_.apply transform_t.identity.t)
      (blocked_map.m_T_w_.apply (example_cloud_api.getMean ⟨[⟨11 / 10, 1 / 10, 1 / 10⟩]⟩))
      blocked_map.bundle_resolution_ = ((⟨0, 0, 0⟩, ⟨2, 0, 0⟩) : index_t × index_t) := by
    rw [blocked_map_m_T_w_apply, blocked_map_m_T_w_apply, blocked_map_bundle_resolution]
    simp only [simple_iterator_t, example_cloud_api, transform_t.identity, List.map_cons,
      List.map_nil, List.sum_cons, List.sum_nil, List.length_cons, List.length_nil]
    have e1 : Int.floor (((11 / 10 + 0) / ((0 + 1 : ℕ) : ℚ)) / (1 / 2)) = 2 := by
      rw [Int.floor_eq_iff]; norm_num
    have e2 : Int.floor (((1 / 10 + 0) / ((0 + 1 : ℕ) : ℚ)) / (1 / 2)) = 0 := by
      rw [Int.floor_eq_iff]; norm_num
    have e3 : Int.floor ((0 : ℚ) / (1 / 2)) = 0 := by norm_num
    rw [e1, e2, e3]
  rw [hmake]
  decide

/-- C26, the worked example: the scan of the one point (1.1, 0.1, 0.1) on the
map with the occupied bundle `{1, 0, 0}`. The ray examines `{0, 0, 0}` and
stops at `{1, 0, 0}`. The neighbour `{-1, 0, 0}` of the first bundle and the
neighbour `{1, -1, 0}` of the bundle at which the ray stops were not allocated
before the call, are allocated after it and lie within the Bounding Index of
the returned map on every axis. -/
theorem C26_visibility_lookup_allocates_witness :
    Reachable blocked_map ∧
    (∀ e ∈ (fuse_cloud example_cloud_api blocked_map transform_t.identity
        [⟨11 / 10, 1 / 10, 1 / 10⟩]).entries, ∀ g,
      hit_api.getDistribution e.2 = some g → ∃ n : Nat, n < 3 ∧
        simple_iterator_t.done (simple_iterator_t.next^[n]
          (simple_iterator_t.make (blocked_map.m_T_w_.apply transform_t.identity.t)
            (blocked_map.m_T_w_.apply (example_cloud_api.getMean g))
            blocked_map.bundle_resolution_)) = true) ∧
    (blocked_map.bundle_storage_.get ⟨-1, 0, 0⟩).isSome = false ∧
    (blocked_map.bundle_storage_.get ⟨1, -1, 0⟩).isSome = false ∧
    ∃ mf : OccupancyGridmap,
      insertVolumetric hit_api example_cloud_api simple_iterator_t 3 blocked_map
        transform_t.identity [⟨11 / 10, 1 / 10, 1 / 10⟩] example_model example_model
        = some mf ∧
      ((mf.bundle_storage_.get ⟨-1, 0, 0⟩).isSome = true ∧
        within_bounds mf.min_index_ mf.max_index_ ⟨-1, 0, 0⟩) ∧
      ((mf.bundle_storage_.get ⟨1, -1, 0⟩).isSome = true ∧
        within_bounds mf.min_index_ mf.max_index_ ⟨1, -1, 0⟩) := by
  obtain ⟨_, mf, hret, _, hall⟩ :=
    C26_visibility_lookup_allocates hit_api example_cloud_api simple_iterator_t 3 blocked_map
      transform_t.identity [⟨11 / 10, 1 / 10, 1 / 10⟩] example_model example_model
      blocked_map_reachable blocked_map_near_terminates
  obtain ⟨m1, ray, h1, hray, hex, hfirst, _⟩ := hall [] [] ⟨2, 0, 0⟩
    ⟨[update_t.occupied ⟨11 / 10, 1 / 10, 1 / 10⟩]⟩ ⟨[⟨11 / 10, 1 / 10, 1 / 10⟩]⟩
    blocked_map_entries_near rfl
  have hm1 : m1 = blocked_map := by
    simp only [traverse_entries, Option.some.injEq] at h1
    exact h1.symm
  have hr : ray = [⟨0, 0, 0⟩, ⟨1, 0, 0⟩] := by
    rw [blocked_map_ray_near] at hray
    exact (Option.some.inj hray).symm
  subst hm1 hr
  rw [blocked_map_start] at hex hfirst
  rw [blocked_map_marked_count] at hex
  refine ⟨blocked_map_reachable, blocked_map_near_terminates, by decide, by decide, mf, hret,
    ?_, ?_⟩
  · exact hfirst ⟨0, 0, 0⟩ [⟨1, 0, 0⟩] rfl ⟨-1, 0, 0⟩ (by decide)
  · exact hex ⟨1, 0, 0⟩ (by decide) ⟨1, -1, 0⟩ (by decide)

/-! ## C27: the extent of the map -/

/-- C29: evaluation of the code at the failing input. The 2D map constructed
at the identity pose with resolution 1 and size `{10, 10}` has
`size_m_ = {11, 11}`. For the pose with translation (10.5, 0.5), `validate`
returns true and `toIndex` of the translation is `{10, 0}`: the x index equals
`size[0]`, so it is not below the array size. -/
theorem C29_validate_admits_index_size :
    (cslibs_ndt_2d.Gridmap.new ⟨1, 0, ⟨0, 0⟩⟩ 1 ⟨10, 10⟩).size_ = ⟨10, 10⟩ ∧
    (cslibs_ndt_2d.Gridmap.new ⟨1, 0, ⟨0, 0⟩⟩ 1 ⟨10, 10⟩).size_m_ = ⟨11, 11⟩ ∧
    cslibs_ndt_2d.validate (cslibs_ndt_2d.Gridmap.new ⟨1, 0, ⟨0, 0⟩⟩ 1 ⟨10, 10⟩)
      ⟨1, 0, ⟨21 / 2, 1 / 2⟩⟩ = true ∧
    cslibs_ndt_2d.toIndex (cslibs_ndt_2d.Gridmap.new ⟨1, 0, ⟨0, 0⟩⟩ 1 ⟨10, 10⟩)
      ⟨21 / 2, 1 / 2⟩ = ⟨10, 0⟩ ∧
    ¬ ((cslibs_ndt_2d.toIndex (cslibs_ndt_2d.Gridmap.new ⟨1, 0, ⟨0, 0⟩⟩ 1 ⟨10, 10⟩)
      ⟨21 / 2, 1 / 2⟩).x
        < ((cslibs_ndt_2d.Gridmap.new ⟨1, 0, ⟨0, 0⟩⟩ 1 ⟨10, 10⟩).size_.x : Int)) := by
  have hp : (cslibs_ndt_2d.Gridmap.new ⟨1, 0, ⟨0, 0⟩⟩ 1 ⟨10, 10⟩).m_T_w_.apply ⟨21 / 2, 1 / 2⟩
      = ⟨21 / 2, 1 / 2⟩ := by
    simp only [cslibs_ndt_2d.Gridmap.new, cslibs_ndt_2d.transform_t.inverse,
      cslibs_ndt_2d.transform_t.apply, cslibs_ndt_2d.point_t.mk.injEq]
    norm_num
  have hs : (cslibs_ndt_2d.Gridmap.new ⟨1, 0, ⟨0, 0⟩⟩ 1 ⟨10, 10⟩).size_m_ = ⟨11, 11⟩ := by
    simp only [cslibs_ndt_2d.Gridmap.new, cslibs_ndt_2d.size_m_t.mk.injEq]
    norm_num
  have hi : cslibs_ndt_2d.toIndex (cslibs_ndt_2d.Gridmap.new ⟨1, 0, ⟨0, 0⟩⟩ 1 ⟨10, 10⟩)
      ⟨21 / 2, 1 / 2⟩ = ⟨10, 0⟩ := by
    have e1 : Int.floor ((21 / 2 : ℚ) * (1 / 1)) = 10 := by
      rw [Int.floor_eq_iff]; norm_num
    have e2 : Int.floor ((1 / 2 : ℚ) * (1 / 1)) = 0 := by
      rw [Int.floor_eq_iff]; norm_num
    simp only [cslibs_ndt_2d.toIndex, hp]
    simp only [cslibs_ndt_2d.Gridmap.new, e1, e2]
  refine ⟨rfl, hs, ?_, hi, ?_⟩
  · simp only [cslibs_ndt_2d.validate, hp, hs]
    norm_num
  · rw [hi]
    decide

/-! ## C30: the linear addressing of `NDTGrid` -/

/-- C30: evaluation of the code at the failing inputs. For the size `{2, 3}`
the constructor sets `data_size = 6` and `steps = {1, 3}` (it multiplies by
`size[i]`, not `size[i-1]`); the in-range index `{0, 2}` has the linear
position 6, `checkIndex` returns false and `at` throws "Out of bounds!". For
the size `{3, 2}` it sets `steps = {1, 2}`, and the distinct in-range indices
`{2, 0}` and `{0, 1}` both have the position 2, so `at` returns the same cell
for both. -/
theorem C30_steps_use_wrong_size :
    (ndt.NDTGrid.new [2, 3] [1, 1] [0, 0] : ndt.NDTGrid Unit).data_size = 6 ∧
    (ndt.NDTGrid.new [2, 3] [1, 1] [0, 0] : ndt.NDTGrid Unit).steps = [1, 3] ∧
    (ndt.NDTGrid.new [2, 3] [1, 1] [0, 0] : ndt.NDTGrid Unit).in_range [0, 2] ∧
    (ndt.NDTGrid.new [2, 3] [1, 1] [0, 0] : ndt.NDTGrid Unit).pos [0, 2] = 6 ∧
    (ndt.NDTGrid.new [2, 3] [1, 1] [0, 0] : ndt.NDTGrid Unit).checkIndex [0, 2] = false ∧
    (ndt.NDTGrid.new [2, 3] [1, 1] [0, 0] : ndt.NDTGrid Unit).at_ [0, 2]
      = Except.error "Out of bounds!" ∧
    (ndt.NDTGrid.new [3, 2] [1, 1] [0, 0] : ndt.NDTGrid Unit).data_size = 6 ∧
    (ndt.NDTGrid.new [3, 2] [1, 1] [0, 0] : ndt.NDTGrid Unit).steps = [1, 2] ∧
    (ndt.NDTGrid.new [3, 2] [1, 1] [0, 0] : ndt.NDTGrid Unit).in_range [2, 0] ∧
    (ndt.NDTGrid.new [3, 2] [1, 1] [0, 0] : ndt.NDTGrid Unit).in_range [0, 1] ∧
    (ndt.NDTGrid.new [3, 2] [1, 1] [0, 0] : ndt.NDTGrid Unit).pos [2, 0] = 2 ∧
    (ndt.NDTGrid.new [3, 2] [1, 1] [0, 0] : ndt.NDTGrid Unit).pos [0, 1] = 2 ∧
    (ndt.NDTGrid.new [3, 2] [1, 1] [0, 0] : ndt.NDTGrid Unit).at_ [2, 0] = Except.ok 2 ∧
    (ndt.NDTGrid.new [3, 2] [1, 1] [0, 0] : ndt.NDTGrid Unit).at_ [0, 1] = Except.ok 2 := by
  refine ⟨by decide, by decide, by decide, by decide, by decide, rfl, by decide,
    by decide, by decide, by decide, by decide, by decide, rfl, rfl⟩

end cslibs_ndt_3d
